import Mathlib

/-! Windows job supervisor (`jobsupervisor/windows_job_supervisor.go`).

A shallow embedding of the service descriptor translator
(`WindowsProcess.ServiceWrapperConfig`), of the operations of
`windowsJobSupervisor` (`Start`, `Stop`, `Status`, `Unmonitor`, `AddJob`,
`Processes`, `RemoveAllJobs`, `Reload`) and of the request handler of
`MonitorJobFailures`, then of the disk inventory parsers of package
`windisk` and of `comparePersistentDisk` of `agent/bootstrap.go`, followed by
the properties proved about them.

Conventions of the embedding:

* Go slices are lists; a nil slice and an empty slice are both `[]`
  (the source only ever takes their `len` and ranges over them).
* A Go `map[string]string` is an association list with pairwise distinct
  keys (`GoMap.WF`).  Go leaves the iteration order of `range` over a map
  unspecified, so the list order of a `GoMap` value is the order in which
  `range` visits the entries in the call under consideration; two lists
  denote the same mapping when every key looks up the same value
  (`GoMap.sameMapping`).
* A Go `*StopCommand` is an `Option StopCommand` (`nil` is `none`).
* Go `int` is `Int`; `%d` renders it in decimal.
-/

set_option maxRecDepth 100000

namespace jobsupervisor

/-! ## Data model -/

/-- Go `map[string]string`, as the list of its entries in `range` order. -/
abbrev GoMap := List (String × String)

/-- Well-formed map: no key occurs twice. -/
def GoMap.WF (m : GoMap) : Prop := (m.map Prod.fst).Nodup

instance GoMap.decidableWF (m : GoMap) : Decidable m.WF := by
  unfold GoMap.WF
  infer_instance

/-- Go `m[k]` with presence flag: the value stored under `k`, if any. -/
def GoMap.get? (m : GoMap) (k : String) : Option String :=
  (m.find? (fun e => e.1 == k)).map Prod.snd

/-- Two entry lists denote the same mapping. -/
def GoMap.sameMapping (m₁ m₂ : GoMap) : Prop := ∀ k, m₁.get? k = m₂.get? k

/-- Package variable `pipeExePath` (its initial value; only a test helper
reassigns it). -/
def pipeExePath : String := "C:\\var\\vcap\\bosh\\bin\\pipe.exe"

/-- Constant `serviceDescription`. -/
def serviceDescription : String := "vcap"

structure serviceLogMode where
  Mode : String
  SizeThreshold : String
  KeepFiles : String
  deriving DecidableEq, Repr

structure serviceOnfailure where
  Action : String
  Delay : String
  deriving DecidableEq, Repr

structure serviceEnv where
  Name : String
  Value : String
  deriving DecidableEq, Repr

structure WindowsServiceWrapperConfig where
  ID : String
  Name : String
  Description : String
  Executable : String
  Arguments : List String
  StopExecutable : String
  StopArguments : List String
  StartArguments : List String
  LogPath : String
  LogMode : serviceLogMode
  Onfailure : serviceOnfailure
  Env : List serviceEnv
  StopParentProcessFirst : Bool
  deriving DecidableEq, Repr

structure StopCommand where
  Executable : String
  Args : List String
  deriving DecidableEq, Repr

structure WindowsProcess where
  Name : String
  Executable : String
  Args : List String
  Env : GoMap
  Stop : Option StopCommand
  deriving DecidableEq, Repr

/-! ## Service descriptor translator -/

/-- Go `fmt.Sprintf("http://localhost:%d", eventPort)`. -/
def notifyHTTP (eventPort : Int) : String :=
  "http://localhost:" ++ toString eventPort

/-- The descriptor before the argument placement and the environment are
filled in: the composite literal assigned to `srcv`, every field that the
literal does not mention holding its zero value. -/
def baseConfig (p : WindowsProcess) (logPath : String) : WindowsServiceWrapperConfig :=
  { ID := p.Name
    Name := p.Name
    Description := serviceDescription
    Executable := pipeExePath
    Arguments := []
    StopExecutable := ""
    StopArguments := []
    StartArguments := []
    LogPath := logPath
    LogMode := { Mode := "roll-by-size", SizeThreshold := "50000", KeepFiles := "7" }
    Onfailure := { Action := "restart", Delay := "5 sec" }
    Env := []
    StopParentProcessFirst := false }

/-- The `if p.Stop != nil && len(p.Stop.Args) != 0 ... else ...` statement of
`ServiceWrapperConfig`, applied to the descriptor `srcv`. -/
def placeArguments (p : WindowsProcess) (srcv : WindowsServiceWrapperConfig) :
    WindowsServiceWrapperConfig :=
  let args := p.Executable :: p.Args
  match p.Stop with
  | some stop =>
    if stop.Args.length ≠ 0 then
      { srcv with
        StartArguments := args
        StopArguments := stop.Args
        StopExecutable := if stop.Executable ≠ "" then stop.Executable else p.Executable }
    else
      { srcv with Arguments := args }
  | none => { srcv with Arguments := args }

/-- The four entries appended after the caller-supplied environment. -/
def pipeEnv (p : WindowsProcess) (logPath : String) (eventPort : Int) (machineIP : String) :
    List serviceEnv :=
  [ { Name := "__PIPE_SERVICE_NAME", Value := p.Name },
    { Name := "__PIPE_LOG_DIR", Value := logPath },
    { Name := "__PIPE_NOTIFY_HTTP", Value := notifyHTTP eventPort },
    { Name := "__PIPE_MACHINE_IP", Value := machineIP } ]

/-- Method `(*WindowsProcess).ServiceWrapperConfig`. The `range p.Env` loop
appends one entry per map entry, in the order of the visit. -/
def WindowsProcess.ServiceWrapperConfig (p : WindowsProcess) (logPath : String)
    (eventPort : Int) (machineIP : String) : WindowsServiceWrapperConfig :=
  let srcv := placeArguments p (baseConfig p logPath)
  let env := p.Env.foldl (fun acc kv => acc ++ [{ Name := kv.1, Value := kv.2 }]) []
  { srcv with Env := env ++ pipeEnv p logPath eventPort machineIP }

/-- The name-to-value map a consumer builds from an environment list with
`for _, e := range env { m[e.Name] = e.Value }`: a later entry overrides an
earlier one of the same name. -/
def envMap (env : List serviceEnv) : String → Option String :=
  env.foldl (fun m e => fun k => if k = e.Name then some e.Value else m k) (fun _ => none)

/-- The four environment names reserved for the pipe shim. -/
def reservedNames : List String :=
  ["__PIPE_SERVICE_NAME", "__PIPE_LOG_DIR", "__PIPE_NOTIFY_HTTP", "__PIPE_MACHINE_IP"]

/-! ## Collaborators of the supervisor

The supervisor talks to a file system (`boshsys.FileSystem`), to the service
manager handle (`winsvc.Mgr`), to a command runner, to a logger and to
standard output.  No collaborator is defined in the source file, so the
service manager and the command runner are parameters (`MgrOps`, `CmdOps`:
any state type, any behaviour), and the file system is a small model with
fault injection: every fallible call consumes one entry of `faults` and
fails, changing nothing else, when that entry is an error. -/

/-- Go `error` values, by their message. -/
abbrev Error := String

deriving instance DecidableEq for Except

/-- Go `bosherr.WrapError(err, msg)`: the message, a colon, the cause. -/
def WrapError (err : Error) (msg : String) : Error := msg ++ ": " ++ err

namespace svc

/-- Go `svc.State` (an unsigned integer) of `golang.org/x/sys/windows/svc`. -/
abbrev State := Nat

def Stopped : State := 1
def StartPending : State := 2
def StopPending : State := 3
def Running : State := 4
def ContinuePending : State := 5
def PausePending : State := 6
def Paused : State := 7

end svc

/-- One element of the result of `mgr.Status()`: the source reads its
`Name` and `State` fields. -/
structure ServiceStatus where
  Name : String
  State : svc.State
  deriving DecidableEq, Repr

/-- The behaviour of the service manager handle `w.mgr`, over an arbitrary
type `M` of service-manager states.  Each method returns its Go result
together with the next service-manager state. -/
structure MgrOps (M : Type) where
  DisableAgentAutoStart : M → M
  Start : M → Option Error × M
  Stop : M → Option Error × M
  Status : M → Except Error (List ServiceStatus) × M
  Unmonitor : M → Option Error × M
  Delete : M → Option Error × M

/-- The behaviour of the command runner `w.cmdRunner` on the state `M` of
the operating system's services: the error of `RunCommand(cmd, args...)`
(the source discards the three other results) and the next state. -/
structure CmdOps (M : Type) where
  RunCommand : M → String → List String → Option Error × M

/-- Struct `boshalert.MonitAlert`: the fields the listener fills in. -/
structure MonitAlert where
  ID : String
  Service : String
  Event : String
  Action : String
  Date : String
  Description : String
  deriving DecidableEq, Repr

/-- A call made to a collaborator; the supervisor records them in order.
A logger call is recorded with its format and its arguments, a call of the
failure handler with the alert it receives. -/
inductive Call where
  | fsFileExists (path : String)
  | fsRemoveAll (path : String)
  | fsWriteFileString (path content : String)
  | mgrDisableAgentAutoStart
  | mgrStart
  | mgrStop
  | mgrStatus
  | println (line : String)
  | mgrUnmonitor
  | mgrDelete
  | fsReadFile (path : String)
  | fsMkdirAll (path : String) (perm : Nat)
  | fsWriteFile (path content : String)
  | fsCopyFile (src dst : String)
  | cmdRunCommand (cmd : String) (args : List String)
  | loggerDebug (tag format : String) (args : List String)
  | loggerError (tag format : String) (args : List String)
  | handler (alert : MonitAlert)
  | processSignalKill
  deriving DecidableEq, Repr

/-- Whether the call goes to the service manager. -/
def Call.isMgr : Call → Bool
  | .mgrDisableAgentAutoStart => true
  | .mgrStart => true
  | .mgrStop => true
  | .mgrStatus => true
  | .mgrUnmonitor => true
  | .mgrDelete => true
  | _ => false

/-- Whether the call changes the file system or runs a command. -/
def Call.isEffect : Call → Bool
  | .fsRemoveAll _ => true
  | .fsWriteFileString _ _ => true
  | .fsMkdirAll _ _ => true
  | .fsWriteFile _ _ => true
  | .fsCopyFile _ _ => true
  | .cmdRunCommand _ _ => true
  | _ => false

/-- Whether the call runs a command. -/
def Call.isCommand : Call → Bool
  | .cmdRunCommand _ _ => true
  | _ => false

/-- Whether the call invokes the failure handler. -/
def Call.isHandler : Call → Bool
  | .handler _ => true
  | _ => false

/-- The file system: regular files by path, and the outcomes scheduled for
the coming fallible calls (`none`: the call succeeds; an exhausted schedule:
every call succeeds). -/
structure FileSystem where
  files : List (String × String)
  faults : List (Option Error)
  deriving DecidableEq, Repr

/-- Whether path `q` is `p` itself or lies below the directory `p`. -/
def pathUnder (p q : String) : Bool :=
  q == p || (p ++ "\\").toList.isPrefixOf q.toList || (p ++ "/").toList.isPrefixOf q.toList

/-- Method `FileExists` of the file system. -/
def FileSystem.FileExists (fs : FileSystem) (path : String) : Bool :=
  fs.files.any (fun f => f.1 == path)

/-- The outcome scheduled for the next fallible call, and the file system
with that outcome consumed. -/
def FileSystem.nextFault (fs : FileSystem) : Option Error × FileSystem :=
  match fs.faults with
  | [] => (none, fs)
  | f :: rest => (f, { fs with faults := rest })

/-- Method `WriteFileString`: on success the file holds exactly `content`. -/
def FileSystem.WriteFileString (fs : FileSystem) (path content : String) :
    Option Error × FileSystem :=
  match fs.nextFault with
  | (some err, fs1) => (some err, fs1)
  | (none, fs1) =>
    (none, { fs1 with files := (path, content) :: fs1.files.filter (fun f => !(f.1 == path)) })

/-- Method `RemoveAll`: on success neither `path` nor anything below it is
left. -/
def FileSystem.RemoveAll (fs : FileSystem) (path : String) : Option Error × FileSystem :=
  match fs.nextFault with
  | (some err, fs1) => (some err, fs1)
  | (none, fs1) =>
    (none, { fs1 with files := fs1.files.filter (fun f => !(pathUnder path f.1)) })

/-- Method `ReadFile`: the content of the file, an error when there is no
such file. -/
def FileSystem.ReadFile (fs : FileSystem) (path : String) : Except Error String × FileSystem :=
  match fs.nextFault with
  | (some err, fs1) => (.error err, fs1)
  | (none, fs1) =>
    match fs1.files.find? (fun f => f.1 == path) with
    | some f => (.ok f.2, fs1)
    | none => (.error ("open " ++ path ++ ": The system cannot find the file specified."), fs1)

/-- Method `MkdirAll` (directories are not tracked: a successful call
leaves the files as they are). -/
def FileSystem.MkdirAll (fs : FileSystem) (_path : String) (_perm : Nat) :
    Option Error × FileSystem :=
  fs.nextFault

/-- Method `WriteFile`: on success the file holds exactly `content`. -/
def FileSystem.WriteFile (fs : FileSystem) (path content : String) :
    Option Error × FileSystem :=
  match fs.nextFault with
  | (some err, fs1) => (some err, fs1)
  | (none, fs1) =>
    (none, { fs1 with files := (path, content) :: fs1.files.filter (fun f => !(f.1 == path)) })

/-- Method `CopyFile`: on success `dst` holds the content of `src`; an error
when there is no file `src`. -/
def FileSystem.CopyFile (fs : FileSystem) (src dst : String) : Option Error × FileSystem :=
  match fs.nextFault with
  | (some err, fs1) => (some err, fs1)
  | (none, fs1) =>
    match fs1.files.find? (fun f => f.1 == src) with
    | some f =>
      (none, { fs1 with files := (dst, f.2) :: fs1.files.filter (fun g => !(g.1 == dst)) })
    | none => (some ("open " ++ src ++ ": The system cannot find the file specified."), fs1)

/-- The directories the supervisor asks `boshdirs.Provider` for. -/
structure Provider where
  MonitDir : String
  LogsDir : String
  BoshBinDir : String
  deriving DecidableEq, Repr

/-! ### Package `path/filepath` of the Windows build

The functions follow the Go standard library (release 1.22).  A path is a
list of characters; the library works on bytes, and cuts and compares only at
ASCII bytes, where the two views agree. -/

/-- Go `os.IsPathSeparator` on Windows. -/
def isPathSeparator (c : Char) : Bool := c == '\\' || c == '/'

/-- Go `filepath.FromSlash` on Windows: every `/` becomes the separator. -/
def fromSlash (path : List Char) : List Char :=
  path.map (fun c => if c == '/' then '\\' else c)

/-- Function `toUpper` of `path_windows.go`, on ASCII letters. -/
def toUpperASCII (c : Char) : Char :=
  if 'a' ≤ c ∧ c ≤ 'z' then Char.ofNat (c.toNat - 32) else c

/-- Function `pathHasPrefixFold`: whether `s` begins with `pre`, letter case
ignored and all separators alike, and goes on with a separator if it goes
on. -/
def pathHasPrefixFold (s pre : List Char) : Bool :=
  if s.length < pre.length then false
  else
    (List.zip pre s).all (fun pc =>
        if isPathSeparator pc.1 then isPathSeparator pc.2
        else toUpperASCII pc.1 == toUpperASCII pc.2) &&
      !(s.length > pre.length && !isPathSeparator ((s.drop pre.length).headD '\\'))

/-- The loop of function `uncLen` from index `i` on, after `count`
separators: the index of the second separator, the length of the path when
there is none. -/
def uncLenLoop : List Char → Nat → Nat → Nat
  | [], i, _ => i
  | c :: cs, i, count =>
    if isPathSeparator c then
      if count + 1 = 2 then i else uncLenLoop cs (i + 1) (count + 1)
    else uncLenLoop cs (i + 1) count

/-- Function `uncLen`: the length of the volume of a UNC path whose host
starts at index `prefixLen`. -/
def uncLen (path : List Char) (prefixLen : Nat) : Nat :=
  if prefixLen ≤ path.length then uncLenLoop (path.drop prefixLen) prefixLen 0
  else path.length

/-- Function `volumeNameLen` of `path_windows.go`: the length of the leading
volume name. -/
def volumeNameLen (path : List Char) : Nat :=
  if path.length ≥ 2 ∧ (path.headD ' ').toNat < 128 ∧ path[1]? = some ':' then 2
  else if path.length = 0 ∨ !isPathSeparator (path.headD ' ') then 0
  else if pathHasPrefixFold path "\\\\.\\UNC".toList then uncLen path 8
  else if pathHasPrefixFold path "\\\\.".toList ∨ pathHasPrefixFold path "\\\\?".toList ∨
      pathHasPrefixFold path "\\??".toList then
    if path.length = 3 then 3
    else if (path.drop 4).any isPathSeparator then
      path.length - ((path.drop 4).dropWhile (fun c => !isPathSeparator c)).length
    else path.length
  else if path.length ≥ 2 ∧ isPathSeparator (path[1]?.getD ' ') then uncLen path 2
  else 0

/-- Struct `lazybuf` of `path.go`: `out` is the written part `buf[:w]`, and
`isNil` tells that `buf` is still nil, the written part being a prefix of
`path`. -/
structure lazybuf where
  path : List Char
  out : List Char
  isNil : Bool
  deriving DecidableEq, Repr

/-- Method `append` of `lazybuf`. -/
def lazybuf.append (b : lazybuf) (c : Char) : lazybuf :=
  if b.isNil ∧ b.path[b.out.length]? = some c then { b with out := b.out ++ [c] }
  else { b with out := b.out ++ [c], isNil := false }

/-- The loop `for out.w > dotdot && !IsPathSeparator(out.index(out.w))` of
`Clean`, from the write index `w`. -/
def scanBack (dotdot : Nat) (out : List Char) : Nat → Nat
  | 0 => 0
  | w + 1 =>
    if w + 1 > dotdot ∧ !isPathSeparator (out.getD (w + 1) '\\') then scanBack dotdot out w
    else w + 1

/-- The elements of a path between its separators; `cur` holds the current
element in reverse. -/
def pathElements : List Char → List Char → List (List Char)
  | [], cur => [cur.reverse]
  | c :: cs, cur =>
    if isPathSeparator c then cur.reverse :: pathElements cs [] else pathElements cs (c :: cur)

/-- One turn of the loop of `Clean`, at the element `elem`: the buffer and
the index `dotdot` afterwards.  An empty element and `.` are skipped, `..`
removes the element before it when there is one after `dotdot`, is written
when the path is not rooted and dropped otherwise, and any other element is
written after a separator. -/
def cleanElem (rooted : Bool) (st : lazybuf × Nat) (elem : List Char) : lazybuf × Nat :=
  if elem = [] ∨ elem = ['.'] then st
  else if elem = ['.', '.'] then
    if st.1.out.length > st.2 then
      ({ st.1 with out := st.1.out.take (scanBack st.2 st.1.out (st.1.out.length - 1)) }, st.2)
    else if !rooted then
      ((((if st.1.out.length > 0 then st.1.append '\\' else st.1).append '.').append '.'),
        (((if st.1.out.length > 0 then st.1.append '\\' else st.1).append '.').append
          '.').out.length)
    else st
  else
    (elem.foldl lazybuf.append
      (if (rooted && st.1.out.length != 1) || (!rooted && st.1.out.length != 0) then
        st.1.append '\\'
      else st.1), st.2)

/-- Function `postClean` of `path_windows.go`. -/
def postClean (volLen : Nat) (b : lazybuf) : lazybuf :=
  if volLen ≠ 0 ∨ b.isNil then b
  else if (b.out.takeWhile (fun c => !isPathSeparator c)).contains ':' then
    { b with out := '.' :: '\\' :: b.out }
  else if b.out.length ≥ 3 ∧ isPathSeparator (b.out.headD ' ') ∧ b.out[1]? = some '?' ∧
      b.out[2]? = some '?' then
    { b with out := '\\' :: '.' :: b.out }
  else b

/-- Go `filepath.Clean` on the characters of a path. -/
def cleanChars (original : List Char) : List Char :=
  if original.drop (volumeNameLen original) = [] then
    if volumeNameLen original > 1 ∧ isPathSeparator (original.headD ' ') ∧
        isPathSeparator (original[1]?.getD ' ') then
      fromSlash original
    else original ++ ['.']
  else
    let path := original.drop (volumeNameLen original)
    let rooted := isPathSeparator (path.headD ' ')
    let b0 : lazybuf := { path := path, out := [], isNil := true }
    let st := (pathElements path []).foldl (cleanElem rooted)
      (if rooted then (b0.append '\\', 1) else (b0, 0))
    let b1 := if st.1.out.length = 0 then st.1.append '.' else st.1
    fromSlash (original.take (volumeNameLen original) ++
      (postClean (volumeNameLen original) b1).out)

/-- Go `filepath.Clean`. -/
def filepathClean (path : String) : String := String.mk (cleanChars path.toList)

/-- One turn of the loop of function `join` of `path_windows.go`: the builder
and `lastChar` after the element `e`. -/
def joinElem (st : List Char × Char) (e : List Char) : List Char × Char :=
  if st.1.length = 0 then
    if e.length > 0 then (e, e.getLastD ' ') else st
  else if isPathSeparator st.2 then
    let e1 := e.dropWhile isPathSeparator
    let b1 :=
      if st.1.length = 1 ∧ ['?', '?'].isPrefixOf e1 ∧
          (e1.length = 2 ∨ isPathSeparator (e1[2]?.getD ' ')) then
        st.1 ++ ['.', '\\']
      else st.1
    if e1.length > 0 then (b1 ++ e1, e1.getLastD ' ') else (b1, st.2)
  else if st.2 = ':' then
    if e.length > 0 then (st.1 ++ e, e.getLastD ' ') else st
  else
    if e.length > 0 then (st.1 ++ ['\\'] ++ e, e.getLastD ' ') else (st.1 ++ ['\\'], '\\')

/-- Go `filepath.Join` of the Windows build. -/
def filepathJoin (elems : List String) : String :=
  let b := (elems.foldl (fun st e => joinElem st e.toList) ([], Char.ofNat 0)).1
  if b.length = 0 then "" else String.mk (cleanChars b)

/-- Go `filepath.Dir` of the Windows build. -/
def filepathDir (path : String) : String :=
  let vol := fromSlash (path.toList.take (volumeNameLen path.toList))
  let dir := cleanChars
    (((path.toList.drop (volumeNameLen path.toList)).reverse.dropWhile
      (fun c => !isPathSeparator c)).reverse)
  if dir = ['.'] ∧ vol.length > 2 then String.mk vol else String.mk (vol ++ dir)

/-- Go `strings.Split(s, "/")` on the characters of `s`: `cur` holds the
current element in reverse. -/
def splitSlash : List Char → List Char → List String
  | [], cur => [String.mk cur.reverse]
  | c :: cs, cur =>
    if c == '/' then String.mk cur.reverse :: splitSlash cs [] else splitSlash cs (c :: cur)

/-- The element stack of Go `path.Clean` after one more element: empty
elements and `.` are dropped, `..` removes the element before it, is kept
when the path is not rooted and there is none, and is dropped at the root. -/
def cleanPush (rooted : Bool) (stack : List String) (elem : String) : List String :=
  if elem = "" ∨ elem = "." then stack
  else if elem = ".." then
    match stack.getLast? with
    | some top => if top = ".." then stack ++ [".."] else stack.dropLast
    | none => if rooted then stack else stack ++ [".."]
  else stack ++ [elem]

/-- Go `path.Clean`. -/
def pathClean (path : String) : String :=
  if path = "" then "."
  else
    let rooted := path.toList.head? == some '/'
    let stack := (splitSlash path.toList []).foldl (cleanPush rooted) []
    if rooted then "/" ++ "/".intercalate stack
    else if stack = [] then "." else "/".intercalate stack

/-- Go `path.Join`: the non-empty elements joined by slashes and cleaned,
the empty string when there is none. -/
def pathJoin (elems : List String) : String :=
  if elems.filter (fun e => e ≠ "") = [] then ""
  else pathClean ("/".intercalate (elems.filter (fun e => e ≠ "")))

/-! ## The supervisor -/

/-- Go `supervisorState` with its two constants. -/
inductive supervisorState where
  | stateEnabled
  | stateDisabled
  deriving DecidableEq, Repr

/-- Struct `windowsJobSupervisor`: the fields the lifecycle operations read
or write, the state of the service manager behind `mgr`, and the record
`trace` of the collaborator calls made so far (oldest first). -/
structure windowsJobSupervisor (M : Type) where
  dirProvider : Provider
  fs : FileSystem
  machineIP : String
  jobFailuresServerPort : Int
  state : supervisorState
  mgr : M
  trace : List Call
  deriving DecidableEq, Repr

variable {M : Type}

/-- Record one collaborator call. -/
def windowsJobSupervisor.log (w : windowsJobSupervisor M) (c : Call) :
    windowsJobSupervisor M :=
  { w with trace := w.trace ++ [c] }

/-- Method `stateSet`. -/
def windowsJobSupervisor.stateSet (w : windowsJobSupervisor M) (s : supervisorState) :
    windowsJobSupervisor M :=
  { w with state := s }

/-- Method `stateIs`. -/
def windowsJobSupervisor.stateIs (w : windowsJobSupervisor M) (s : supervisorState) : Bool :=
  w.state == s

/-- Method `stoppedFilePath`. -/
def windowsJobSupervisor.stoppedFilePath (w : windowsJobSupervisor M) : String :=
  filepathJoin [w.dirProvider.MonitDir, "stopped"]

/-- Method `Start`: the returned error (`none` for Go `nil`) and the
supervisor afterwards. -/
def windowsJobSupervisor.Start (ops : MgrOps M) (w : windowsJobSupervisor M) :
    Option Error × windowsJobSupervisor M :=
  let w1 := { w.log .mgrDisableAgentAutoStart with mgr := ops.DisableAgentAutoStart w.mgr }
  match ops.Start w1.mgr with
  | (some err, m) =>
    (some (WrapError err "Starting windows job process"), { w1.log .mgrStart with mgr := m })
  | (none, m) =>
    let w2 := { w1.log .mgrStart with mgr := m }
    match w2.fs.RemoveAll w2.stoppedFilePath with
    | (some err, fs) =>
      (some (WrapError err "Removing stopped file"),
        { w2.log (.fsRemoveAll w2.stoppedFilePath) with fs := fs })
    | (none, fs) =>
      let w3 := { w2.log (.fsRemoveAll w2.stoppedFilePath) with fs := fs }
      (none, w3.stateSet .stateEnabled)

/-- Method `Stop`. -/
def windowsJobSupervisor.Stop (ops : MgrOps M) (w : windowsJobSupervisor M) :
    Option Error × windowsJobSupervisor M :=
  match ops.Stop w.mgr with
  | (some err, m) =>
    (some (WrapError err "Stopping services"), { w.log .mgrStop with mgr := m })
  | (none, m) =>
    let w1 := { w.log .mgrStop with mgr := m }
    match w1.fs.WriteFileString w1.stoppedFilePath "" with
    | (some err, fs) =>
      (some (WrapError err "Removing stop services"),
        { w1.log (.fsWriteFileString w1.stoppedFilePath "") with fs := fs })
    | (none, fs) =>
      (none, { w1.log (.fsWriteFileString w1.stoppedFilePath "") with fs := fs })

/-- The loop `for _, status := range sts` of `Status` with the `return`
after it. -/
def statusLoop : List ServiceStatus → String
  | [] => "running"
  | status :: rest => if status.State ≠ svc.Running then "failing" else statusLoop rest

/-- Method `Status`: the returned status and the supervisor afterwards. -/
def windowsJobSupervisor.Status (ops : MgrOps M) (w : windowsJobSupervisor M) :
    String × windowsJobSupervisor M :=
  let w1 := w.log (.fsFileExists w.stoppedFilePath)
  if w.fs.FileExists w.stoppedFilePath then
    ("stopped", w1)
  else
    match ops.Status w1.mgr with
    | (.error err, m) =>
      ("failing", { (w1.log .mgrStatus).log (.println ("STATUS - ERROR: " ++ err)) with mgr := m })
    | (.ok sts, m) =>
      let w2 := { w1.log .mgrStatus with mgr := m }
      if sts.length = 0 then ("running", w2) else (statusLoop sts, w2)

/-- Struct `WindowsProcessConfig`. -/
structure WindowsProcessConfig where
  Processes : List WindowsProcess
  deriving DecidableEq, Repr

/-- Struct `windowsServiceEvent`. -/
structure windowsServiceEvent where
  Event : String
  ProcessName : String
  ExitCode : Int
  deriving DecidableEq, Repr

/-- Modelled from the spec: struct `UptimeVitals` of the supervisor
interface, declared outside the source file. -/
structure UptimeVitals where
  Secs : Int := 0
  deriving DecidableEq, Repr

/-- Modelled from the spec: struct `MemoryVitals` of the supervisor interface,
declared outside the source file; the tests read `Kb` as a number (the
floating-point field is a rational here: only its zero value occurs). -/
structure MemoryVitals where
  Kb : Int := 0
  Percent : Rat := 0
  deriving DecidableEq, Repr

/-- Modelled from the spec: struct `CPUVitals` of the supervisor interface,
declared outside the source file; the tests read `Total` as a number (a
rational here: only its zero value occurs). -/
structure CPUVitals where
  Total : Rat := 0
  deriving DecidableEq, Repr

/-- Struct `Process` of the supervisor interface: the two fields that
`Processes` fills in, and the vitals, which it leaves at their zero
value. -/
structure Process where
  Name : String
  State : String
  Uptime : UptimeVitals := {}
  Memory : MemoryVitals := {}
  CPU : CPUVitals := {}
  deriving DecidableEq, Repr

/-- The encoders and decoders of the Go standard library that the supervisor
calls, as parameters: `json.NewDecoder(r.Body).Decode(&event)`,
`json.Unmarshal(configFileContents, &processConfig)` and
`xml.NewEncoder(&buf).Encode(serviceConfig)` with the bytes left in `buf`. -/
structure Codecs where
  decodeEvent : String → Except Error windowsServiceEvent
  unmarshalConfig : String → Except Error WindowsProcessConfig
  xmlEncode : WindowsServiceWrapperConfig → Except Error String

/-- Everything the supervisor calls that the source file does not define. -/
structure Collaborators (M : Type) where
  mgr : MgrOps M
  cmd : CmdOps M
  codecs : Codecs

/-- Field `logTag` as set by the constructor. -/
def logTag : String := "windowsJobSupervisor"

def serviceWrapperExeFileName : String := "job-service-wrapper.exe"
def serviceWrapperConfigFileName : String := "job-service-wrapper.xml"
def serviceWrapperAppConfigFileName : String := "job-service-wrapper.exe.config"

/-- Constant `serviceWrapperAppConfigBody`. -/
def serviceWrapperAppConfigBody : String :=
  "\n<configuration>\n  <startup>\n    <supportedRuntime version=\"v4.0\" />\n  </startup>\n</configuration>\n"

/-- Function `matchService`. -/
def matchService (description : String) : Bool := description == serviceDescription

/-- Function `NewWindowsJobSupervisor`: `monitorErr` is the error of
`monitor.New(-1)`, `connect` the result of `winsvc.Connect(matchService)`
(its error and the service manager it returns). -/
def NewWindowsJobSupervisor (dirProvider : Provider) (fs : FileSystem)
    (jobFailuresServerPort : Int) (machineIP : String) (monitorErr : Option Error)
    (connect : Option Error × M) : windowsJobSupervisor M :=
  let s : windowsJobSupervisor M :=
    { dirProvider := dirProvider, fs := fs, machineIP := machineIP,
      jobFailuresServerPort := jobFailuresServerPort, state := .stateEnabled,
      mgr := connect.2, trace := [] }
  let s1 :=
    match monitorErr with
    | some err => s.log (.loggerError logTag "Initializing monitor.Monitor: %s" [err])
    | none => s
  let s2 := s1.stateSet .stateEnabled
  match connect.1 with
  | some err => s2.log (.loggerError logTag "Initializing winsvc.Mgr: %s" [err])
  | none => s2

/-- Method `Reload`. -/
def windowsJobSupervisor.Reload (w : windowsJobSupervisor M) :
    Option Error × windowsJobSupervisor M :=
  (none, w)

/-- Method `StopAndWait`. -/
def windowsJobSupervisor.StopAndWait (ops : MgrOps M) (w : windowsJobSupervisor M) :
    Option Error × windowsJobSupervisor M :=
  w.Stop ops

/-- Method `Unmonitor`. -/
def windowsJobSupervisor.Unmonitor (ops : MgrOps M) (w : windowsJobSupervisor M) :
    Option Error × windowsJobSupervisor M :=
  let w1 := w.stateSet .stateDisabled
  ((ops.Unmonitor w1.mgr).1, { w1.log .mgrUnmonitor with mgr := (ops.Unmonitor w1.mgr).2 })

/-- The table `windowsSvcStateMap`, as the list of its entries. -/
def windowsSvcStateMap : List (svc.State × String) :=
  [(svc.Stopped, "stopped"), (svc.StartPending, "starting"), (svc.StopPending, "stop_pending"),
    (svc.Running, "running"), (svc.ContinuePending, "continue_pending"),
    (svc.PausePending, "pause_pending"), (svc.Paused, "paused")]

/-- Function `SvcStateString`: the entry of the table, the empty string for
a state that has none. -/
def SvcStateString (s : svc.State) : String :=
  match windowsSvcStateMap.find? (fun e => e.1 == s) with
  | some e => e.2
  | none => ""

/-- Method `Processes`. -/
def windowsJobSupervisor.Processes (ops : MgrOps M) (w : windowsJobSupervisor M) :
    Except Error (List Process) × windowsJobSupervisor M :=
  match ops.Status w.mgr with
  | (.error err, m) =>
    (.error (WrapError err "Getting windows job process status"),
      { w.log .mgrStatus with mgr := m })
  | (.ok sts, m) =>
    (.ok (sts.map (fun st => { Name := st.Name, State := SvcStateString st.State })),
      { w.log .mgrStatus with mgr := m })

/-- Method `RemoveAllJobs`. -/
def windowsJobSupervisor.RemoveAllJobs (ops : MgrOps M) (w : windowsJobSupervisor M) :
    Option Error × windowsJobSupervisor M :=
  ((ops.Delete w.mgr).1, { w.log .mgrDelete with mgr := (ops.Delete w.mgr).2 })

/-- Method `HealthRecorder`. -/
def windowsJobSupervisor.HealthRecorder (w : windowsJobSupervisor M) (_status : String) :
    windowsJobSupervisor M :=
  w

/-! ### `AddJob` -/

/-- One statement of `AddJob` that can fail: the error it returns and the
supervisor afterwards. -/
abbrev Step (M : Type) := windowsJobSupervisor M → Option Error × windowsJobSupervisor M

/-- A call of a fallible method of `w.fs`, recorded as `call`, whose error is
returned through `wrap` (the `if err != nil ... return` after the call). -/
def fsStep (call : Call) (op : FileSystem → Option Error × FileSystem) (wrap : Error → Error) :
    Step M := fun w =>
  match op w.fs with
  | (some err, fs) => (some (wrap err), { w.log call with fs := fs })
  | (none, fs) => (none, { w.log call with fs := fs })

/-- A call `w.cmdRunner.RunCommand(cmd, args...)` whose error is returned
through `wrap`. -/
def cmdStep (cmd : CmdOps M) (name : String) (args : List String) (wrap : Error → Error) :
    Step M := fun w =>
  match cmd.RunCommand w.mgr name args with
  | (some err, m) => (some (wrap err), { w.log (.cmdRunCommand name args) with mgr := m })
  | (none, m) => (none, { w.log (.cmdRunCommand name args) with mgr := m })

/-- A call `w.logger.Debug(w.logTag, format, args...)`. -/
def debugStep (format : String) (args : List String) : Step M := fun w =>
  (none, w.log (.loggerDebug logTag format args))

/-- Statements in sequence: the first error returns. -/
def runSteps : List (Step M) → Step M
  | [], w => (none, w)
  | step :: rest, w =>
    match step w with
    | (some err, w1) => (some err, w1)
    | (none, w1) => runSteps rest w1

/-- The log directory of a process: `path.Join(w.dirProvider.LogsDir(),
jobName, process.Name)`. -/
def windowsJobSupervisor.logPath (w : windowsJobSupervisor M) (jobName : String)
    (process : WindowsProcess) : String :=
  pathJoin [w.dirProvider.LogsDir, jobName, process.Name]

/-- The directory of a process: `filepath.Join(filepath.Dir(configPath),
process.Name)`. -/
def processDir (configPath : String) (process : WindowsProcess) : String :=
  filepathJoin [filepathDir configPath, process.Name]

/-- The statements of the loop body of `AddJob` that follow the rendering of
the service configuration into `buf`. -/
def installSteps (cmd : CmdOps M) (w : windowsJobSupervisor M) (jobName configPath : String)
    (process : WindowsProcess) (buf : String) : List (Step M) :=
  [ debugStep "Configuring service wrapper for job %q with configPath %q" [jobName, configPath],
    fsStep (.fsMkdirAll (processDir configPath process) 0o750)
      (fun fs => fs.MkdirAll (processDir configPath process) 0o750)
      (fun err => WrapError err ("Creating job directory for service '" ++ process.Name ++
        "' at '" ++ processDir configPath process ++ "'")),
    fsStep (.fsWriteFile
        (filepathJoin [processDir configPath process, serviceWrapperConfigFileName]) buf)
      (fun fs => fs.WriteFile
        (filepathJoin [processDir configPath process, serviceWrapperConfigFileName]) buf)
      (fun err => WrapError err ("Saving service config file for service '" ++ process.Name ++
        "'")),
    fsStep (.fsWriteFileString
        (filepathJoin [processDir configPath process, serviceWrapperAppConfigFileName])
        serviceWrapperAppConfigBody)
      (fun fs => fs.WriteFileString
        (filepathJoin [processDir configPath process, serviceWrapperAppConfigFileName])
        serviceWrapperAppConfigBody)
      (fun err => WrapError err ("Saving app runtime config file for service '" ++
        process.Name ++ "'")),
    fsStep (.fsCopyFile (filepathJoin [w.dirProvider.BoshBinDir, serviceWrapperExeFileName])
        (filepathJoin [processDir configPath process, serviceWrapperExeFileName]))
      (fun fs => fs.CopyFile (filepathJoin [w.dirProvider.BoshBinDir, serviceWrapperExeFileName])
        (filepathJoin [processDir configPath process, serviceWrapperExeFileName]))
      (fun err => WrapError err ("Copying service wrapper in job directory '" ++
        processDir configPath process ++ "'")),
    cmdStep cmd (filepathJoin [processDir configPath process, serviceWrapperExeFileName])
      ["install"]
      (fun err => WrapError err ("Creating service '" ++ process.Name ++ "'")) ]

/-- The body of the loop `for _, process := range processConfig.Processes`
of `AddJob`. -/
def addJobProcess (c : Collaborators M) (jobName configPath : String)
    (process : WindowsProcess) : Step M := fun w =>
  match fsStep (.fsMkdirAll (w.logPath jobName process) 0o750)
      (fun fs => fs.MkdirAll (w.logPath jobName process) 0o750)
      (fun err => WrapError err ("Creating log directory for service '" ++ process.Name ++
        "'")) w with
  | (some err, w1) => (some err, w1)
  | (none, w1) =>
    match c.codecs.xmlEncode
        (process.ServiceWrapperConfig (w.logPath jobName process) w.jobFailuresServerPort
          w.machineIP) with
    | .error err =>
      (some (WrapError err ("Rendering service config template for service '" ++
        process.Name ++ "'")), w1)
    | .ok buf => runSteps (installSteps c.cmd w jobName configPath process buf) w1

/-- Method `AddJob` (`jobIndex` is not used by the source either). -/
def windowsJobSupervisor.AddJob (c : Collaborators M) (w : windowsJobSupervisor M)
    (jobName : String) (_jobIndex : Int) (configPath : String) :
    Option Error × windowsJobSupervisor M :=
  match w.fs.ReadFile configPath with
  | (.error err, fs) => (some err, { w.log (.fsReadFile configPath) with fs := fs })
  | (.ok configFileContents, fs) =>
    let w1 := { w.log (.fsReadFile configPath) with fs := fs }
    if configFileContents.length = 0 then
      (none, w1.log (.loggerDebug logTag
        "Skipping job configuration for %q, empty monit config file %q" [jobName, configPath]))
    else
      match c.codecs.unmarshalConfig configFileContents with
      | .error err => (some err, w1)
      | .ok processConfig =>
        runSteps (processConfig.Processes.map (addJobProcess c jobName configPath)) w1

/-! ### The failure event listener -/

/-- The alert built by the request handler of `MonitorJobFailures`; `now` is
`time.Now().Format(time.RFC1123Z)`. -/
def failureAlert (event : windowsServiceEvent) (now : String) : MonitAlert :=
  { Action := "Start"
    Date := now
    Event := event.Event
    ID := event.ProcessName
    Service := event.ProcessName
    Description := "exited with code " ++ toString event.ExitCode }

/-- The request handler `hl` of `MonitorJobFailures`, applied to a request
with the given body at the time `now`. -/
def windowsJobSupervisor.handleRequest (codecs : Codecs) (w : windowsJobSupervisor M)
    (body now : String) : windowsJobSupervisor M :=
  if w.stateIs .stateDisabled then w
  else
    match codecs.decodeEvent body with
    | .error err =>
      w.log (.loggerError logTag "MonitorJobFailures received unknown request: %s" [err])
    | .ok event => w.log (.handler (failureAlert event now))

/-- What the listener observes, in the order in which it handles it: a
request arriving at the server, a value on `w.cancelServer`, or the server
process finishing with the given error on `process.Wait()`. -/
inductive ListenerEvent where
  | request (body now : String)
  | cancel
  | exited (err : Option Error)
  deriving DecidableEq, Repr

/-- Method `MonitorJobFailures` over the events it observes: `some err` when
the method has returned `err`, `none` while it is still listening. -/
def windowsJobSupervisor.MonitorJobFailures (codecs : Codecs) :
    List ListenerEvent → windowsJobSupervisor M → Option (Option Error) × windowsJobSupervisor M
  | [], w => (none, w)
  | .request body now :: rest, w =>
    windowsJobSupervisor.MonitorJobFailures codecs rest (w.handleRequest codecs body now)
  | .cancel :: rest, w =>
    windowsJobSupervisor.MonitorJobFailures codecs rest (w.log .processSignalKill)
  | .exited (some err) :: _, w => (some (some (WrapError err "Listen for HTTP")), w)
  | .exited none :: _, w => (some none, w)

/-- The supervisor after the request handler has handled the given requests
(body and time of arrival) one after the other. -/
def windowsJobSupervisor.handleRequests (codecs : Codecs) (w : windowsJobSupervisor M)
    (requests : List (String × String)) : windowsJobSupervisor M :=
  requests.foldl (fun w1 r => w1.handleRequest codecs r.1 r.2) w

/-- The request handler has logged the request as unknown and has done
nothing else: `w1` is `w` with that one logger call recorded. -/
def loggedAndIgnored (w w1 : windowsJobSupervisor M) : Prop :=
  ∃ err, w1 = w.log (.loggerError logTag "MonitorJobFailures received unknown request: %s" [err])

/-! ### Sequences of operations -/

/-- An operation on the supervisor, with its arguments. -/
inductive Op where
  | Start
  | Stop
  | StopAndWait
  | Unmonitor
  | Status
  | Processes
  | AddJob (jobName : String) (jobIndex : Int) (configPath : String)
  | RemoveAllJobs
  | Reload
  | HealthRecorder (status : String)
  | request (body now : String)
  deriving DecidableEq, Repr

/-- The supervisor after one operation (the result of the operation is
dropped). -/
def applyOp (c : Collaborators M) (w : windowsJobSupervisor M) : Op → windowsJobSupervisor M
  | .Start => (w.Start c.mgr).2
  | .Stop => (w.Stop c.mgr).2
  | .StopAndWait => (w.StopAndWait c.mgr).2
  | .Unmonitor => (w.Unmonitor c.mgr).2
  | .Status => (w.Status c.mgr).2
  | .Processes => (w.Processes c.mgr).2
  | .AddJob jobName jobIndex configPath => (w.AddJob c jobName jobIndex configPath).2
  | .RemoveAllJobs => (w.RemoveAllJobs c.mgr).2
  | .Reload => w.Reload.2
  | .HealthRecorder status => w.HealthRecorder status
  | .request body now => w.handleRequest c.codecs body now

/-- The supervisor after a sequence of operations. -/
def applyOps (c : Collaborators M) (w : windowsJobSupervisor M) (ops : List Op) :
    windowsJobSupervisor M :=
  ops.foldl (applyOp c) w

/-! ### The calls of `AddJob` for one process -/

/-- The bytes `AddJob` writes to the service configuration file of a process:
the XML rendering of its service descriptor (nothing when the rendering
fails, in which case the file is not written). -/
def renderedConfig (codecs : Codecs) (dirProvider : Provider) (port : Int) (machineIP : String)
    (jobName : String) (process : WindowsProcess) : String :=
  match codecs.xmlEncode
      (process.ServiceWrapperConfig (pathJoin [dirProvider.LogsDir, jobName, process.Name]) port
        machineIP) with
  | .ok buf => buf
  | .error _ => ""

/-- The install command of a process: the copied service wrapper. -/
def installCommand (configPath : String) (process : WindowsProcess) : String :=
  filepathJoin [processDir configPath process, serviceWrapperExeFileName]

/-- The collaborator calls of one complete pass through the loop body of
`AddJob`, in order. -/
def processCalls (codecs : Codecs) (dirProvider : Provider) (port : Int) (machineIP : String)
    (jobName configPath : String) (process : WindowsProcess) : List Call :=
  [ .fsMkdirAll (pathJoin [dirProvider.LogsDir, jobName, process.Name]) 0o750,
    .loggerDebug logTag "Configuring service wrapper for job %q with configPath %q"
      [jobName, configPath],
    .fsMkdirAll (processDir configPath process) 0o750,
    .fsWriteFile (filepathJoin [processDir configPath process, serviceWrapperConfigFileName])
      (renderedConfig codecs dirProvider port machineIP jobName process),
    .fsWriteFileString
      (filepathJoin [processDir configPath process, serviceWrapperAppConfigFileName])
      serviceWrapperAppConfigBody,
    .fsCopyFile (filepathJoin [dirProvider.BoshBinDir, serviceWrapperExeFileName])
      (filepathJoin [processDir configPath process, serviceWrapperExeFileName]),
    .cmdRunCommand (installCommand configPath process) ["install"] ]

/-- The descriptions with which the loop body of `AddJob` wraps the error of
a failing step, in the order of the steps. -/
def stepDescriptions (configPath : String) (process : WindowsProcess) : List String :=
  [ "Creating log directory for service '" ++ process.Name ++ "'",
    "Rendering service config template for service '" ++ process.Name ++ "'",
    "Creating job directory for service '" ++ process.Name ++ "' at '" ++
      processDir configPath process ++ "'",
    "Saving service config file for service '" ++ process.Name ++ "'",
    "Saving app runtime config file for service '" ++ process.Name ++ "'",
    "Copying service wrapper in job directory '" ++ processDir configPath process ++ "'",
    "Creating service '" ++ process.Name ++ "'" ]

/-- The supervisor after the call `w.fs.ReadFile(configPath)` with which
`AddJob` starts. -/
def windowsJobSupervisor.afterRead (w : windowsJobSupervisor M) (configPath : String) :
    windowsJobSupervisor M :=
  { w.log (.fsReadFile configPath) with fs := (w.fs.ReadFile configPath).2 }

/-- The calls of one complete pass through the loop body of `AddJob` that
change the file system or run a command, in order. -/
def processEffects (codecs : Codecs) (dirProvider : Provider) (port : Int) (machineIP : String)
    (jobName configPath : String) (process : WindowsProcess) : List Call :=
  [ .fsMkdirAll (pathJoin [dirProvider.LogsDir, jobName, process.Name]) 0o750,
    .fsMkdirAll (processDir configPath process) 0o750,
    .fsWriteFile (filepathJoin [processDir configPath process, serviceWrapperConfigFileName])
      (renderedConfig codecs dirProvider port machineIP jobName process),
    .fsWriteFileString
      (filepathJoin [processDir configPath process, serviceWrapperAppConfigFileName])
      serviceWrapperAppConfigBody,
    .fsCopyFile (filepathJoin [dirProvider.BoshBinDir, serviceWrapperExeFileName])
      (filepathJoin [processDir configPath process, serviceWrapperExeFileName]),
    .cmdRunCommand (installCommand configPath process) ["install"] ]

/-- The files after a successful write of `content` to the file `path`. -/
def writtenFiles (files : List (String × String)) (path content : String) :
    List (String × String) :=
  (path, content) :: files.filter (fun f => !(f.1 == path))

/-- The files after a successful copy of the file `src` to `dst` (no file
`src`: the files as they are). -/
def copiedFiles (files : List (String × String)) (src dst : String) : List (String × String) :=
  match files.find? (fun f => f.1 == src) with
  | some f => writtenFiles files dst f.2
  | none => files

/-- The files after a complete pass of the loop body of `AddJob` for a
process: the rendered service configuration and the application
configuration are written to the directory of the process and the service
wrapper is copied there. -/
def installedFiles (dirProvider : Provider) (configPath rendered : String)
    (process : WindowsProcess) (files : List (String × String)) : List (String × String) :=
  copiedFiles
    (writtenFiles
      (writtenFiles files
        (filepathJoin [processDir configPath process, serviceWrapperConfigFileName]) rendered)
      (filepathJoin [processDir configPath process, serviceWrapperAppConfigFileName])
      serviceWrapperAppConfigBody)
    (filepathJoin [dirProvider.BoshBinDir, serviceWrapperExeFileName])
    (filepathJoin [processDir configPath process, serviceWrapperExeFileName])

/-- The services after the install commands of the processes, in order. -/
def installedServices (cmd : CmdOps M) (configPath : String) (procs : List WindowsProcess)
    (m : M) : M :=
  procs.foldl (fun m p => (cmd.RunCommand m (installCommand configPath p) ["install"]).2) m

/-- Whether the call removes files or service registrations. -/
def Call.isRemoval : Call → Bool
  | .fsRemoveAll _ => true
  | .mgrDelete => true
  | _ => false

/-- What no operation other than `Start` and `Unmonitor` changes: the
supervision state and the configuration of the supervisor. -/
def windowsJobSupervisor.sameFrame (w w1 : windowsJobSupervisor M) : Prop :=
  w1.state = w.state ∧ w1.dirProvider = w.dirProvider ∧ w1.machineIP = w.machineIP ∧
    w1.jobFailuresServerPort = w.jobFailuresServerPort

/-- A statement that records exactly the call `call`, whether it fails or
not, and keeps the frame. -/
def recordsCall (s : Step M) (call : Call) : Prop :=
  ∀ w, w.sameFrame (s w).2 ∧ (s w).2.trace = w.trace ++ [call]

/-- A statement whose error, when it fails, is an error wrapped with the
description `desc`. -/
def wrapsWith (s : Step M) (desc : String) : Prop :=
  ∀ w err, (s w).1 = some err → ∃ e, err = WrapError e desc

/-- The statement of the loop body of `AddJob` that renders the service
configuration of a process: the error of the encoder returns wrapped. -/
def xmlStep (c : Collaborators M) (w0 : windowsJobSupervisor M) (jobName : String)
    (process : WindowsProcess) : Step M := fun w1 =>
  match c.codecs.xmlEncode
      (process.ServiceWrapperConfig (w0.logPath jobName process) w0.jobFailuresServerPort
        w0.machineIP) with
  | .error err =>
    (some (WrapError err ("Rendering service config template for service '" ++
      process.Name ++ "'")), w1)
  | .ok _ => (none, w1)

/-- The statements of the loop body of `AddJob` for a process, in order. -/
def passSteps (c : Collaborators M) (w0 : windowsJobSupervisor M) (jobName configPath : String)
    (process : WindowsProcess) : List (Step M) :=
  fsStep (.fsMkdirAll (w0.logPath jobName process) 0o750)
      (fun fs => fs.MkdirAll (w0.logPath jobName process) 0o750)
      (fun err => WrapError err ("Creating log directory for service '" ++ process.Name ++
        "'")) ::
    xmlStep c w0 jobName process ::
    installSteps c.cmd w0 jobName configPath process
      (renderedConfig c.codecs w0.dirProvider w0.jobFailuresServerPort w0.machineIP jobName
        process)

/-- The collaborator call of each statement of the loop body of `AddJob`, in
the order of the statements: the error that the call returns in a state of
the supervisor, and the description under which `AddJob` returns it.  The
logger call of the third statement returns nothing. -/
def passFailures (c : Collaborators M) (w0 : windowsJobSupervisor M)
    (jobName configPath : String) (process : WindowsProcess) :
    List ((windowsJobSupervisor M → Option Error) × String) :=
  [ (fun w => (w.fs.MkdirAll (w0.logPath jobName process) 0o750).1,
      "Creating log directory for service '" ++ process.Name ++ "'"),
    (fun _ =>
      match c.codecs.xmlEncode
          (process.ServiceWrapperConfig (w0.logPath jobName process) w0.jobFailuresServerPort
            w0.machineIP) with
      | .error err => some err
      | .ok _ => none,
      "Rendering service config template for service '" ++ process.Name ++ "'"),
    (fun _ => none, ""),
    (fun w => (w.fs.MkdirAll (processDir configPath process) 0o750).1,
      "Creating job directory for service '" ++ process.Name ++ "' at '" ++
        processDir configPath process ++ "'"),
    (fun w => (w.fs.WriteFile
        (filepathJoin [processDir configPath process, serviceWrapperConfigFileName])
        (renderedConfig c.codecs w0.dirProvider w0.jobFailuresServerPort w0.machineIP jobName
          process)).1,
      "Saving service config file for service '" ++ process.Name ++ "'"),
    (fun w => (w.fs.WriteFileString
        (filepathJoin [processDir configPath process, serviceWrapperAppConfigFileName])
        serviceWrapperAppConfigBody).1,
      "Saving app runtime config file for service '" ++ process.Name ++ "'"),
    (fun w => (w.fs.CopyFile (filepathJoin [w0.dirProvider.BoshBinDir, serviceWrapperExeFileName])
        (filepathJoin [processDir configPath process, serviceWrapperExeFileName])).1,
      "Copying service wrapper in job directory '" ++ processDir configPath process ++ "'"),
    (fun w => (c.cmd.RunCommand w.mgr
        (filepathJoin [processDir configPath process, serviceWrapperExeFileName])
        ["install"]).1,
      "Creating service '" ++ process.Name ++ "'") ]

/-- A statement that fails exactly when its collaborator call `rd.1` returns
an error, and then returns that error wrapped with the description `rd.2`. -/
def failsWith (s : Step M) (rd : (windowsJobSupervisor M → Option Error) × String) : Prop :=
  ∀ w, (s w).1 = (rd.1 w).map (fun e => WrapError e rd.2)

/-- No fault is scheduled in the file system and the file `src` exists. -/
def FileSystem.sound (fs : FileSystem) (src : String) : Prop :=
  (∀ f ∈ fs.faults, f = none) ∧ fs.FileExists src = true

/-! ## The JSON decoder of the Go standard library

A model of `json.NewDecoder(r.Body).Decode(&event)` for a body of valid
UTF-8 text and a 64-bit `int`: the decoder reads the first JSON value of the
body and leaves what follows it unread; `null` leaves the event at its zero
value; an object stores each member whose key equals the name of a field,
letter case ignored, and skips the others; a member `null` stores nothing; a
value of the wrong type is an error, and so is a top-level value that is
neither an object nor `null`; arrays and objects may nest to the depth
`maxNestingDepth`.  The error messages are not those of the library. -/

namespace json

/-- A JSON value; a number keeps its literal. -/
inductive Value where
  | null
  | bool (b : Bool)
  | number (literal : String)
  | string (s : String)
  | array (elems : List Value)
  | object (members : List (String × Value))
  deriving Repr

def isSpace (c : Char) : Bool := c == ' ' || c == '\t' || c == '\r' || c == '\n'

def skipSpace : List Char → List Char
  | [] => []
  | c :: cs => if isSpace c then skipSpace cs else c :: cs

def hexVal (c : Char) : Option Nat :=
  if '0' ≤ c ∧ c ≤ '9' then some (c.toNat - '0'.toNat)
  else if 'a' ≤ c ∧ c ≤ 'f' then some (c.toNat - 'a'.toNat + 10)
  else if 'A' ≤ c ∧ c ≤ 'F' then some (c.toNat - 'A'.toNat + 10)
  else none

/-- The code unit of an escape `\uXXXX` at the head of the input. -/
def getu4 : List Char → Option Nat
  | '\\' :: 'u' :: a :: b :: c :: d :: _ =>
    match hexVal a, hexVal b, hexVal c, hexVal d with
    | some x, some y, some z, some w => some (((x * 16 + y) * 16 + z) * 16 + w)
    | _, _, _, _ => none
  | _ => none

/-- The character of a one-letter escape. -/
def unescape (c : Char) : Option Char :=
  if c == '"' then some '"'
  else if c == '\\' then some '\\'
  else if c == '/' then some '/'
  else if c == 'b' then some (Char.ofNat 8)
  else if c == 'f' then some (Char.ofNat 12)
  else if c == 'n' then some '\n'
  else if c == 'r' then some '\r'
  else if c == 't' then some '\t'
  else none

/-- The rest of a string literal after its opening quote: the string it
denotes and the input after the closing quote. -/
def scanString : Nat → List Char → List Char → Option (String × List Char)
  | 0, _, _ => none
  | fuel + 1, cs, acc =>
    match cs with
    | [] => none
    | c :: rest =>
      if c == '"' then some (String.mk acc.reverse, rest)
      else if c == '\\' then
        match rest with
        | [] => none
        | e :: rest1 =>
          if e == 'u' then
            match getu4 cs with
            | none => none
            | some r =>
              if 0xD800 ≤ r ∧ r < 0xE000 then
                match getu4 (rest1.drop 4) with
                | some r1 =>
                  if r < 0xDC00 ∧ 0xDC00 ≤ r1 ∧ r1 < 0xE000 then
                    scanString fuel (rest1.drop 10)
                      (Char.ofNat ((r - 0xD800) * 0x400 + (r1 - 0xDC00) + 0x10000) :: acc)
                  else scanString fuel (rest1.drop 4) (Char.ofNat 0xFFFD :: acc)
                | none => scanString fuel (rest1.drop 4) (Char.ofNat 0xFFFD :: acc)
              else scanString fuel (rest1.drop 4) (Char.ofNat r :: acc)
          else
            match unescape e with
            | some ch => scanString fuel rest1 (ch :: acc)
            | none => none
      else if c.toNat < 0x20 then none
      else scanString fuel rest (c :: acc)

/-- The digits at the head of the input, and the input after them. -/
def spanDigits (cs : List Char) : List Char × List Char :=
  (cs.takeWhile Char.isDigit, cs.dropWhile Char.isDigit)

/-- The exponent part of a number literal, if the input starts with one. -/
def scanExponent (cs : List Char) : Option (List Char × List Char) :=
  match cs with
  | e :: rest =>
    if e == 'e' || e == 'E' then
      let sign := rest.takeWhile (fun c => c == '+' || c == '-') |>.take 1
      let rest1 := rest.drop sign.length
      let ds := spanDigits rest1
      if ds.1 = [] then none else some (e :: sign ++ ds.1, ds.2)
    else some ([], cs)
  | [] => some ([], cs)

/-- The fraction part of a number literal, if the input starts with one. -/
def scanFraction (cs : List Char) : Option (List Char × List Char) :=
  match cs with
  | d :: rest =>
    if d == '.' then
      let ds := spanDigits rest
      if ds.1 = [] then none else some (d :: ds.1, ds.2)
    else some ([], cs)
  | [] => some ([], cs)

/-- The integer part of a number literal after its sign: `0`, or a non-zero
digit and the digits after it. -/
def scanIntPart (cs : List Char) : Option (List Char × List Char) :=
  match cs with
  | d :: rest =>
    if d == '0' then some ([d], rest)
    else if d.isDigit then some (d :: (spanDigits rest).1, (spanDigits rest).2)
    else none
  | [] => none

/-- A number literal at the head of the input, and the input after it. -/
def scanNumber (cs : List Char) : Option (String × List Char) :=
  let sign := cs.takeWhile (fun c => c == '-') |>.take 1
  match scanIntPart (cs.drop sign.length) with
  | none => none
  | some (int, rest) =>
    match scanFraction rest with
    | none => none
    | some (frac, rest1) =>
      match scanExponent rest1 with
      | none => none
      | some (exp, rest2) => some (String.mk (sign ++ int ++ frac ++ exp), rest2)

/-- The input after the literal `lit`, if the input starts with it. -/
def dropLiteral (lit : List Char) (cs : List Char) : Option (List Char) :=
  if lit.isPrefixOf cs then some (cs.drop lit.length) else none

/-- Constant `maxNestingDepth` of the scanner: how deep arrays and objects
may nest. -/
def maxNestingDepth : Nat := 10000

mutual

/-- The first JSON value of the input and the input after it, read inside
`depth` open arrays and objects; `none` for a syntax error, which an array or
object nested deeper than `maxNestingDepth` is too (or when the fuel runs
out). -/
def parseValue : Nat → Nat → List Char → Option (Value × List Char)
  | 0, _, _ => none
  | fuel + 1, depth, cs =>
    match skipSpace cs with
    | [] => none
    | c :: rest =>
      if c == '{' then
        if depth + 1 > maxNestingDepth then none
        else
          match skipSpace rest with
          | [] => none
          | d :: rest1 =>
            if d == '}' then some (.object [], rest1)
            else (parseMembers fuel (depth + 1) (d :: rest1)).map (fun r => (.object r.1, r.2))
      else if c == '[' then
        if depth + 1 > maxNestingDepth then none
        else
          match skipSpace rest with
          | [] => none
          | d :: rest1 =>
            if d == ']' then some (.array [], rest1)
            else (parseElems fuel (depth + 1) (d :: rest1)).map (fun r => (.array r.1, r.2))
      else if c == '"' then
        (scanString (rest.length + 1) rest []).map (fun r => (.string r.1, r.2))
      else if c == 't' then (dropLiteral ['r', 'u', 'e'] rest).map (fun r => (.bool true, r))
      else if c == 'f' then
        (dropLiteral ['a', 'l', 's', 'e'] rest).map (fun r => (.bool false, r))
      else if c == 'n' then (dropLiteral ['u', 'l', 'l'] rest).map (fun r => (.null, r))
      else if c == '-' || c.isDigit then
        (scanNumber (c :: rest)).map (fun r => (.number r.1, r.2))
      else none

/-- The elements of an array after `[` or `,`, up to the closing bracket. -/
def parseElems : Nat → Nat → List Char → Option (List Value × List Char)
  | 0, _, _ => none
  | fuel + 1, depth, cs =>
    match parseValue fuel depth cs with
    | none => none
    | some (v, rest) =>
      match skipSpace rest with
      | [] => none
      | c :: rest1 =>
        if c == ',' then (parseElems fuel depth rest1).map (fun r => (v :: r.1, r.2))
        else if c == ']' then some ([v], rest1)
        else none

/-- The members of an object after `{` or `,`, up to the closing brace. -/
def parseMembers : Nat → Nat → List Char → Option (List (String × Value) × List Char)
  | 0, _, _ => none
  | fuel + 1, depth, cs =>
    match skipSpace cs with
    | [] => none
    | q :: rest =>
      if q == '"' then
        match scanString (rest.length + 1) rest [] with
        | none => none
        | some (key, rest1) =>
          match skipSpace rest1 with
          | [] => none
          | colon :: rest2 =>
            if colon == ':' then
              match parseValue fuel depth rest2 with
              | none => none
              | some (v, rest3) =>
                match skipSpace rest3 with
                | [] => none
                | c :: rest4 =>
                  if c == ',' then
                    (parseMembers fuel depth rest4).map (fun r => ((key, v) :: r.1, r.2))
                  else if c == '}' then some ([(key, v)], rest4)
                  else none
            else none
      else none

end

/-- The first JSON value of a text. -/
def parse (text : String) : Option Value :=
  (parseValue (2 * text.length + 2) 0 text.toList).map Prod.fst

/-- Go `strconv.ParseInt(literal, 10, 64)` on a JSON number literal. -/
def parseInt64 (literal : String) : Option Int :=
  let cs := literal.toList
  let neg := cs.head? == some '-'
  let ds := if neg then cs.drop 1 else cs
  if ds = [] ∨ ¬ ds.all Char.isDigit then none
  else
    let n : Nat := ds.foldl (fun acc d => acc * 10 + (d.toNat - '0'.toNat)) 0
    let v : Int := if neg then -(n : Int) else n
    if -(2 ^ 63 : Int) ≤ v ∧ v < 2 ^ 63 then some v else none

/-- The name the decoder gives to the kind of a value in its messages. -/
def Value.kind : Value → String
  | .null => "null"
  | .bool _ => "bool"
  | .number _ => "number"
  | .string _ => "string"
  | .array _ => "array"
  | .object _ => "object"

/-- A key or a field name with letter case folded as the decoder does when
it compares them. -/
def foldName (name : String) : List Char :=
  name.toList.map (fun c =>
    if c = Char.ofNat 0x17F then 's' else if c = Char.ofNat 0x212A then 'k' else c.toLower)

/-- The event under construction, and the first type error met. -/
structure DecodeState where
  event : windowsServiceEvent
  savedError : Option Error
  deriving DecidableEq, Repr

def DecodeState.saveError (st : DecodeState) (err : Error) : DecodeState :=
  match st.savedError with
  | some _ => st
  | none => { st with savedError := some err }

/-- Store a value into a field of type `string`. -/
def storeString (st : DecodeState) (field : String) (v : Value)
    (set : windowsServiceEvent → String → windowsServiceEvent) : DecodeState :=
  match v with
  | .string s => { st with event := set st.event s }
  | .null => st
  | v => st.saveError ("json: cannot unmarshal " ++ v.kind ++
      " into Go struct field windowsServiceEvent." ++ field ++ " of type string")

/-- Store a value into a field of type `int`. -/
def storeInt (st : DecodeState) (field : String) (v : Value)
    (set : windowsServiceEvent → Int → windowsServiceEvent) : DecodeState :=
  match v with
  | .number literal =>
    match parseInt64 literal with
    | some n => { st with event := set st.event n }
    | none => st.saveError ("json: cannot unmarshal number " ++ literal ++
        " into Go struct field windowsServiceEvent." ++ field ++ " of type int")
  | .null => st
  | v => st.saveError ("json: cannot unmarshal " ++ v.kind ++
      " into Go struct field windowsServiceEvent." ++ field ++ " of type int")

/-- Whether a key names one of the three fields of `windowsServiceEvent`. -/
def isEventField (key : String) : Bool :=
  foldName key == foldName "event" || foldName key == foldName "processName" ||
    foldName key == foldName "exitCode"

/-- Store one member of an object into the event. -/
def storeMember (st : DecodeState) (member : String × Value) : DecodeState :=
  if foldName member.1 == foldName "event" then
    storeString st "event" member.2 (fun e s => { e with Event := s })
  else if foldName member.1 == foldName "processName" then
    storeString st "processName" member.2 (fun e s => { e with ProcessName := s })
  else if foldName member.1 == foldName "exitCode" then
    storeInt st "exitCode" member.2 (fun e n => { e with ExitCode := n })
  else st

/-- Decode a JSON value into a zero `windowsServiceEvent`. -/
def unmarshalEvent (v : Value) : Except Error windowsServiceEvent :=
  match v with
  | .null => .ok { Event := "", ProcessName := "", ExitCode := 0 }
  | .object members =>
    let st := members.foldl storeMember
      { event := { Event := "", ProcessName := "", ExitCode := 0 }, savedError := none }
    match st.savedError with
    | some err => .error err
    | none => .ok st.event
  | v => .error ("json: cannot unmarshal " ++ v.kind ++
      " into Go value of type jobsupervisor.windowsServiceEvent")

/-- The decoding of a request body into a `windowsServiceEvent`. -/
def decodeEvent (body : String) : Except Error windowsServiceEvent :=
  match parse body with
  | none =>
    if skipSpace body.toList = [] then .error "EOF" else .error "invalid character in JSON text"
  | some v => unmarshalEvent v

/-- Whether a member of an object holds a value that its field cannot take:
a value other than a string or `null` for `event` and `processName`, a value
other than an integer literal of the `int` range or `null` for `exitCode`. -/
def typeMismatch (member : String × Value) : Bool :=
  if foldName member.1 == foldName "event" || foldName member.1 == foldName "processName" then
    match member.2 with
    | .string _ => false
    | .null => false
    | _ => true
  else if foldName member.1 == foldName "exitCode" then
    match member.2 with
    | .number literal => (parseInt64 literal).isNone
    | .null => false
    | _ => true
  else false

end json

/-- Whether the decoder rejects a request body: no JSON value can be read at
the start of the body, or the first JSON value of the body is neither an
object nor `null`, or it is an object with a member that holds a value its
field cannot take. -/
def rejectedBody (body : String) : Prop :=
  json.parse body = none ∨
    (∃ v, json.parse body = some v ∧ (∀ members, v ≠ .object members) ∧ v ≠ .null) ∨
    (∃ members, json.parse body = some (.object members) ∧
      ∃ m ∈ members, json.typeMismatch m = true)

/-- The seven native states of a service. -/
def nativeStates : List svc.State :=
  [svc.Stopped, svc.StartPending, svc.StopPending, svc.Running, svc.ContinuePending,
    svc.PausePending, svc.Paused]

end jobsupervisor

/-! ## Disk inventory (`infrastructure/devicepathresolver/windisk`)

Conventions: a Go string is a Lean string (valid UTF-8 text; the functions
below cut strings only next to ASCII characters, where byte positions and
character positions agree); a byte slice is a list of naturals below 256;
an unsigned integer of width `N` is a natural below `2 ^ N`, a signed one an
integer, and every conversion reduces explicitly. -/

namespace windisk

/-- The two errors of package `strconv`: `ErrSyntax` and `ErrRange`. -/
inductive ErrKind where
  | ErrSyntax
  | ErrRange
  deriving DecidableEq, Repr

/-- Struct `strconv.NumError`. -/
structure NumError where
  Func : String
  Num : String
  Err : ErrKind
  deriving DecidableEq, Repr

/-- A Go `error` of this package: a `*strconv.NumError`, or the result of
`errors.New`. -/
inductive GoError where
  | num (e : NumError)
  | message (text : String)
  deriving DecidableEq, Repr

/-! ### `replaceCR` -/

/-- One iteration of the loop `for _, c := range b` of `replaceCR`, at index
`i`: the slice and the write position `n` before and after.  The element is
read from the slice as it is at that moment. -/
def replaceCRStep (st : List Nat × Nat) (i : Nat) : List Nat × Nat :=
  let c := st.1[i]?.getD 0
  if c ≠ 13 then (st.1.set st.2 c, st.2 + 1) else st

/-- Function `replaceCR`: the loop over the indices of `b`, then `b[:n]`. -/
def replaceCR (b : List Nat) : List Nat :=
  let st := (List.range b.length).foldl replaceCRStep (b, 0)
  st.1.take st.2

/-! ### `strconv.ParseInt` -/

/-- Constant `maxUint64`. -/
def maxUint64 : Nat := 2 ^ 64 - 1

/-- The digit value of a character in `ParseUint`: the `switch` on `d`. -/
def digitVal (d : Char) : Option Nat :=
  if '0' ≤ d ∧ d ≤ '9' then some (d.toNat - '0'.toNat)
  else if 'a' ≤ d ∧ d ≤ 'z' then some (d.toNat - 'a'.toNat + 10)
  else if 'A' ≤ d ∧ d ≤ 'Z' then some (d.toNat - 'A'.toNat + 10)
  else none

/-- The loop of `strconv.ParseUint` in base 10, with `n` a 64-bit unsigned
integer: the value it returns and its error. -/
def parseUintLoop (maxVal : Nat) : List Char → Nat → Nat × Option ErrKind
  | [], n => (n, none)
  | d :: rest, n =>
    match digitVal d with
    | none => (0, some .ErrSyntax)
    | some v =>
      if v ≥ 10 then (0, some .ErrSyntax)
      else if n ≥ maxUint64 / 10 + 1 then (maxUint64, some .ErrRange)
      else if (n * 10 % 2 ^ 64 + v) % 2 ^ 64 < n * 10 % 2 ^ 64 ∨
          (n * 10 % 2 ^ 64 + v) % 2 ^ 64 > maxVal then (maxUint64, some .ErrRange)
      else parseUintLoop maxVal rest ((n * 10 % 2 ^ 64 + v) % 2 ^ 64)

/-- Go `strconv.ParseUint(s, 10, bitSize)`, on the characters of `s`. -/
def ParseUint (s : List Char) (bitSize : Nat) : Nat × Option ErrKind :=
  if s.length < 1 then (0, some .ErrSyntax)
  else parseUintLoop ((2 ^ bitSize - 1) % 2 ^ 64) s 0

/-- Go conversion `int64(x)` of an integer: reduction into the signed 64-bit
range. -/
def toInt64 (x : Int) : Int := (x + 2 ^ 63) % 2 ^ 64 - 2 ^ 63

/-- The end of `strconv.ParseInt`, after the call of `ParseUint` has
returned `r`: the check of the range and the sign. -/
def signedResult (s : String) (bitSize : Nat) (neg : Bool) :
    Nat × Option ErrKind → Except NumError Int
  | (_, some .ErrSyntax) => .error { Func := "ParseInt", Num := s, Err := .ErrSyntax }
  | (un, _) =>
    if ¬ neg ∧ un ≥ 2 ^ (bitSize - 1) % 2 ^ 64 then
      .error { Func := "ParseInt", Num := s, Err := .ErrRange }
    else if neg ∧ un > 2 ^ (bitSize - 1) % 2 ^ 64 then
      .error { Func := "ParseInt", Num := s, Err := .ErrRange }
    else .ok (if neg then toInt64 (-(toInt64 un)) else toInt64 un)

/-- Go `strconv.ParseInt(s, 10, bitSize)`. -/
def ParseInt (s : String) (bitSize : Nat) : Except NumError Int :=
  if s.length = 0 then .error { Func := "ParseInt", Num := s, Err := .ErrSyntax }
  else
    let neg := s.toList.head? == some '-'
    let digits := if s.toList.head? == some '+' ∨ s.toList.head? == some '-'
      then s.toList.drop 1 else s.toList
    signedResult s bitSize neg (ParseUint digits bitSize)

/-- Function `parseUint16`: the value stored in the field, `uint16(n)`. -/
def parseUint16 (s : String) : Except GoError Nat :=
  match ParseInt s 16 with
  | .ok n => .ok (n % 2 ^ 16).toNat
  | .error err => .error (.num err)

/-- Function `parseUint32`. -/
def parseUint32 (s : String) : Except GoError Nat :=
  match ParseInt s 32 with
  | .ok n => .ok (n % 2 ^ 32).toNat
  | .error err => .error (.num err)

/-- Function `parseUint64`. -/
def parseUint64 (s : String) : Except GoError Nat :=
  match ParseInt s 64 with
  | .ok n => .ok (n % 2 ^ 64).toNat
  | .error err => .error (.num err)

/-- The parser of width `N` among `parseUint16`, `parseUint32` and
`parseUint64`. -/
def parseUintN (N : Nat) (s : String) : Except GoError Nat :=
  match ParseInt s N with
  | .ok n => .ok (n % 2 ^ N).toNat
  | .error err => .error (.num err)

/-- The number written by a list of decimal digits, most significant
first. -/
def digitsValue (ds : List Char) : Nat :=
  ds.foldl (fun acc d => acc * 10 + (d.toNat - '0'.toNat)) 0

/-- The integer that a text denotes as a decimal numeral: an optional sign
`+` or `-` followed by one or more decimal digits; `none` for any other
text. -/
def numeralValue (s : String) : Option Int :=
  match s.toList with
  | [] => none
  | c :: rest =>
    if c = '-' then
      if rest ≠ [] ∧ rest.all Char.isDigit then some (-(digitsValue rest : Int)) else none
    else if c = '+' then
      if rest ≠ [] ∧ rest.all Char.isDigit then some (digitsValue rest : Int) else none
    else if (c :: rest).all Char.isDigit then some (digitsValue (c :: rest) : Int)
    else none

/-! ### The field parsers -/

/-- Go `strconv.ParseBool`. -/
def ParseBool (str : String) : Except NumError Bool :=
  if str = "1" ∨ str = "t" ∨ str = "T" ∨ str = "true" ∨ str = "TRUE" ∨ str = "True" then
    .ok true
  else if str = "0" ∨ str = "f" ∨ str = "F" ∨ str = "false" ∨ str = "FALSE" ∨
      str = "False" then
    .ok false
  else .error { Func := "ParseBool", Num := str, Err := .ErrSyntax }

/-- Function `parseBool`: the value stored in the field. -/
def parseBool (s : String) : Except GoError Bool :=
  match ParseBool s with
  | .ok b => .ok b
  | .error err => .error (.num err)

/-- Go `strings.TrimFunc`: the text without its leading and trailing
characters that satisfy `f`. -/
def trimFunc (f : Char → Bool) (s : List Char) : List Char :=
  ((s.dropWhile f).reverse.dropWhile f).reverse

/-- Function `parseString`. -/
def parseString (s : String) : Except GoError String :=
  .ok (String.mk (trimFunc (fun r => r == ' ' || r == '"') s.toList))

/-- Go `strings.Split(s, sep)` for a separator of one character: `cur` holds
the current element in reverse. -/
def splitChar (sep : Char) : List Char → List Char → List String
  | [], cur => [String.mk cur.reverse]
  | c :: cs, cur =>
    if c == sep then String.mk cur.reverse :: splitChar sep cs []
    else splitChar sep cs (c :: cur)

/-- The loop of `setSlice` over the elements: the first error returns. -/
def parseElems {α : Type} (fn : String → Except GoError α) :
    List String → Except GoError (List α)
  | [] => .ok []
  | elem :: rest =>
    match fn elem with
    | .error err => .error err
    | .ok v =>
      match parseElems fn rest with
      | .error err => .error err
      | .ok vs => .ok (v :: vs)

/-- Function `setSlice`: the slice stored in the field. -/
def setSlice {α : Type} (str : String) (fn : String → Except GoError α) :
    Except GoError (List α) :=
  parseElems fn
    (splitChar ',' (trimFunc (fun r => r == '\x7b' || r == '\x7d' || r == ' ') str.toList) [])

/-- Function `parseStringSlice`. -/
def parseStringSlice (str : String) : Except GoError (List String) :=
  setSlice str parseString

/-- Function `parseUint16Slice`. -/
def parseUint16Slice (str : String) : Except GoError (List Nat) :=
  setSlice str parseUint16

/-- The value of a field of `Disk` as reflection sees it: its kind (for a
slice, with the kind of its elements) and its content.  The fields of `Disk`
have no other kind, so the two `default` cases of `parseField` have no
counterpart. -/
inductive FieldValue where
  | bool (b : Bool)
  | string (s : String)
  | uint16 (n : Nat)
  | uint32 (n : Nat)
  | uint64 (n : Nat)
  | stringSlice (elems : List String)
  | uint16Slice (elems : List Nat)
  deriving DecidableEq, Repr

/-- Whether two field values have the same kind. -/
def FieldValue.sameKind : FieldValue → FieldValue → Bool
  | .bool _, .bool _ => true
  | .string _, .string _ => true
  | .uint16 _, .uint16 _ => true
  | .uint32 _, .uint32 _ => true
  | .uint64 _, .uint64 _ => true
  | .stringSlice _, .stringSlice _ => true
  | .uint16Slice _, .uint16Slice _ => true
  | _, _ => false

/-- Function `parseField`: the `switch` on the kind of the field `v`, and
the value the field is set to. -/
def parseField (s : String) (v : FieldValue) : Except GoError FieldValue :=
  match v with
  | .bool _ => (parseBool s).map .bool
  | .string _ => (parseString s).map .string
  | .uint16 _ => (parseUint16 s).map .uint16
  | .uint32 _ => (parseUint32 s).map .uint32
  | .uint64 _ => (parseUint64 s).map .uint64
  | .stringSlice _ => (parseStringSlice s).map .stringSlice
  | .uint16Slice _ => (parseUint16Slice s).map .uint16Slice

/-- Struct `Disk` as reflection sees it: its fields in the order of their
declaration, each with its name and its value. -/
abbrev Disk := List (String × FieldValue)

/-- The zero value of `Disk` (`var d Disk`). -/
def Disk.zero : Disk :=
  [ ("Availability", .uint16 0),
    ("BytesPerSector", .uint32 0),
    ("Capabilities", .uint16Slice []),
    ("CapabilityDescriptions", .stringSlice []),
    ("CompressionMethod", .string ""),
    ("ConfigManagerErrorCode", .uint32 0),
    ("ConfigManagerUserConfig", .bool false),
    ("DefaultBlockSize", .uint64 0),
    ("Description", .string ""),
    ("DeviceID", .string ""),
    ("ErrorCleared", .bool false),
    ("ErrorDescription", .string ""),
    ("ErrorMethodology", .string ""),
    ("Index", .uint32 0),
    ("InstallDate", .string ""),
    ("InterfaceType", .string ""),
    ("LastErrorCode", .uint32 0),
    ("Manufacturer", .string ""),
    ("MaxBlockSize", .uint64 0),
    ("MaxMediaSize", .uint64 0),
    ("MediaLoaded", .bool false),
    ("MediaType", .string ""),
    ("MinBlockSize", .uint64 0),
    ("Model", .string ""),
    ("Name", .string ""),
    ("NeedsCleaning", .bool false),
    ("NumberOfMediaSupported", .uint32 0),
    ("Partitions", .uint32 0),
    ("PNPDeviceID", .string ""),
    ("PowerManagementCapabilities", .uint16 0),
    ("PowerManagementSupported", .bool false),
    ("SCSIBus", .uint32 0),
    ("SCSILogicalUnit", .uint16 0),
    ("SCSIPort", .uint16 0),
    ("SCSITargetId", .uint16 0),
    ("SectorsPerTrack", .uint32 0),
    ("Signature", .uint32 0),
    ("Size", .uint64 0),
    ("Status", .string ""),
    ("StatusInfo", .uint16 0),
    ("SystemName", .string ""),
    ("TotalCylinders", .uint64 0),
    ("TotalHeads", .uint32 0),
    ("TotalSectors", .uint64 0),
    ("TotalTracks", .uint64 0),
    ("TracksPerCylinder", .uint32 0) ]

/-- The loop of `parseDisk` over the fields from the current one on: the
error returned and the fields afterwards. -/
def parseFields (m : jobsupervisor.GoMap) : Disk → Option GoError × Disk
  | [] => (none, [])
  | (name, fv) :: rest =>
    match jobsupervisor.GoMap.get? m name with
    | none => ((parseFields m rest).1, (name, fv) :: (parseFields m rest).2)
    | some s =>
      match parseField s fv with
      | .error err => (some err, (name, fv) :: rest)
      | .ok v => ((parseFields m rest).1, (name, v) :: (parseFields m rest).2)

/-- Function `parseDisk`: the error returned and the disk `d` afterwards. -/
def parseDisk (m : jobsupervisor.GoMap) (d : Disk) : Option GoError × Disk :=
  parseFields m d

/-! ### `parseDiskDrive` -/

/-- Go `unicode.IsSpace`. -/
def isSpace (r : Char) : Bool :=
  r == '\t' || r == '\n' || r == Char.ofNat 0x0B || r == Char.ofNat 0x0C || r == '\r' ||
    r == ' ' || r == Char.ofNat 0x85 || r == Char.ofNat 0xA0 || r == Char.ofNat 0x1680 ||
    (0x2000 ≤ r.toNat && r.toNat ≤ 0x200A) || r == Char.ofNat 0x2028 ||
    r == Char.ofNat 0x2029 || r == Char.ofNat 0x202F || r == Char.ofNat 0x205F ||
    r == Char.ofNat 0x3000

/-- Go `strings.TrimSpace`. -/
def trimSpace (s : List Char) : List Char := trimFunc isSpace s

/-- Go `strings.IndexByte(s, c)`: the index of the first `c`, `-1` when
there is none. -/
def indexByte (s : List Char) (c : Char) : Int :=
  if s.indexOf c = s.length then -1 else (s.indexOf c : Int)

/-- Go `m[key] = value`: the entry of `key` replaced, or a new entry. -/
def mapSet (m : jobsupervisor.GoMap) (key value : String) : jobsupervisor.GoMap :=
  if m.any (fun e => e.1 == key) then m.map (fun e => if e.1 == key then (key, value) else e)
  else m ++ [(key, value)]

/-- The loop `for _, line := range lines` of `parseDiskDrive`. -/
def parseDiskDriveLoop : List String → jobsupervisor.GoMap → jobsupervisor.GoMap
  | [], m => m
  | line :: rest, m =>
    if (trimSpace line.toList).length = 0 then parseDiskDriveLoop rest m
    else if indexByte (trimSpace line.toList) '=' < 1 then parseDiskDriveLoop rest m
    else if indexByte (trimSpace line.toList) '=' = ((trimSpace line.toList).length : Int) - 1
      then parseDiskDriveLoop rest m
    else
      parseDiskDriveLoop rest
        (mapSet m
          (String.mk ((trimSpace line.toList).take
            (indexByte (trimSpace line.toList) '=').toNat))
          (String.mk ((trimSpace line.toList).drop
            ((indexByte (trimSpace line.toList) '=').toNat + 1))))

/-- Function `parseDiskDrive`: the map and the error it returns (the nil map
and the empty map are both the empty list). -/
def parseDiskDrive (drive : String) : jobsupervisor.GoMap × Option GoError :=
  if (parseDiskDriveLoop (splitChar '\n' drive.toList []) []).length ≠ 0 then
    (parseDiskDriveLoop (splitChar '\n' drive.toList []) [], none)
  else ([], none)

/-- The entry that a line contributes, in the words of the specification:
the line is trimmed of surrounding white space; it qualifies when its first
`=` has some text before it and some text after it; the key is the text
before that `=`, the value all the text after it. -/
def lineEntry (line : String) : Option (String × String) :=
  match (trimSpace line.toList).dropWhile (fun c => c != '=') with
  | [] => none
  | _ :: value =>
    if (trimSpace line.toList).takeWhile (fun c => c != '=') ≠ [] ∧ value ≠ [] then
      some (String.mk ((trimSpace line.toList).takeWhile (fun c => c != '=')), String.mk value)
    else none

/-- The value that a text gives to a key, in the words of the specification:
the value of the last qualifying line with that key. -/
def lastEntry (drive : String) (key : String) : Option String :=
  ((((splitChar '\n' drive.toList []).filterMap lineEntry).reverse.find?
    (fun e => e.1 == key)).map Prod.snd)

/-! ### The data of the tests -/

/-- Constant `TestWMICDiskOutput`. -/
def TestWMICDiskOutput : String :=
  "\n" ++
    "Availability=1\n" ++
    "BytesPerSector=512\n" ++
    "Capabilities=\x7b3,4\x7d\n" ++
    "CapabilityDescriptions=\x7b\"Random Access\",\"Supports Writing\"\x7d\n" ++
    "CompressionMethod=Something\n" ++
    "ConfigManagerErrorCode=0\n" ++
    "ConfigManagerUserConfig=FALSE\n" ++
    "DefaultBlockSize=102\n" ++
    "Description=Disk drive\n" ++
    "DeviceID=\\\\.\\PHYSICALDRIVE0\n" ++
    "ErrorCleared=FALSE\n" ++
    "ErrorDescription=\"The Description\"\n" ++
    "ErrorMethodology=\"The Methodology\"\n" ++
    "Index=0\n" ++
    "InstallDate=\"WAT FORMAT\"\n" ++
    "InterfaceType=SCSI\n" ++
    "LastErrorCode=102014\n" ++
    "Manufacturer=(Standard disk drives)\n" ++
    "MaxBlockSize=1234\n" ++
    "MaxMediaSize=5678\n" ++
    "MediaLoaded=TRUE\n" ++
    "MediaType=Fixed hard disk media\n" ++
    "MinBlockSize=1\n" ++
    "Model=VMware, VMware Virtual S SCSI Disk Device\n" ++
    "Name=\\\\.\\PHYSICALDRIVE0\n" ++
    "NeedsCleaning=FALSE\n" ++
    "NumberOfMediaSupported=2\n" ++
    "Partitions=2\n" ++
    "PNPDeviceID=SCSI\\DISK&amp;VEN_VMWARE_&amp;PROD_VMWARE_VIRTUAL_S\\5&amp;1EC51BF7&amp;0&amp;000000\n" ++
    "PowerManagementCapabilities=123\n" ++
    "PowerManagementSupported=TRUE\n" ++
    "SCSIBus=0\n" ++
    "SCSILogicalUnit=0\n" ++
    "SCSIPort=0\n" ++
    "SCSITargetId=0\n" ++
    "SectorsPerTrack=63\n" ++
    "Signature=1623773652\n" ++
    "Size=64420392960\n" ++
    "Status=OK\n" ++
    "StatusInfo=2\n" ++
    "SystemName=WIN-HLBC3JFV4AV\n" ++
    "TotalCylinders=7832\n" ++
    "TotalHeads=255\n" ++
    "TotalSectors=125821080\n" ++
    "TotalTracks=1997160\n" ++
    "TracksPerCylinder=255\n"

/-- Variable `ExpDiskMap`, its entries in the order of the source. -/
def ExpDiskMap : jobsupervisor.GoMap :=
  [ ("Availability", "1"),
    ("BytesPerSector", "512"),
    ("Capabilities", "\x7b3,4\x7d"),
    ("CapabilityDescriptions", "\x7b\"Random Access\",\"Supports Writing\"\x7d"),
    ("CompressionMethod", "Something"),
    ("ConfigManagerErrorCode", "0"),
    ("ConfigManagerUserConfig", "FALSE"),
    ("DefaultBlockSize", "102"),
    ("Description", "Disk drive"),
    ("DeviceID", "\\\\.\\PHYSICALDRIVE0"),
    ("ErrorCleared", "FALSE"),
    ("ErrorDescription", "\"The Description\""),
    ("ErrorMethodology", "\"The Methodology\""),
    ("Index", "0"),
    ("InstallDate", "\"WAT FORMAT\""),
    ("InterfaceType", "SCSI"),
    ("LastErrorCode", "102014"),
    ("Manufacturer", "(Standard disk drives)"),
    ("MaxBlockSize", "1234"),
    ("MaxMediaSize", "5678"),
    ("MediaLoaded", "TRUE"),
    ("MediaType", "Fixed hard disk media"),
    ("MinBlockSize", "1"),
    ("Model", "VMware, VMware Virtual S SCSI Disk Device"),
    ("Name", "\\\\.\\PHYSICALDRIVE0"),
    ("NeedsCleaning", "FALSE"),
    ("NumberOfMediaSupported", "2"),
    ("Partitions", "2"),
    ("PNPDeviceID", "SCSI\\DISK&amp;VEN_VMWARE_&amp;PROD_VMWARE_VIRTUAL_S\\5&amp;1EC51BF7&amp;0&amp;000000"),
    ("PowerManagementCapabilities", "123"),
    ("PowerManagementSupported", "TRUE"),
    ("SCSIBus", "0"),
    ("SCSILogicalUnit", "0"),
    ("SCSIPort", "0"),
    ("SCSITargetId", "0"),
    ("SectorsPerTrack", "63"),
    ("Signature", "1623773652"),
    ("Size", "64420392960"),
    ("Status", "OK"),
    ("StatusInfo", "2"),
    ("SystemName", "WIN-HLBC3JFV4AV"),
    ("TotalCylinders", "7832"),
    ("TotalHeads", "255"),
    ("TotalSectors", "125821080"),
    ("TotalTracks", "1997160"),
    ("TracksPerCylinder", "255") ]

/-- Variable `ExpDisk`. -/
def ExpDisk : Disk :=
  [ ("Availability", .uint16 1),
    ("BytesPerSector", .uint32 512),
    ("Capabilities", .uint16Slice [3, 4]),
    ("CapabilityDescriptions", .stringSlice ["Random Access", "Supports Writing"]),
    ("CompressionMethod", .string "Something"),
    ("ConfigManagerErrorCode", .uint32 0),
    ("ConfigManagerUserConfig", .bool false),
    ("DefaultBlockSize", .uint64 102),
    ("Description", .string "Disk drive"),
    ("DeviceID", .string "\\\\.\\PHYSICALDRIVE0"),
    ("ErrorCleared", .bool false),
    ("ErrorDescription", .string "The Description"),
    ("ErrorMethodology", .string "The Methodology"),
    ("Index", .uint32 0),
    ("InstallDate", .string "WAT FORMAT"),
    ("InterfaceType", .string "SCSI"),
    ("LastErrorCode", .uint32 102014),
    ("Manufacturer", .string "(Standard disk drives)"),
    ("MaxBlockSize", .uint64 1234),
    ("MaxMediaSize", .uint64 5678),
    ("MediaLoaded", .bool true),
    ("MediaType", .string "Fixed hard disk media"),
    ("MinBlockSize", .uint64 1),
    ("Model", .string "VMware, VMware Virtual S SCSI Disk Device"),
    ("Name", .string "\\\\.\\PHYSICALDRIVE0"),
    ("NeedsCleaning", .bool false),
    ("NumberOfMediaSupported", .uint32 2),
    ("Partitions", .uint32 2),
    ("PNPDeviceID", .string "SCSI\\DISK&amp;VEN_VMWARE_&amp;PROD_VMWARE_VIRTUAL_S\\5&amp;1EC51BF7&amp;0&amp;000000"),
    ("PowerManagementCapabilities", .uint16 123),
    ("PowerManagementSupported", .bool true),
    ("SCSIBus", .uint32 0),
    ("SCSILogicalUnit", .uint16 0),
    ("SCSIPort", .uint16 0),
    ("SCSITargetId", .uint16 0),
    ("SectorsPerTrack", .uint32 63),
    ("Signature", .uint32 1623773652),
    ("Size", .uint64 64420392960),
    ("Status", .string "OK"),
    ("StatusInfo", .uint16 2),
    ("SystemName", .string "WIN-HLBC3JFV4AV"),
    ("TotalCylinders", .uint64 7832),
    ("TotalHeads", .uint32 255),
    ("TotalSectors", .uint64 125821080),
    ("TotalTracks", .uint64 1997160),
    ("TracksPerCylinder", .uint32 255) ]

end windisk

/-! ## `agent/bootstrap.go`: the check of the persistent disks

The file system is the one of the supervisor model.  The decoding of
`update_settings.json` by `encoding/json` is a parameter of the model. -/

namespace agent

open jobsupervisor

/-- Struct `boshsettings.Disks`, the part that `comparePersistentDisk`
reads: the keys of the map `Persistent`, the CIDs of the persistent disks,
each once. -/
structure Disks where
  Persistent : List String := []
  deriving DecidableEq, Repr

/-- Struct `boshsettings.Settings`, the part that `comparePersistentDisk`
reads. -/
structure Settings where
  Disks : Disks := {}
  deriving DecidableEq, Repr

/-- Modelled from the spec: method `Settings.PersistentDiskSettings` of
package `settings`, which is not among the sources.  Of its result the callers
here use only the presence flag, taken to be whether `diskID` is one of the
persistent disks of the settings, a key of `Disks.Persistent`. -/
def Settings.PersistentDiskSettings (s : Settings) (diskID : String) : Bool :=
  s.Disks.Persistent.contains diskID

/-- Struct `boshsettings.DiskAssociation`. -/
structure DiskAssociation where
  Name : String := ""
  DiskCID : String := ""
  deriving DecidableEq, Repr

/-- Struct `boshsettings.UpdateSettings`, the part that
`comparePersistentDisk` reads. -/
structure UpdateSettings where
  DiskAssociations : List DiskAssociation := []
  deriving DecidableEq, Repr

/-- Struct `bootstrap`, the part that `comparePersistentDisk` uses: the file
system and the directory `BoshDir()` of the platform, the settings that the
settings service returns, and the decoding of the update settings by
`json.Unmarshal`. -/
structure bootstrap where
  fs : FileSystem
  BoshDir : String
  settings : Settings
  unmarshal : String → Except Error UpdateSettings

/-- Method `lastMountedCid`: the result and the file system afterwards. -/
def bootstrap.lastMountedCid (boot : bootstrap) : Except Error String × FileSystem :=
  if boot.fs.FileExists (filepathJoin [boot.BoshDir, "managed_disk_settings.json"]) then
    match boot.fs.ReadFile (filepathJoin [boot.BoshDir, "managed_disk_settings.json"]) with
    | (.error err, fs1) => (.error (WrapError err "Reading managed_disk_settings.json"), fs1)
    | (.ok contents, fs1) => (.ok contents, fs1)
  else (.ok "", boot.fs)

/-- Method `checkLastMountedCid`: the error and the file system
afterwards. -/
def bootstrap.checkLastMountedCid (boot : bootstrap) (settings : Settings) :
    Option Error × FileSystem :=
  match boot.lastMountedCid with
  | (.error err, fs1) => (some (WrapError err "Fetching last mounted disk CID"), fs1)
  | (.ok lastMountedCid, fs1) =>
    if settings.Disks.Persistent.length = 0 ∨ lastMountedCid = "" then (none, fs1)
    else if !settings.PersistentDiskSettings lastMountedCid then
      (some "Attached disk disagrees with previous mount", fs1)
    else (none, fs1)

/-- The loop of `comparePersistentDisk` over the disk associations: the
error of the first one whose disk is not a persistent disk. -/
def checkDiskAssociations (settings : Settings) : List DiskAssociation → Option Error
  | [] => none
  | diskAssociation :: rest =>
    if !settings.PersistentDiskSettings diskAssociation.DiskCID then
      some ("Disk " ++ diskAssociation.DiskCID ++ " is not attached")
    else checkDiskAssociations settings rest

/-- The update settings that `comparePersistentDisk` reads from the file
system `fs`: the zero value when there is no `update_settings.json`. -/
def bootstrap.readUpdateSettings (boot : bootstrap) (fs : FileSystem) :
    Except Error UpdateSettings :=
  if fs.FileExists (filepathJoin [boot.BoshDir, "update_settings.json"]) then
    match fs.ReadFile (filepathJoin [boot.BoshDir, "update_settings.json"]) with
    | (.error err, _) => .error (WrapError err "Reading update_settings.json")
    | (.ok contents, _) =>
      match boot.unmarshal contents with
      | .error err => .error (WrapError err "Unmarshalling update_settings.json")
      | .ok updateSettings => .ok updateSettings
  else .ok {}

/-- Method `comparePersistentDisk`: the error it returns. -/
def bootstrap.comparePersistentDisk (boot : bootstrap) : Option Error :=
  match boot.checkLastMountedCid boot.settings with
  | (some err, _) => some err
  | (none, fs1) =>
    match boot.readUpdateSettings fs1 with
    | .error err => some err
    | .ok updateSettings =>
      match checkDiskAssociations boot.settings updateSettings.DiskAssociations with
      | some err => some err
      | none =>
        if boot.settings.Disks.Persistent.length > 1 then
          if boot.settings.Disks.Persistent.length > updateSettings.DiskAssociations.length then
            some "Unexpected disk attached"
          else none
        else none

/-- The content of the file `name` of the directory `BoshDir()`, if there is
such a file. -/
def bootstrap.fileContent (boot : bootstrap) (name : String) : Option String :=
  (boot.fs.files.find? (fun f => f.1 == filepathJoin [boot.BoshDir, name])).map Prod.snd

/-- A bootstrap for the examples: one persistent disk, recorded as the last
mounted one and named by the one disk association. -/
def testBoot : bootstrap :=
  { fs :=
      { files := [("C:\\var\\vcap\\bosh\\managed_disk_settings.json", "cid-1"),
          ("C:\\var\\vcap\\bosh\\update_settings.json", "assoc")],
        faults := [] },
    BoshDir := "C:\\var\\vcap\\bosh",
    settings := { Disks := { Persistent := ["cid-1"] } },
    unmarshal := fun contents =>
      if contents = "assoc" then .ok { DiskAssociations := [{ Name := "d", DiskCID := "cid-1" }] }
      else .error "invalid character" }

end agent

namespace jobsupervisor

variable {M : Type}

/-! ## Concrete inputs -/

/-- The process of the unit tests of `ServiceWrapperConfig`, with the given
stop command. -/
def testProc (stop : Option StopCommand) : WindowsProcess :=
  { Name := "Name", Executable := "Executable", Args := ["Start_1", "Start_2"], Env := [],
    Stop := stop }

/-- A process whose own executable is the pipe shim and whose stop command
names no executable. -/
def pipeProc : WindowsProcess :=
  { Name := "Name", Executable := pipeExePath, Args := [], Env := [],
    Stop := some { Executable := "", Args := ["Stop_1"] } }

/-- The process of the concrete scenario. -/
def worker1 : WindowsProcess :=
  { Name := "worker-1", Executable := "/bin/app", Args := ["--flag"], Env := [("K", "V")],
    Stop := none }

/-- A process with the two caller-supplied variables of the unit test,
visited in the given order. -/
def envProc (env : GoMap) : WindowsProcess :=
  { Name := "Name", Executable := "Executable", Args := ["A", "B"], Env := env, Stop := none }

/-- A service manager over the list of the owned services: every method
fails with `fail` when that is an error; otherwise `Start` puts every
service in the running state, `Stop` in the stopped state, `Status` lists
the services and `Delete` removes them. -/
def listMgr (fail : Option Error) : MgrOps (List ServiceStatus) :=
  { DisableAgentAutoStart := fun m => m
    Start := fun m =>
      match fail with
      | some err => (some err, m)
      | none => (none, m.map (fun s => { s with State := svc.Running }))
    Stop := fun m =>
      match fail with
      | some err => (some err, m)
      | none => (none, m.map (fun s => { s with State := svc.Stopped }))
    Status := fun m =>
      match fail with
      | some err => (.error err, m)
      | none => (.ok m, m)
    Unmonitor := fun m => (fail, m)
    Delete := fun m =>
      match fail with
      | some err => (some err, m)
      | none => (none, []) }

/-- A supervisor over `listMgr` with the given files and owned services, no
scheduled file-system fault and an empty record of calls. -/
def testSupervisor (files : List (String × String)) (services : List ServiceStatus) :
    windowsJobSupervisor (List ServiceStatus) :=
  { dirProvider := { MonitDir := "C:\\var\\vcap\\monit", LogsDir := "C:\\var\\vcap\\sys\\log",
                     BoshBinDir := "C:\\var\\vcap\\bosh\\bin" }
    fs := { files := files, faults := [] }
    machineIP := "127.0.0.1"
    jobFailuresServerPort := 2825
    state := .stateEnabled
    mgr := services
    trace := [] }

/-- A command runner over the list of the owned services: every command
fails with `fail` when that is an error; otherwise it registers a stopped
service named after the command. -/
def listCmd (fail : Option Error) : CmdOps (List ServiceStatus) :=
  { RunCommand := fun m name _ =>
      match fail with
      | some err => (some err, m)
      | none => (none, m ++ [{ Name := name, State := svc.Stopped }]) }

/-- The first process of the job `say-hello` of the tests, with a fixed
name. -/
def sayHello1 : WindowsProcess :=
  { Name := "say-hello-1", Executable := "powershell", Args := ["/C", "Write-Host 1"],
    Env := [], Stop := none }

/-- The second process of the job `say-hello`. -/
def sayHello2 : WindowsProcess :=
  { Name := "say-hello-2", Executable := "powershell", Args := ["/C", "Write-Host 2"],
    Env := [], Stop := none }

/-- The manifest of the job `say-hello` of the tests. -/
def sayHelloConfig : WindowsProcessConfig :=
  { Processes := [sayHello1, sayHello2] }

/-- Stand-ins for the codecs in the concrete instances: the library model
for failure events, a manifest decoder that knows the text `say-hello` as
the manifest `sayHelloConfig` and rejects every other text, and an encoder
that renders the identifier of the service. -/
def testCodecs : Codecs :=
  { decodeEvent := json.decodeEvent
    unmarshalConfig := fun text =>
      if text = "say-hello" then .ok sayHelloConfig
      else .error "invalid character in JSON text"
    xmlEncode := fun cfg => .ok ("<service><id>" ++ cfg.ID ++ "</id></service>") }

/-- The collaborators of the concrete instances. -/
def testCollaborators (fail : Option Error) : Collaborators (List ServiceStatus) :=
  { mgr := listMgr fail, cmd := listCmd fail, codecs := testCodecs }

/-- The body of the failure request of the tests. -/
def failureRequest : String :=
  "\x7b\n\t\"event\": \"pid failed\",\n\t\"exitCode\": 55,\n\t\"processName\": \"nats\"\n\x7d"

/-- The files of a machine on which the service wrapper is present and the
manifest at `C:\jobs\say-hello\monit` has the given content. -/
def jobFiles (manifest : String) : List (String × String) :=
  [ ("C:\\var\\vcap\\bosh\\bin\\job-service-wrapper.exe", "MZ"),
    ("C:\\jobs\\say-hello\\monit", manifest) ]

/-- The supervisor of the concrete instances on a machine whose manifest is
`say-hello`, with the given outcomes scheduled for the calls of the file
system. -/
def faultySupervisor (faults : List (Option Error)) :
    windowsJobSupervisor (List ServiceStatus) :=
  { testSupervisor (jobFiles "say-hello") [] with
    fs := { files := jobFiles "say-hello", faults := faults } }

/-! ## Auxiliary lemmas -/

theorem foldl_append_singleton {α β : Type} (f : α → β) (l : List α) (init : List β) :
    l.foldl (fun acc a => acc ++ [f a]) init = init ++ l.map f := by
  induction l generalizing init with
  | nil => simp
  | cons a l ih => simp [ih]

theorem ServiceWrapperConfig_Env (p : WindowsProcess) (logPath : String) (eventPort : Int)
    (machineIP : String) :
    (p.ServiceWrapperConfig logPath eventPort machineIP).Env =
      p.Env.map (fun kv => ({ Name := kv.1, Value := kv.2 } : serviceEnv)) ++
        pipeEnv p logPath eventPort machineIP := by
  simp [WindowsProcess.ServiceWrapperConfig, foldl_append_singleton]

theorem ServiceWrapperConfig_Env_drop (p : WindowsProcess) (logPath : String)
    (eventPort : Int) (machineIP : String) :
    (p.ServiceWrapperConfig logPath eventPort machineIP).Env.drop p.Env.length =
      pipeEnv p logPath eventPort machineIP := by
  rw [ServiceWrapperConfig_Env, List.drop_append_eq_append_drop]
  simp

theorem envMap_append_singleton (l : List serviceEnv) (e : serviceEnv) (k : String) :
    envMap (l ++ [e]) k = if k = e.Name then some e.Value else envMap l k := by
  simp [envMap, List.foldl_append]

theorem envMap_append_pipeEnv (l : List serviceEnv) (p : WindowsProcess) (logPath : String)
    (eventPort : Int) (machineIP : String) (k : String) :
    envMap (l ++ pipeEnv p logPath eventPort machineIP) k =
      if k = "__PIPE_MACHINE_IP" then some machineIP
      else if k = "__PIPE_NOTIFY_HTTP" then some (notifyHTTP eventPort)
      else if k = "__PIPE_LOG_DIR" then some logPath
      else if k = "__PIPE_SERVICE_NAME" then some p.Name
      else envMap l k := by
  simp [envMap, pipeEnv, List.foldl_append]

theorem GoMap.get?_append_singleton (m : GoMap) (a : String × String) (k : String) :
    GoMap.get? (m ++ [a]) k =
      if (m.find? (fun e => e.1 == k)).isSome then GoMap.get? m k
      else if a.1 = k then some a.2 else none := by
  unfold GoMap.get?
  rw [List.find?_append]
  cases h : m.find? (fun e => e.1 == k) with
  | some b => simp
  | none =>
    by_cases hk : a.1 = k
    · simp [List.find?, hk]
    · have hb : (a.1 == k) = false := by simpa using hk
      simp [List.find?, hk, hb]

theorem GoMap.find?_none_of_not_mem (m : GoMap) (k : String)
    (h : k ∉ m.map Prod.fst) : m.find? (fun e => e.1 == k) = none := by
  rw [List.find?_eq_none]
  intro e he hek
  apply h
  simp only [beq_iff_eq] at hek
  exact List.mem_map.mpr ⟨e, he, hek⟩

theorem GoMap.get?_none_of_find?_none (m : GoMap) (k : String)
    (h : m.find? (fun e => e.1 == k) = none) : GoMap.get? m k = none := by
  simp [GoMap.get?, h]

/-- For a well-formed map, the map built from its entries in visiting order
is the map itself. -/
theorem envMap_map_eq_get? (m : GoMap) (hm : m.WF) (k : String) :
    envMap (m.map (fun kv => ({ Name := kv.1, Value := kv.2 } : serviceEnv))) k =
      GoMap.get? m k := by
  induction m using List.reverseRecOn with
  | nil => simp [envMap, GoMap.get?]
  | append_singleton m a ih =>
    have hwf : (m.map Prod.fst).Nodup ∧ a.1 ∉ m.map Prod.fst := by
      have h := hm
      unfold GoMap.WF at h
      rw [List.map_append, List.nodup_append] at h
      refine ⟨h.1, ?_⟩
      intro hmem
      exact h.2.2 hmem (by simp)
    rw [List.map_append, List.map_singleton, envMap_append_singleton,
      GoMap.get?_append_singleton, ih hwf.1]
    by_cases hk : k = a.1
    · subst hk
      simp [GoMap.find?_none_of_not_mem m a.1 hwf.2]
    · have hk2 : ¬ a.1 = k := fun h => hk h.symm
      simp only [hk, hk2, if_false]
      cases h : m.find? (fun e => e.1 == k) with
      | some b => simp
      | none => simp [GoMap.get?_none_of_find?_none m k h]

theorem GoMap.get?_eq_some_iff (m : GoMap) (hm : m.WF) (k v : String) :
    GoMap.get? m k = some v ↔ (k, v) ∈ m := by
  induction m with
  | nil => simp [GoMap.get?]
  | cons a m ih =>
    have hwf : a.1 ∉ m.map Prod.fst ∧ (m.map Prod.fst).Nodup := by
      have h := hm
      unfold GoMap.WF at h
      rw [List.map_cons, List.nodup_cons] at h
      exact h
    have ih2 := ih hwf.2
    unfold GoMap.get? at ih2 ⊢
    by_cases hk : a.1 = k
    · subst hk
      simp only [List.find?_cons, beq_self_eq_true, Option.map_some', Option.some.injEq,
        List.mem_cons]
      constructor
      · intro h; left; rw [← h]
      · rintro (h | h)
        · rw [← h]
        · exact absurd (List.mem_map.mpr ⟨(a.1, v), h, rfl⟩) hwf.1
    · have hb : (a.1 == k) = false := by simpa using hk
      simp only [List.find?_cons, hb, List.mem_cons]
      rw [ih2]
      constructor
      · intro h; right; exact h
      · rintro (h | h)
        · exact absurd (by rw [← h]) hk
        · exact h

theorem GoMap.perm_of_sameMapping (m₁ m₂ : GoMap) (h₁ : m₁.WF) (h₂ : m₂.WF)
    (h : GoMap.sameMapping m₁ m₂) : m₁.Perm m₂ := by
  rw [List.perm_ext_iff_of_nodup (List.Nodup.of_map _ h₁) (List.Nodup.of_map _ h₂)]
  rintro ⟨k, v⟩
  rw [← GoMap.get?_eq_some_iff m₁ h₁, ← GoMap.get?_eq_some_iff m₂ h₂, h k]

/-! ## Argument placement -/

/-- C1, as stated, fails: for the stop command with arguments `["Stop_1"]`
and no executable, the stop executable of the descriptor is the executable
of the process, not the (empty) executable of the stop command. -/
theorem C1_counterexample :
    (testProc (some { Executable := "", Args := ["Stop_1"] })).Stop =
        some { Executable := "", Args := ["Stop_1"] } ∧
      ({ Executable := "", Args := ["Stop_1"] } : StopCommand).Args ≠ [] ∧
      ((testProc (some { Executable := "", Args := ["Stop_1"] })).ServiceWrapperConfig
          "LogPath" 0 "127.0.0.1").StopExecutable = "Executable" ∧
      ((testProc (some { Executable := "", Args := ["Stop_1"] })).ServiceWrapperConfig
          "LogPath" 0 "127.0.0.1").StopExecutable ≠
        ({ Executable := "", Args := ["Stop_1"] } : StopCommand).Executable := by
  decide

/-- C1 (amended): when the stop command is present with a non-empty argument
list, the descriptor has an empty `Arguments` field, `StartArguments` equal
to the executable followed by the arguments of the process, `StopArguments`
equal to the arguments of the stop command, and `StopExecutable` equal to
the executable of the stop command when that is non-empty and to the
executable of the process otherwise. -/
theorem C1_stop_argument_placement (p : WindowsProcess) (stop : StopCommand)
    (logPath : String) (eventPort : Int) (machineIP : String)
    (hstop : p.Stop = some stop) (hargs : stop.Args ≠ []) :
    (p.ServiceWrapperConfig logPath eventPort machineIP).Arguments = [] ∧
      (p.ServiceWrapperConfig logPath eventPort machineIP).StartArguments =
        p.Executable :: p.Args ∧
      (p.ServiceWrapperConfig logPath eventPort machineIP).StopArguments = stop.Args ∧
      (stop.Executable ≠ "" →
        (p.ServiceWrapperConfig logPath eventPort machineIP).StopExecutable =
          stop.Executable) ∧
      (stop.Executable = "" →
        (p.ServiceWrapperConfig logPath eventPort machineIP).StopExecutable =
          p.Executable) := by
  have hlen : stop.Args.length ≠ 0 := by
    intro h
    exact hargs (List.length_eq_zero.mp h)
  refine ⟨?_, ?_, ?_, ?_, ?_⟩ <;>
    simp [WindowsProcess.ServiceWrapperConfig, placeArguments, baseConfig, hstop, hargs]
  · intro h; simp [h]
  · intro h; simp [h]

/-- C1 (amended) at the stop command `STOPPER Stop_1 Stop_2` of the unit
test. -/
theorem C1_stop_argument_placement_witness :
    ((testProc (some { Executable := "STOPPER", Args := ["Stop_1", "Stop_2"] })).ServiceWrapperConfig
        "LogPath" 0 "127.0.0.1").StartArguments = ["Executable", "Start_1", "Start_2"] ∧
      ((testProc (some { Executable := "STOPPER", Args := ["Stop_1", "Stop_2"] })).ServiceWrapperConfig
        "LogPath" 0 "127.0.0.1").StopExecutable = "STOPPER" :=
  have h := C1_stop_argument_placement
    (testProc (some { Executable := "STOPPER", Args := ["Stop_1", "Stop_2"] }))
    { Executable := "STOPPER", Args := ["Stop_1", "Stop_2"] } "LogPath" 0 "127.0.0.1"
    rfl (by decide)
  ⟨h.2.1, h.2.2.2.1 (by decide)⟩

/-- C2: when the stop command names an executable but has an empty (or nil)
argument list, `Arguments` is the executable followed by the arguments of
the process, and `StartArguments` and `StopArguments` are both empty. -/
theorem C2_stop_argument_fallback (p : WindowsProcess) (stop : StopCommand)
    (logPath : String) (eventPort : Int) (machineIP : String)
    (hstop : p.Stop = some stop) (_hexe : stop.Executable ≠ "") (hargs : stop.Args = []) :
    (p.ServiceWrapperConfig logPath eventPort machineIP).Arguments =
        p.Executable :: p.Args ∧
      (p.ServiceWrapperConfig logPath eventPort machineIP).StartArguments = [] ∧
      (p.ServiceWrapperConfig logPath eventPort machineIP).StopArguments = [] := by
  simp [WindowsProcess.ServiceWrapperConfig, placeArguments, baseConfig, hstop, hargs]

/-- C2 at the stop command `STOPPER` without arguments of the unit test. -/
theorem C2_stop_argument_fallback_witness :
    ((testProc (some { Executable := "STOPPER", Args := [] })).ServiceWrapperConfig
        "LogPath" 0 "127.0.0.1").Arguments = ["Executable", "Start_1", "Start_2"] ∧
      ((testProc (some { Executable := "STOPPER", Args := [] })).ServiceWrapperConfig
        "LogPath" 0 "127.0.0.1").StartArguments = [] ∧
      ((testProc (some { Executable := "STOPPER", Args := [] })).ServiceWrapperConfig
        "LogPath" 0 "127.0.0.1").StopArguments = [] :=
  C2_stop_argument_fallback (testProc (some { Executable := "STOPPER", Args := [] }))
    { Executable := "STOPPER", Args := [] } "LogPath" 0 "127.0.0.1" rfl (by decide) rfl

/-- C3, as stated, fails: for the stop command `STOPPER` without arguments
the stop executable of the descriptor is empty, although the executable of
the stop command is not. -/
theorem C3_counterexample :
    (testProc (some { Executable := "STOPPER", Args := [] })).Stop =
        some { Executable := "STOPPER", Args := [] } ∧
      ({ Executable := "STOPPER", Args := [] } : StopCommand).Args = [] ∧
      ({ Executable := "STOPPER", Args := [] } : StopCommand).Executable ≠ "" ∧
      ((testProc (some { Executable := "STOPPER", Args := [] })).ServiceWrapperConfig
          "LogPath" 0 "127.0.0.1").StopExecutable = "" ∧
      ((testProc (some { Executable := "STOPPER", Args := [] })).ServiceWrapperConfig
          "LogPath" 0 "127.0.0.1").StopExecutable ≠
        ({ Executable := "STOPPER", Args := [] } : StopCommand).Executable := by
  decide

/-- C3 (amended): when the stop command is present but has no argument list,
the descriptor uses the default form (`Arguments` is the executable followed
by the arguments of the process, `StartArguments` and `StopArguments` are
empty) and its `StopExecutable` is empty, whatever the executable of the
stop command. -/
theorem C3_stop_without_arguments (p : WindowsProcess) (stop : StopCommand)
    (logPath : String) (eventPort : Int) (machineIP : String)
    (hstop : p.Stop = some stop) (hargs : stop.Args = []) :
    (p.ServiceWrapperConfig logPath eventPort machineIP).Arguments =
        p.Executable :: p.Args ∧
      (p.ServiceWrapperConfig logPath eventPort machineIP).StartArguments = [] ∧
      (p.ServiceWrapperConfig logPath eventPort machineIP).StopArguments = [] ∧
      (p.ServiceWrapperConfig logPath eventPort machineIP).StopExecutable = "" := by
  simp [WindowsProcess.ServiceWrapperConfig, placeArguments, baseConfig, hstop, hargs]

/-- C3 (amended) at a stop command with neither executable nor arguments. -/
theorem C3_stop_without_arguments_witness :
    ((testProc (some { Executable := "", Args := [] })).ServiceWrapperConfig
        "LogPath" 0 "127.0.0.1").Arguments = ["Executable", "Start_1", "Start_2"] ∧
      ((testProc (some { Executable := "", Args := [] })).ServiceWrapperConfig
        "LogPath" 0 "127.0.0.1").StartArguments = [] ∧
      ((testProc (some { Executable := "", Args := [] })).ServiceWrapperConfig
        "LogPath" 0 "127.0.0.1").StopArguments = [] ∧
      ((testProc (some { Executable := "", Args := [] })).ServiceWrapperConfig
        "LogPath" 0 "127.0.0.1").StopExecutable = "" :=
  C3_stop_without_arguments (testProc (some { Executable := "", Args := [] }))
    { Executable := "", Args := [] } "LogPath" 0 "127.0.0.1" rfl rfl

/-- C4, as stated, fails: for a process whose own executable is the pipe
shim, the stop executable of the descriptor is the pipe shim path, the
primary executable of the descriptor. -/
theorem C4_counterexample :
    pipeProc.Stop = some { Executable := "", Args := ["Stop_1"] } ∧
      ({ Executable := "", Args := ["Stop_1"] } : StopCommand).Args ≠ [] ∧
      ({ Executable := "", Args := ["Stop_1"] } : StopCommand).Executable = "" ∧
      (pipeProc.ServiceWrapperConfig "LogPath" 0 "127.0.0.1").StopExecutable = pipeExePath ∧
      (pipeProc.ServiceWrapperConfig "LogPath" 0 "127.0.0.1").StopExecutable =
        (pipeProc.ServiceWrapperConfig "LogPath" 0 "127.0.0.1").Executable := by
  decide

/-- C4 (amended): when the stop command has a non-empty argument list and an
empty executable, `StopExecutable` is the executable of the process; it
differs from the primary `Executable` of the descriptor, the pipe shim path,
whenever the executable of the process does. -/
theorem C4_stop_executable_default (p : WindowsProcess) (stop : StopCommand)
    (logPath : String) (eventPort : Int) (machineIP : String)
    (hstop : p.Stop = some stop) (hargs : stop.Args ≠ []) (hexe : stop.Executable = "") :
    (p.ServiceWrapperConfig logPath eventPort machineIP).StopExecutable = p.Executable ∧
      (p.ServiceWrapperConfig logPath eventPort machineIP).Executable = pipeExePath ∧
      (p.Executable ≠ pipeExePath →
        (p.ServiceWrapperConfig logPath eventPort machineIP).StopExecutable ≠
          (p.ServiceWrapperConfig logPath eventPort machineIP).Executable) := by
  have h1 : (p.ServiceWrapperConfig logPath eventPort machineIP).StopExecutable =
      p.Executable := by
    simp [WindowsProcess.ServiceWrapperConfig, placeArguments, baseConfig, hstop, hargs, hexe]
  have h2 : (p.ServiceWrapperConfig logPath eventPort machineIP).Executable = pipeExePath := by
    simp [WindowsProcess.ServiceWrapperConfig, placeArguments, baseConfig, hstop, hargs]
  refine ⟨h1, h2, ?_⟩
  intro hne
  rw [h1, h2]
  exact hne

/-- C4 (amended) at the stop command `Stop_1` without executable of the unit
test. -/
theorem C4_stop_executable_default_witness :
    ((testProc (some { Executable := "", Args := ["Stop_1"] })).ServiceWrapperConfig
        "LogPath" 0 "127.0.0.1").StopExecutable = "Executable" ∧
      ((testProc (some { Executable := "", Args := ["Stop_1"] })).ServiceWrapperConfig
        "LogPath" 0 "127.0.0.1").StopExecutable ≠
        ((testProc (some { Executable := "", Args := ["Stop_1"] })).ServiceWrapperConfig
          "LogPath" 0 "127.0.0.1").Executable :=
  have h := C4_stop_executable_default
    (testProc (some { Executable := "", Args := ["Stop_1"] }))
    { Executable := "", Args := ["Stop_1"] } "LogPath" 0 "127.0.0.1" rfl (by decide) rfl
  ⟨h.1, h.2.2 (by decide)⟩

/-! ## Environment of the descriptor -/

/-- C5, as stated, fails: the translated environment of `worker-1` holds
none of the four entries named `__NOTIFY_PROCESS_NAME`, `__NOTIFY_LOG_DIR`,
`__NOTIFY_HTTP` and `__NOTIFY_HOST`, so it is not the list of the claim. -/
theorem C5_counterexample :
    (⟨"__NOTIFY_PROCESS_NAME", "worker-1"⟩ : serviceEnv) ∉
        (worker1.ServiceWrapperConfig "/var/log/worker-1" 2825 "10.0.0.5").Env ∧
      (⟨"__NOTIFY_LOG_DIR", "/var/log/worker-1"⟩ : serviceEnv) ∉
        (worker1.ServiceWrapperConfig "/var/log/worker-1" 2825 "10.0.0.5").Env ∧
      (⟨"__NOTIFY_HTTP", "http://localhost:2825"⟩ : serviceEnv) ∉
        (worker1.ServiceWrapperConfig "/var/log/worker-1" 2825 "10.0.0.5").Env ∧
      (⟨"__NOTIFY_HOST", "10.0.0.5"⟩ : serviceEnv) ∉
        (worker1.ServiceWrapperConfig "/var/log/worker-1" 2825 "10.0.0.5").Env ∧
      (worker1.ServiceWrapperConfig "/var/log/worker-1" 2825 "10.0.0.5").Env ≠
        [⟨"K", "V"⟩, ⟨"__NOTIFY_PROCESS_NAME", "worker-1"⟩,
          ⟨"__NOTIFY_LOG_DIR", "/var/log/worker-1"⟩,
          ⟨"__NOTIFY_HTTP", "http://localhost:2825"⟩, ⟨"__NOTIFY_HOST", "10.0.0.5"⟩] := by
  decide

/-- C5 (amended): the translated environment of `worker-1` consists of
exactly the five entries `K=V`, `__PIPE_SERVICE_NAME=worker-1`,
`__PIPE_LOG_DIR=/var/log/worker-1`, `__PIPE_NOTIFY_HTTP=http://localhost:2825`
and `__PIPE_MACHINE_IP=10.0.0.5`, in this order. -/
theorem C5_worker1_environment :
    (worker1.ServiceWrapperConfig "/var/log/worker-1" 2825 "10.0.0.5").Env =
      [⟨"K", "V"⟩, ⟨"__PIPE_SERVICE_NAME", "worker-1"⟩,
        ⟨"__PIPE_LOG_DIR", "/var/log/worker-1"⟩,
        ⟨"__PIPE_NOTIFY_HTTP", "http://localhost:2825"⟩,
        ⟨"__PIPE_MACHINE_IP", "10.0.0.5"⟩] := by
  decide

/-- C6: the environment of the descriptor has `len(p.Env) + 4` entries; its
last four are, in this order, the process name, the log directory, the
failure-notification endpoint `http://localhost:<eventPort>` and the host
address; the entries before them are the name/value pairs of `p.Env` in
visiting order, so each pair of a well-formed map occurs among them exactly
once and nothing else does. -/
theorem C6_environment_layout (p : WindowsProcess) (logPath : String) (eventPort : Int)
    (machineIP : String) :
    (p.ServiceWrapperConfig logPath eventPort machineIP).Env.length = p.Env.length + 4 ∧
      (p.ServiceWrapperConfig logPath eventPort machineIP).Env.drop p.Env.length =
        [⟨"__PIPE_SERVICE_NAME", p.Name⟩, ⟨"__PIPE_LOG_DIR", logPath⟩,
          ⟨"__PIPE_NOTIFY_HTTP", "http://localhost:" ++ toString eventPort⟩,
          ⟨"__PIPE_MACHINE_IP", machineIP⟩] ∧
      (p.ServiceWrapperConfig logPath eventPort machineIP).Env.take p.Env.length =
        p.Env.map (fun kv => ({ Name := kv.1, Value := kv.2 } : serviceEnv)) ∧
      (∀ e ∈ (p.ServiceWrapperConfig logPath eventPort machineIP).Env.take p.Env.length,
        (e.Name, e.Value) ∈ p.Env) ∧
      (p.Env.WF → ∀ k v, (k, v) ∈ p.Env →
        ((p.ServiceWrapperConfig logPath eventPort machineIP).Env.take p.Env.length).count
          ⟨k, v⟩ = 1) := by
  have htake : (p.ServiceWrapperConfig logPath eventPort machineIP).Env.take p.Env.length =
      p.Env.map (fun kv => ({ Name := kv.1, Value := kv.2 } : serviceEnv)) := by
    rw [ServiceWrapperConfig_Env, List.take_append_eq_append_take]
    simp
  refine ⟨?_, ?_, htake, ?_, ?_⟩
  · rw [ServiceWrapperConfig_Env]
    simp [pipeEnv]
  · rw [ServiceWrapperConfig_Env, List.drop_append_eq_append_drop]
    simp [pipeEnv, notifyHTTP]
  · intro e he
    rw [htake, List.mem_map] at he
    obtain ⟨kv, hkv, rfl⟩ := he
    exact hkv
  · intro hwf k v hmem
    rw [htake]
    have hinj : Function.Injective
        (fun kv : String × String => ({ Name := kv.1, Value := kv.2 } : serviceEnv)) := by
      intro a b hab
      simp only [serviceEnv.mk.injEq] at hab
      exact Prod.ext hab.1 hab.2
    have hcount := List.count_map_of_injective p.Env _ hinj (k, v)
    simp only at hcount
    rw [hcount]
    exact List.count_eq_one_of_mem (List.Nodup.of_map _ hwf) hmem

/-- C6 at the process of the unit test with the variables `Key_1` and
`Key_2`. -/
theorem C6_environment_layout_witness :
    ((envProc [("Key_1", "Val_1"), ("Key_2", "Val_2")]).ServiceWrapperConfig
        "LogPath" 123 "127.0.0.1").Env.length = 6 ∧
      (((envProc [("Key_1", "Val_1"), ("Key_2", "Val_2")]).ServiceWrapperConfig
        "LogPath" 123 "127.0.0.1").Env.take 2).count ⟨"Key_2", "Val_2"⟩ = 1 :=
  have h := C6_environment_layout (envProc [("Key_1", "Val_1"), ("Key_2", "Val_2")])
    "LogPath" 123 "127.0.0.1"
  ⟨h.1, h.2.2.2.2 (by decide) "Key_2" "Val_2" (by decide)⟩

/-- C7, as stated, fails: when `p.Env` maps `__PIPE_LOG_DIR` to `x`, the map
built from the environment of the descriptor maps that name to the log path,
because the entry appended after the caller-supplied ones overrides it. -/
theorem C7_counterexample :
    GoMap.WF [("__PIPE_LOG_DIR", "x")] ∧
      ("__PIPE_LOG_DIR", "x") ∈ (envProc [("__PIPE_LOG_DIR", "x")]).Env ∧
      envMap ((envProc [("__PIPE_LOG_DIR", "x")]).ServiceWrapperConfig
        "LogPath" 0 "127.0.0.1").Env "__PIPE_LOG_DIR" = some "LogPath" ∧
      envMap ((envProc [("__PIPE_LOG_DIR", "x")]).ServiceWrapperConfig
        "LogPath" 0 "127.0.0.1").Env "__PIPE_LOG_DIR" ≠ some "x" := by
  refine ⟨by decide, by decide, by decide, by decide⟩

/-- C7 (amended): for every key `k` with value `v` in `p.Env` that is not
one of the four reserved names, the name-to-value map built from the
environment of the descriptor maps `k` to `v`; each reserved name is mapped
to the value the translator appends for it. -/
theorem C7_caller_environment_preserved (p : WindowsProcess) (logPath : String)
    (eventPort : Int) (machineIP : String) (hwf : p.Env.WF) :
    (∀ k v, (k, v) ∈ p.Env → k ∉ reservedNames →
        envMap (p.ServiceWrapperConfig logPath eventPort machineIP).Env k = some v) ∧
      envMap (p.ServiceWrapperConfig logPath eventPort machineIP).Env
        "__PIPE_SERVICE_NAME" = some p.Name ∧
      envMap (p.ServiceWrapperConfig logPath eventPort machineIP).Env
        "__PIPE_LOG_DIR" = some logPath ∧
      envMap (p.ServiceWrapperConfig logPath eventPort machineIP).Env
        "__PIPE_NOTIFY_HTTP" = some ("http://localhost:" ++ toString eventPort) ∧
      envMap (p.ServiceWrapperConfig logPath eventPort machineIP).Env
        "__PIPE_MACHINE_IP" = some machineIP := by
  refine ⟨?_, ?_, ?_, ?_, ?_⟩
  · intro k v hmem hk
    simp only [reservedNames, List.mem_cons, List.mem_singleton, not_or, List.not_mem_nil,
      not_false_eq_true, and_true] at hk
    rw [ServiceWrapperConfig_Env, envMap_append_pipeEnv, envMap_map_eq_get? p.Env hwf]
    simp only [hk.1, hk.2.1, hk.2.2.1, hk.2.2.2, if_false]
    exact (GoMap.get?_eq_some_iff p.Env hwf k v).mpr hmem
  · rw [ServiceWrapperConfig_Env, envMap_append_pipeEnv]
    simp
  · rw [ServiceWrapperConfig_Env, envMap_append_pipeEnv]
    simp
  · rw [ServiceWrapperConfig_Env, envMap_append_pipeEnv]
    simp [notifyHTTP]
  · rw [ServiceWrapperConfig_Env, envMap_append_pipeEnv]
    simp

/-- C7 (amended) at the process of the unit test with the variables `Key_1`
and `Key_2`. -/
theorem C7_caller_environment_preserved_witness :
    envMap ((envProc [("Key_1", "Val_1"), ("Key_2", "Val_2")]).ServiceWrapperConfig
      "LogPath" 0 "127.0.0.1").Env "Key_1" = some "Val_1" :=
  (C7_caller_environment_preserved (envProc [("Key_1", "Val_1"), ("Key_2", "Val_2")])
    "LogPath" 0 "127.0.0.1" (by decide)).1 "Key_1" "Val_1"
    (by decide) (by decide)

theorem sameMapping_test_orders :
    GoMap.sameMapping [("Key_1", "Val_1"), ("Key_2", "Val_2")]
      [("Key_2", "Val_2"), ("Key_1", "Val_1")] := by
  intro k
  by_cases h1 : k = "Key_1"
  · subst h1; decide
  · by_cases h2 : k = "Key_2"
    · subst h2; decide
    · have h1b : ("Key_1" == k) = false := by
        simpa using fun h : "Key_1" = k => h1 h.symm
      have h2b : ("Key_2" == k) = false := by
        simpa using fun h : "Key_2" = k => h2 h.symm
      simp [GoMap.get?, List.find?, h1b, h2b]

/-- C8, as stated, fails: the same mapping `Key_1 ↦ Val_1, Key_2 ↦ Val_2`,
visited in the two possible orders, gives two descriptors that differ in the
order of their environment entries. -/
theorem C8_counterexample :
    GoMap.WF [("Key_1", "Val_1"), ("Key_2", "Val_2")] ∧
      GoMap.WF [("Key_2", "Val_2"), ("Key_1", "Val_1")] ∧
      GoMap.sameMapping [("Key_1", "Val_1"), ("Key_2", "Val_2")]
        [("Key_2", "Val_2"), ("Key_1", "Val_1")] ∧
      (envProc [("Key_1", "Val_1"), ("Key_2", "Val_2")]).ServiceWrapperConfig
          "LogPath" 0 "127.0.0.1" ≠
        (envProc [("Key_2", "Val_2"), ("Key_1", "Val_1")]).ServiceWrapperConfig
          "LogPath" 0 "127.0.0.1" := by
  exact ⟨by decide, by decide, sameMapping_test_orders, by decide⟩

/-- C8 (amended): two calls with equal name, executable, arguments and stop
command, the same environment mapping, and equal log path, event port and
machine address return descriptors that agree in every field other than
`Env`; their `Env` lists hold the same entries with the same multiplicity,
end with the same four appended entries, and build the same name-to-value
map; and the descriptors are equal when the two calls visit the map in the
same order. -/
theorem C8_deterministic_up_to_visit_order (p₁ p₂ : WindowsProcess) (logPath : String)
    (eventPort : Int) (machineIP : String)
    (hname : p₁.Name = p₂.Name) (hexe : p₁.Executable = p₂.Executable)
    (hargs : p₁.Args = p₂.Args) (hstop : p₁.Stop = p₂.Stop)
    (hwf₁ : p₁.Env.WF) (hwf₂ : p₂.Env.WF) (henv : GoMap.sameMapping p₁.Env p₂.Env) :
    { p₁.ServiceWrapperConfig logPath eventPort machineIP with Env := [] } =
        { p₂.ServiceWrapperConfig logPath eventPort machineIP with Env := [] } ∧
      (p₁.ServiceWrapperConfig logPath eventPort machineIP).Env.Perm
        (p₂.ServiceWrapperConfig logPath eventPort machineIP).Env ∧
      (p₁.ServiceWrapperConfig logPath eventPort machineIP).Env.drop p₁.Env.length =
        (p₂.ServiceWrapperConfig logPath eventPort machineIP).Env.drop p₂.Env.length ∧
      envMap (p₁.ServiceWrapperConfig logPath eventPort machineIP).Env =
        envMap (p₂.ServiceWrapperConfig logPath eventPort machineIP).Env ∧
      (p₁.Env = p₂.Env →
        p₁.ServiceWrapperConfig logPath eventPort machineIP =
          p₂.ServiceWrapperConfig logPath eventPort machineIP) := by
  have hperm := GoMap.perm_of_sameMapping p₁.Env p₂.Env hwf₁ hwf₂ henv
  have hpipe : pipeEnv p₁ logPath eventPort machineIP =
      pipeEnv p₂ logPath eventPort machineIP := by
    simp [pipeEnv, hname]
  refine ⟨?_, ?_, ?_, ?_, ?_⟩
  · simp [WindowsProcess.ServiceWrapperConfig, placeArguments, baseConfig, hname, hexe,
      hargs, hstop]
  · rw [ServiceWrapperConfig_Env, ServiceWrapperConfig_Env, hpipe]
    exact List.Perm.append_right _ (hperm.map _)
  · rw [ServiceWrapperConfig_Env_drop, ServiceWrapperConfig_Env_drop, hpipe]
  · funext k
    rw [ServiceWrapperConfig_Env, ServiceWrapperConfig_Env, envMap_append_pipeEnv,
      envMap_append_pipeEnv, envMap_map_eq_get? p₁.Env hwf₁, envMap_map_eq_get? p₂.Env hwf₂,
      henv k, hname]
  · intro heq
    have hp : p₁ = p₂ := by
      cases p₁; cases p₂
      simp only [WindowsProcess.mk.injEq]
      exact ⟨hname, hexe, hargs, heq, hstop⟩
    rw [hp]

/-- C8 (amended) at the mapping `Key_1 ↦ Val_1, Key_2 ↦ Val_2` visited in
its two orders. -/
theorem C8_deterministic_up_to_visit_order_witness :
    ((envProc [("Key_1", "Val_1"), ("Key_2", "Val_2")]).ServiceWrapperConfig
        "LogPath" 0 "127.0.0.1").Env.Perm
      ((envProc [("Key_2", "Val_2"), ("Key_1", "Val_1")]).ServiceWrapperConfig
        "LogPath" 0 "127.0.0.1").Env :=
  (C8_deterministic_up_to_visit_order (envProc [("Key_1", "Val_1"), ("Key_2", "Val_2")])
    (envProc [("Key_2", "Val_2"), ("Key_1", "Val_1")]) "LogPath" 0 "127.0.0.1"
    rfl rfl rfl rfl (by decide) (by decide) sameMapping_test_orders).2.1

/-! ## Status and the stopped marker -/

theorem statusLoop_eq_running_iff (sts : List ServiceStatus) :
    statusLoop sts = "running" ↔ ∀ s ∈ sts, s.State = svc.Running := by
  induction sts with
  | nil => simp [statusLoop]
  | cons a sts ih =>
    by_cases h : a.State = svc.Running
    · simp [statusLoop, h, ih]
    · simp [statusLoop, h]

theorem statusLoop_eq_failing_iff (sts : List ServiceStatus) :
    statusLoop sts = "failing" ↔ ∃ s ∈ sts, s.State ≠ svc.Running := by
  induction sts with
  | nil => simp [statusLoop]
  | cons a sts ih =>
    by_cases h : a.State = svc.Running
    · simp [statusLoop, h, ih]
    · simp [statusLoop, h]

theorem Status_of_marker (ops : MgrOps M) (w : windowsJobSupervisor M)
    (h : w.fs.FileExists w.stoppedFilePath = true) :
    w.Status ops = ("stopped", w.log (.fsFileExists w.stoppedFilePath)) := by
  simp [windowsJobSupervisor.Status, h]

theorem FileExists_WriteFileString (fs fs1 : FileSystem) (path content : String)
    (h : fs.WriteFileString path content = (none, fs1)) : fs1.FileExists path = true := by
  unfold FileSystem.WriteFileString at h
  split at h
  · simp at h
  · simp only [Prod.mk.injEq, true_and] at h
    subst h
    simp [FileSystem.FileExists]

theorem FileExists_RemoveAll (fs fs1 : FileSystem) (path : String)
    (h : fs.RemoveAll path = (none, fs1)) : fs1.FileExists path = false := by
  unfold FileSystem.RemoveAll at h
  split at h
  · simp at h
  · simp only [Prod.mk.injEq, true_and] at h
    subst h
    simp only [FileSystem.FileExists, List.any_eq_false, List.mem_filter, beq_iff_eq]
    rintro f ⟨_, hf⟩ hfp
    simp [pathUnder, hfp] at hf

theorem Stop_success (ops : MgrOps M) (w w1 : windowsJobSupervisor M)
    (h : w.Stop ops = (none, w1)) :
    w1.fs.FileExists w.stoppedFilePath = true ∧ w1.dirProvider = w.dirProvider := by
  unfold windowsJobSupervisor.Stop at h
  split at h
  · simp at h
  · dsimp only at h
    split at h
    · simp at h
    · rename_i fs hfs
      simp only [Prod.mk.injEq, true_and] at h
      subst h
      exact ⟨FileExists_WriteFileString _ _ _ _ hfs, rfl⟩

theorem Start_success (ops : MgrOps M) (w w1 : windowsJobSupervisor M)
    (h : w.Start ops = (none, w1)) :
    w1.fs.FileExists w.stoppedFilePath = false ∧ w1.dirProvider = w.dirProvider := by
  unfold windowsJobSupervisor.Start at h
  dsimp only at h
  split at h
  · simp at h
  · split at h
    · simp at h
    · rename_i fs hfs
      simp only [Prod.mk.injEq, true_and] at h
      subst h
      exact ⟨FileExists_RemoveAll _ _ _ hfs, rfl⟩

/-- C9: `Status` returns "stopped" when the stopped marker file exists, and
then makes no call to the service manager (the only collaborator call is
the existence test, and the state of the service manager is untouched);
otherwise it returns "failing" when the status query errors; otherwise it
returns "running" exactly when every owned service (possibly none) is in the
running state, and "failing" exactly when some owned service is in another
state. -/
theorem C9_status_decision (ops : MgrOps M) (w : windowsJobSupervisor M) :
    (w.fs.FileExists w.stoppedFilePath = true →
        (w.Status ops).1 = "stopped" ∧
        (w.Status ops).2.trace = w.trace ++ [Call.fsFileExists w.stoppedFilePath] ∧
        (∀ c ∈ (w.Status ops).2.trace.drop w.trace.length, c.isMgr = false) ∧
        (w.Status ops).2.mgr = w.mgr) ∧
      (w.fs.FileExists w.stoppedFilePath = false →
        (∀ err, (ops.Status w.mgr).1 = .error err → (w.Status ops).1 = "failing") ∧
        (∀ sts, (ops.Status w.mgr).1 = .ok sts →
          ((w.Status ops).1 = "running" ↔ ∀ s ∈ sts, s.State = svc.Running) ∧
          ((w.Status ops).1 = "failing" ↔ ∃ s ∈ sts, s.State ≠ svc.Running))) := by
  constructor
  · intro h
    rw [Status_of_marker ops w h]
    simp [windowsJobSupervisor.log, Call.isMgr]
  · intro h
    constructor
    · intro err herr
      unfold windowsJobSupervisor.Status
      simp only [h, Bool.false_eq_true, if_false, windowsJobSupervisor.log]
      split
      · rfl
      · rename_i sts m hsts
        simp only [hsts] at herr
        cases herr
    · intro sts hsts
      have hval : (w.Status ops).1 = statusLoop sts := by
        unfold windowsJobSupervisor.Status
        simp only [h, Bool.false_eq_true, if_false, windowsJobSupervisor.log]
        split
        · rename_i err m herr
          simp only [herr] at hsts
          cases hsts
        · rename_i sts2 m hsts2
          simp only [hsts2, Except.ok.injEq] at hsts
          subst hsts
          cases sts2 with
          | nil => simp [statusLoop]
          | cons a l => simp
      rw [hval]
      exact ⟨statusLoop_eq_running_iff sts, statusLoop_eq_failing_iff sts⟩

/-- C9 at three supervisors: one with the marker file and a failing service
manager, one without the marker whose status query errors, and one without
the marker whose two services are running and stopped. -/
theorem C9_status_decision_witness :
    ((testSupervisor [("C:\\var\\vcap\\monit\\stopped", "")] []).Status
        (listMgr (some "access denied"))).1 = "stopped" ∧
      ((testSupervisor [] []).Status (listMgr (some "access denied"))).1 = "failing" ∧
      ((testSupervisor [] [⟨"a", svc.Running⟩, ⟨"b", svc.Stopped⟩]).Status
        (listMgr none)).1 = "failing" :=
  ⟨((C9_status_decision (listMgr (some "access denied"))
      (testSupervisor [("C:\\var\\vcap\\monit\\stopped", "")] [])).1 (by decide)).1,
    ((C9_status_decision (listMgr (some "access denied")) (testSupervisor [] [])).2
      (by decide)).1 "access denied" rfl,
    (((C9_status_decision (listMgr none)
      (testSupervisor [] [⟨"a", svc.Running⟩, ⟨"b", svc.Stopped⟩])).2 (by decide)).2
      [⟨"a", svc.Running⟩, ⟨"b", svc.Stopped⟩] rfl).2.mpr
      ⟨⟨"b", svc.Stopped⟩, by decide, by decide⟩⟩

/-- C10: after a `Stop` that returns no error the stopped marker file
exists, and the next `Status` returns "stopped" with the existence test as
its only collaborator call, hence without a call to the service manager;
after any later `Start` that returns no error (directly after the `Stop`,
after that `Status`, or from any other state of the supervisor) the marker
file is absent. -/
theorem C10_marker_invariant (ops : MgrOps M) (w w1 : windowsJobSupervisor M)
    (hstop : w.Stop ops = (none, w1)) :
    w1.stoppedFilePath = w.stoppedFilePath ∧
      w1.fs.FileExists w.stoppedFilePath = true ∧
      (w1.Status ops).1 = "stopped" ∧
      (w1.Status ops).2.trace = w1.trace ++ [Call.fsFileExists w.stoppedFilePath] ∧
      (∀ c ∈ (w1.Status ops).2.trace.drop w1.trace.length, c.isMgr = false) ∧
      (w1.Status ops).2.mgr = w1.mgr ∧
      (∀ w2, w1.Start ops = (none, w2) → w2.fs.FileExists w.stoppedFilePath = false) ∧
      (∀ w2, (w1.Status ops).2.Start ops = (none, w2) →
        w2.fs.FileExists w.stoppedFilePath = false) ∧
      (∀ v v2 : windowsJobSupervisor M, v.Start ops = (none, v2) →
        v2.stoppedFilePath = v.stoppedFilePath ∧
          v2.fs.FileExists v.stoppedFilePath = false) := by
  obtain ⟨hex, hdir⟩ := Stop_success ops w w1 hstop
  have hpath : w1.stoppedFilePath = w.stoppedFilePath := by
    simp [windowsJobSupervisor.stoppedFilePath, hdir]
  have hex1 : w1.fs.FileExists w1.stoppedFilePath = true := by rw [hpath]; exact hex
  have hstatus := Status_of_marker ops w1 hex1
  refine ⟨hpath, hex, ?_, ?_, ?_, ?_, ?_, ?_, ?_⟩
  · rw [hstatus]
  · rw [hstatus, hpath]; rfl
  · rw [hstatus]
    simp [windowsJobSupervisor.log, Call.isMgr]
  · rw [hstatus]; rfl
  · intro w2 h2
    rw [← hpath]
    exact (Start_success ops w1 w2 h2).1
  · intro w2 h2
    have h := (Start_success ops _ w2 h2).1
    rw [hstatus] at h
    rw [← hpath]
    exact h
  · intro v v2 h2
    obtain ⟨h1, hd⟩ := Start_success ops v v2 h2
    exact ⟨by simp [windowsJobSupervisor.stoppedFilePath, hd], h1⟩

/-- C10 at a supervisor with one running service and no marker file: `Stop`
succeeds, `Status` then returns "stopped", and after the following `Start`
the marker file is absent. -/
theorem C10_marker_invariant_witness :
    (((testSupervisor [] [⟨"a", svc.Running⟩]).Stop (listMgr none)).2.Status
        (listMgr none)).1 = "stopped" ∧
      ((((testSupervisor [] [⟨"a", svc.Running⟩]).Stop (listMgr none)).2.Status
        (listMgr none)).2.Start (listMgr none)).2.fs.FileExists
        (testSupervisor [] [⟨"a", svc.Running⟩]).stoppedFilePath = false :=
  have h := C10_marker_invariant (listMgr none) (testSupervisor [] [⟨"a", svc.Running⟩])
    ((testSupervisor [] [⟨"a", svc.Running⟩]).Stop (listMgr none)).2 rfl
  ⟨h.2.2.1, h.2.2.2.2.2.2.2.1 _ rfl⟩

/-! ## Statements in sequence -/

theorem sameFrame_refl (w : windowsJobSupervisor M) : w.sameFrame w :=
  ⟨rfl, rfl, rfl, rfl⟩

theorem sameFrame_trans {w w1 w2 : windowsJobSupervisor M} (h1 : w.sameFrame w1)
    (h2 : w1.sameFrame w2) : w.sameFrame w2 :=
  ⟨h2.1.trans h1.1, h2.2.1.trans h1.2.1, h2.2.2.1.trans h1.2.2.1, h2.2.2.2.trans h1.2.2.2⟩

theorem sameFrame_log (w : windowsJobSupervisor M) (c : Call) : w.sameFrame (w.log c) :=
  ⟨rfl, rfl, rfl, rfl⟩

theorem fsStep_records (call : Call) (op : FileSystem → Option Error × FileSystem)
    (wrap : Error → Error) : recordsCall (fsStep call op wrap : Step M) call := by
  intro w
  unfold fsStep
  split <;> exact ⟨⟨rfl, rfl, rfl, rfl⟩, rfl⟩

theorem cmdStep_records (cmd : CmdOps M) (name : String) (args : List String)
    (wrap : Error → Error) :
    recordsCall (cmdStep cmd name args wrap) (.cmdRunCommand name args) := by
  intro w
  unfold cmdStep
  split <;> exact ⟨⟨rfl, rfl, rfl, rfl⟩, rfl⟩

theorem debugStep_records (format : String) (args : List String) :
    recordsCall (debugStep format args : Step M) (.loggerDebug logTag format args) := by
  intro w
  exact ⟨⟨rfl, rfl, rfl, rfl⟩, rfl⟩

theorem fsStep_wrapsWith (call : Call) (op : FileSystem → Option Error × FileSystem)
    (desc : String) :
    wrapsWith (fsStep call op (fun err => WrapError err desc) : Step M) desc := by
  intro w err h
  unfold fsStep at h
  split at h
  · rename_i e fs _
    exact ⟨e, (Option.some.inj h).symm⟩
  · simp at h

theorem cmdStep_wrapsWith (cmd : CmdOps M) (name : String) (args : List String)
    (desc : String) :
    wrapsWith (cmdStep cmd name args (fun err => WrapError err desc)) desc := by
  intro w err h
  unfold cmdStep at h
  split at h
  · rename_i e m _
    exact ⟨e, (Option.some.inj h).symm⟩
  · simp at h

theorem debugStep_wrapsWith (format : String) (args : List String) (desc : String) :
    wrapsWith (debugStep format args : Step M) desc := by
  intro w err h
  simp [debugStep] at h

theorem runSteps_cons (step : Step M) (rest : List (Step M)) (w : windowsJobSupervisor M) :
    runSteps (step :: rest) w =
      if (step w).1.isSome then step w else runSteps rest (step w).2 := by
  rw [runSteps]
  rcases h : step w with ⟨_ | err, w1⟩ <;> simp

theorem runSteps_append (l₁ l₂ : List (Step M)) (w : windowsJobSupervisor M) :
    runSteps (l₁ ++ l₂) w =
      if (runSteps l₁ w).1.isSome then runSteps l₁ w else runSteps l₂ (runSteps l₁ w).2 := by
  induction l₁ generalizing w with
  | nil => simp [runSteps]
  | cons step rest ih =>
    rw [List.cons_append, runSteps_cons, runSteps_cons]
    by_cases h : (step w).1.isSome
    · simp [h]
    · simp only [h, Bool.false_eq_true, if_false]
      exact ih _

/-- Statements that record one call each: the sequence keeps the frame,
records a prefix of the calls, and all of them when it succeeds. -/
theorem runSteps_records (steps : List (Step M)) (calls : List Call)
    (h : List.Forall₂ recordsCall steps calls) (w : windowsJobSupervisor M) :
    w.sameFrame (runSteps steps w).2 ∧
      (∃ k, (runSteps steps w).2.trace = w.trace ++ calls.take k) ∧
      ((runSteps steps w).1 = none → (runSteps steps w).2.trace = w.trace ++ calls) := by
  induction h generalizing w with
  | nil => exact ⟨sameFrame_refl w, ⟨0, by simp [runSteps]⟩, fun _ => by simp [runSteps]⟩
  | @cons step call rest calls hstep _ ih =>
    obtain ⟨hframe, htrace⟩ := hstep w
    rw [runSteps_cons]
    by_cases hs : (step w).1.isSome
    · simp only [hs, if_true]
      refine ⟨hframe, ⟨1, by simp [htrace]⟩, ?_⟩
      intro hnone
      rw [hnone] at hs
      simp at hs
    · simp only [hs, Bool.false_eq_true, if_false]
      obtain ⟨hf, ⟨k, hk⟩, hall⟩ := ih (step w).2
      refine ⟨sameFrame_trans hframe hf, ⟨k + 1, ?_⟩, ?_⟩
      · rw [hk, htrace]; simp
      · intro hnone
        rw [hall hnone, htrace]; simp

theorem runSteps_wrapsWith (steps : List (Step M)) (descs : List String)
    (h : List.Forall₂ wrapsWith steps descs) (w : windowsJobSupervisor M) (err : Error)
    (herr : (runSteps steps w).1 = some err) :
    ∃ e d, d ∈ descs ∧ err = WrapError e d := by
  induction h generalizing w with
  | nil => simp [runSteps] at herr
  | @cons step desc rest descs hstep _ ih =>
    rw [runSteps_cons] at herr
    by_cases hs : (step w).1.isSome
    · simp only [hs, if_true] at herr
      obtain ⟨e, he⟩ := hstep w err herr
      exact ⟨e, desc, List.mem_cons_self _ _, he⟩
    · simp only [hs, Bool.false_eq_true, if_false] at herr
      obtain ⟨e, d, hd, he⟩ := ih _ herr
      exact ⟨e, d, List.mem_cons_of_mem _ hd, he⟩

/-! ## The loop body of `AddJob` -/

theorem renderedConfig_of_ok (codecs : Codecs) (w : windowsJobSupervisor M)
    (jobName : String) (process : WindowsProcess) (buf : String)
    (h : codecs.xmlEncode (process.ServiceWrapperConfig (w.logPath jobName process)
      w.jobFailuresServerPort w.machineIP) = .ok buf) :
    renderedConfig codecs w.dirProvider w.jobFailuresServerPort w.machineIP jobName process =
      buf := by
  unfold renderedConfig
  unfold windowsJobSupervisor.logPath at h
  rw [h]

theorem installSteps_records (c : Collaborators M) (w : windowsJobSupervisor M)
    (jobName configPath : String) (process : WindowsProcess) (buf : String)
    (hbuf : renderedConfig c.codecs w.dirProvider w.jobFailuresServerPort w.machineIP jobName
      process = buf) :
    List.Forall₂ recordsCall (installSteps c.cmd w jobName configPath process buf)
      (processCalls c.codecs w.dirProvider w.jobFailuresServerPort w.machineIP jobName
        configPath process).tail := by
  subst hbuf
  unfold installSteps processCalls installCommand
  exact .cons (debugStep_records _ _) (.cons (fsStep_records _ _ _)
    (.cons (fsStep_records _ _ _) (.cons (fsStep_records _ _ _)
      (.cons (fsStep_records _ _ _) (.cons (cmdStep_records _ _ _ _) .nil)))))

theorem installSteps_wrapsWith (cmd : CmdOps M) (w : windowsJobSupervisor M)
    (jobName configPath : String) (process : WindowsProcess) (buf : String) :
    List.Forall₂ wrapsWith (installSteps cmd w jobName configPath process buf)
      (stepDescriptions configPath process).tail := by
  unfold installSteps stepDescriptions
  exact .cons (debugStep_wrapsWith _ _ _) (.cons (fsStep_wrapsWith _ _ _)
    (.cons (fsStep_wrapsWith _ _ _) (.cons (fsStep_wrapsWith _ _ _)
      (.cons (fsStep_wrapsWith _ _ _) (.cons (cmdStep_wrapsWith _ _ _ _) .nil)))))

/-- One pass through the loop body keeps the frame and records a prefix of
the calls of a complete pass: all of them when it succeeds; when it fails,
its error is an error wrapped with the description of one of its steps. -/
theorem addJobProcess_spec (c : Collaborators M) (jobName configPath : String)
    (process : WindowsProcess) (w : windowsJobSupervisor M) :
    w.sameFrame (addJobProcess c jobName configPath process w).2 ∧
      (∃ k, (addJobProcess c jobName configPath process w).2.trace =
        w.trace ++ (processCalls c.codecs w.dirProvider w.jobFailuresServerPort w.machineIP
          jobName configPath process).take k) ∧
      ((addJobProcess c jobName configPath process w).1 = none →
        (addJobProcess c jobName configPath process w).2.trace =
          w.trace ++ processCalls c.codecs w.dirProvider w.jobFailuresServerPort w.machineIP
            jobName configPath process) ∧
      (∀ err, (addJobProcess c jobName configPath process w).1 = some err →
        ∃ e d, d ∈ stepDescriptions configPath process ∧ err = WrapError e d) := by
  have hfirst := fsStep_records (M := M) (.fsMkdirAll (w.logPath jobName process) 0o750)
    (fun fs => fs.MkdirAll (w.logPath jobName process) 0o750)
    (fun err => WrapError err ("Creating log directory for service '" ++ process.Name ++ "'")) w
  have hwrap := fsStep_wrapsWith (M := M) (.fsMkdirAll (w.logPath jobName process) 0o750)
    (fun fs => fs.MkdirAll (w.logPath jobName process) 0o750)
    ("Creating log directory for service '" ++ process.Name ++ "'") w
  have hhead : (processCalls c.codecs w.dirProvider w.jobFailuresServerPort w.machineIP
      jobName configPath process) =
      Call.fsMkdirAll (w.logPath jobName process) 0o750 ::
        (processCalls c.codecs w.dirProvider w.jobFailuresServerPort w.machineIP
          jobName configPath process).tail := by
    simp [processCalls, windowsJobSupervisor.logPath]
  unfold addJobProcess
  rcases h : fsStep (.fsMkdirAll (w.logPath jobName process) 0o750)
      (fun fs => fs.MkdirAll (w.logPath jobName process) 0o750)
      (fun err => WrapError err ("Creating log directory for service '" ++ process.Name ++
        "'")) w with ⟨_ | err, w1⟩
  · rw [h] at hfirst
    obtain ⟨hframe, htrace⟩ := hfirst
    simp only at hframe htrace ⊢
    rcases hx : c.codecs.xmlEncode (process.ServiceWrapperConfig (w.logPath jobName process)
        w.jobFailuresServerPort w.machineIP) with e | buf
    · simp only
      refine ⟨hframe, ⟨1, ?_⟩, ?_, ?_⟩
      · rw [htrace, hhead]; simp
      · intro hnone; simp at hnone
      · intro err herr
        refine ⟨e, _, ?_, (Option.some.inj herr).symm⟩
        simp [stepDescriptions]
    · simp only
      have hbuf := renderedConfig_of_ok c.codecs w jobName process buf hx
      obtain ⟨hf, ⟨k, hk⟩, hall⟩ := runSteps_records _ _
        (installSteps_records c w jobName configPath process buf hbuf) w1
      refine ⟨sameFrame_trans hframe hf, ⟨k + 1, ?_⟩, ?_, ?_⟩
      · rw [hk, htrace, hhead]; simp
      · intro hnone
        rw [hall hnone, htrace, hhead]; simp
      · intro err herr
        obtain ⟨e, d, hd, he⟩ := runSteps_wrapsWith _ _
          (installSteps_wrapsWith c.cmd w jobName configPath process buf) w1 err herr
        exact ⟨e, d, List.mem_of_mem_tail hd, he⟩
  · rw [h] at hfirst
    obtain ⟨hframe, htrace⟩ := hfirst
    simp only at hframe htrace ⊢
    refine ⟨hframe, ⟨1, ?_⟩, ?_, ?_⟩
    · rw [htrace, hhead]; simp
    · intro hnone; simp at hnone
    · intro err2 herr
      obtain ⟨e, he⟩ := hwrap err (by rw [h])
      refine ⟨e, "Creating log directory for service '" ++ process.Name ++ "'", ?_, ?_⟩
      · simp [stepDescriptions]
      · rw [← Option.some.inj herr, he]

/-- The loop of `AddJob` over a list of processes keeps the frame, and when
it succeeds it records the calls of a complete pass for each process, in
order. -/
theorem addJobLoop_spec (c : Collaborators M) (jobName configPath : String)
    (procs : List WindowsProcess) (w : windowsJobSupervisor M) :
    w.sameFrame (runSteps (procs.map (addJobProcess c jobName configPath)) w).2 ∧
      ((runSteps (procs.map (addJobProcess c jobName configPath)) w).1 = none →
        (runSteps (procs.map (addJobProcess c jobName configPath)) w).2.trace =
          w.trace ++ procs.flatMap (processCalls c.codecs w.dirProvider w.jobFailuresServerPort
            w.machineIP jobName configPath)) := by
  induction procs generalizing w with
  | nil => exact ⟨sameFrame_refl w, fun _ => by simp [runSteps]⟩
  | cons p rest ih =>
    obtain ⟨hframe, _, hall, _⟩ := addJobProcess_spec c jobName configPath p w
    rw [List.map_cons, runSteps_cons]
    by_cases hs : (addJobProcess c jobName configPath p w).1.isSome
    · simp only [hs, if_true]
      refine ⟨hframe, ?_⟩
      intro hnone
      rw [hnone] at hs
      simp at hs
    · simp only [hs, Bool.false_eq_true, if_false]
      obtain ⟨hf, htr⟩ := ih (addJobProcess c jobName configPath p w).2
      refine ⟨sameFrame_trans hframe hf, ?_⟩
      intro hnone
      have hp : (addJobProcess c jobName configPath p w).1 = none := by
        simpa using hs
      rw [htr hnone, hall hp, hframe.2.1, hframe.2.2.1, hframe.2.2.2]
      simp

/-! ## A file system without faults -/

theorem nextFault_sound (fs : FileSystem) (src : String) (h : fs.sound src) :
    fs.nextFault.1 = none ∧ fs.nextFault.2.files = fs.files ∧ fs.nextFault.2.sound src := by
  obtain ⟨hfaults, hsrc⟩ := h
  unfold FileSystem.nextFault
  cases hf : fs.faults with
  | nil => exact ⟨rfl, rfl, ⟨by rw [hf]; simp, hsrc⟩⟩
  | cons f rest =>
    have hnone : f = none := hfaults f (by rw [hf]; exact List.mem_cons_self _ _)
    refine ⟨hnone, rfl, ⟨?_, hsrc⟩⟩
    intro g hg
    exact hfaults g (by rw [hf]; exact List.mem_cons_of_mem _ hg)

theorem MkdirAll_sound (fs : FileSystem) (src path : String) (perm : Nat) (h : fs.sound src) :
    (fs.MkdirAll path perm).1 = none ∧ (fs.MkdirAll path perm).2.sound src := by
  obtain ⟨h1, _, h3⟩ := nextFault_sound fs src h
  exact ⟨h1, h3⟩

theorem FileExists_write (files : List (String × String)) (faults : List (Option Error))
    (src path content : String)
    (h : FileSystem.FileExists { files := files, faults := faults } src = true) :
    FileSystem.FileExists
      { files := (path, content) :: files.filter (fun f => !(f.1 == path)), faults := faults }
      src = true := by
  simp only [FileSystem.FileExists, List.any_eq_true, beq_iff_eq] at h ⊢
  obtain ⟨f, hf, hfs⟩ := h
  by_cases hp : path = src
  · exact ⟨(path, content), List.mem_cons_self _ _, hp⟩
  · refine ⟨f, List.mem_cons_of_mem _ (List.mem_filter.mpr ⟨hf, ?_⟩), hfs⟩
    simp only [Bool.not_eq_true', beq_eq_false_iff_ne, ne_eq]
    rw [hfs]
    exact fun h => hp h.symm

theorem WriteFile_sound (fs : FileSystem) (src path content : String) (h : fs.sound src) :
    (fs.WriteFile path content).1 = none ∧ (fs.WriteFile path content).2.sound src := by
  obtain ⟨h1, _, h3⟩ := nextFault_sound fs src h
  unfold FileSystem.WriteFile
  rcases hn : fs.nextFault with ⟨_ | err, fs1⟩
  · rw [hn] at h3
    exact ⟨rfl, ⟨h3.1, FileExists_write fs1.files fs1.faults src path content h3.2⟩⟩
  · rw [hn] at h1
    simp at h1

theorem WriteFileString_sound (fs : FileSystem) (src path content : String) (h : fs.sound src) :
    (fs.WriteFileString path content).1 = none ∧
      (fs.WriteFileString path content).2.sound src :=
  WriteFile_sound fs src path content h

theorem CopyFile_sound (fs : FileSystem) (src dst : String) (h : fs.sound src) :
    (fs.CopyFile src dst).1 = none ∧ (fs.CopyFile src dst).2.sound src := by
  obtain ⟨h1, _, h3⟩ := nextFault_sound fs src h
  unfold FileSystem.CopyFile
  rcases hn : fs.nextFault with ⟨_ | err, fs1⟩
  · rw [hn] at h3
    simp only
    cases hfind : fs1.files.find? (fun f => f.1 == src) with
    | some f => exact ⟨rfl, ⟨h3.1, FileExists_write fs1.files fs1.faults src dst f.2 h3.2⟩⟩
    | none =>
      have hex := h3.2
      simp only [FileSystem.FileExists, List.any_eq_true] at hex
      obtain ⟨f, hf, hfs⟩ := hex
      rw [List.find?_eq_none] at hfind
      exact absurd hfs (hfind f hf)
  · rw [hn] at h1
    simp at h1

theorem ReadFile_sound (fs : FileSystem) (src path : String) (h : fs.sound src) :
    (fs.ReadFile path).2.sound src := by
  obtain ⟨_, _, h3⟩ := nextFault_sound fs src h
  unfold FileSystem.ReadFile
  rcases hn : fs.nextFault with ⟨_ | err, fs1⟩
  · rw [hn] at h3
    simp only
    cases fs1.files.find? (fun f => f.1 == path) <;> exact h3
  · rw [hn] at h3
    exact h3

theorem fsStep_succeeds (call : Call) (op : FileSystem → Option Error × FileSystem)
    (wrap : Error → Error) (src : String)
    (hop : ∀ fs : FileSystem, fs.sound src → (op fs).1 = none ∧ (op fs).2.sound src)
    (w : windowsJobSupervisor M) (h : w.fs.sound src) :
    (fsStep call op wrap w).1 = none ∧ (fsStep call op wrap w).2.fs.sound src := by
  obtain ⟨h1, h2⟩ := hop w.fs h
  unfold fsStep
  rcases ho : op w.fs with ⟨_ | err, fs1⟩
  · rw [ho] at h2
    exact ⟨rfl, h2⟩
  · rw [ho] at h1
    simp at h1

theorem cmdStep_succeeds (cmd : CmdOps M) (name : String) (args : List String)
    (wrap : Error → Error) (src : String) (hcmd : ∀ m, (cmd.RunCommand m name args).1 = none)
    (w : windowsJobSupervisor M) (h : w.fs.sound src) :
    (cmdStep cmd name args wrap w).1 = none ∧ (cmdStep cmd name args wrap w).2.fs.sound src := by
  have h1 := hcmd w.mgr
  unfold cmdStep
  rcases ho : cmd.RunCommand w.mgr name args with ⟨_ | err, m⟩
  · exact ⟨rfl, h⟩
  · rw [ho] at h1
    simp at h1

theorem runSteps_succeeds (steps : List (Step M)) (P : windowsJobSupervisor M → Prop)
    (h : ∀ s ∈ steps, ∀ w, P w → (s w).1 = none ∧ P (s w).2) (w : windowsJobSupervisor M)
    (hw : P w) : (runSteps steps w).1 = none ∧ P (runSteps steps w).2 := by
  induction steps generalizing w with
  | nil => exact ⟨rfl, hw⟩
  | cons s rest ih =>
    obtain ⟨h1, h2⟩ := h s (List.mem_cons_self _ _) w hw
    rw [runSteps_cons, h1]
    simp only [Option.isSome_none, Bool.false_eq_true, if_false]
    exact ih (fun t ht => h t (List.mem_cons_of_mem _ ht)) _ h2

/-- Without faults, with the service wrapper in place and an install command
that succeeds, the statements after the rendering all succeed. -/
theorem installSteps_succeed (cmd : CmdOps M) (w0 : windowsJobSupervisor M)
    (jobName configPath : String) (process : WindowsProcess) (buf : String)
    (hcmd : ∀ m, (cmd.RunCommand m (installCommand configPath process) ["install"]).1 = none)
    (w : windowsJobSupervisor M)
    (h : w.fs.sound (filepathJoin [w0.dirProvider.BoshBinDir, serviceWrapperExeFileName])) :
    (runSteps (installSteps cmd w0 jobName configPath process buf) w).1 = none ∧
      (runSteps (installSteps cmd w0 jobName configPath process buf) w).2.fs.sound
        (filepathJoin [w0.dirProvider.BoshBinDir, serviceWrapperExeFileName]) := by
  apply runSteps_succeeds _
    (fun w => w.fs.sound (filepathJoin [w0.dirProvider.BoshBinDir, serviceWrapperExeFileName]))
    _ w h
  intro s hs
  simp only [installSteps, List.mem_cons, List.mem_singleton, List.not_mem_nil, or_false] at hs
  rcases hs with rfl | rfl | rfl | rfl | rfl | rfl
  · intro w hw
    exact ⟨rfl, hw⟩
  · exact fun w hw => fsStep_succeeds _ _ _ _ (fun fs hfs => MkdirAll_sound fs _ _ _ hfs) w hw
  · exact fun w hw => fsStep_succeeds _ _ _ _ (fun fs hfs => WriteFile_sound fs _ _ _ hfs) w hw
  · exact fun w hw =>
      fsStep_succeeds _ _ _ _ (fun fs hfs => WriteFileString_sound fs _ _ _ hfs) w hw
  · exact fun w hw => fsStep_succeeds _ _ _ _ (fun fs hfs => CopyFile_sound fs _ _ hfs) w hw
  · exact fun w hw => cmdStep_succeeds _ _ _ _ _ hcmd w hw

theorem logPath_of_sameFrame {w0 w : windowsJobSupervisor M} (h : w0.sameFrame w)
    (jobName : String) (process : WindowsProcess) :
    w.logPath jobName process = w0.logPath jobName process := by
  simp [windowsJobSupervisor.logPath, h.2.1]

/-- Without faults, the loop of `AddJob` succeeds. -/
theorem addJobLoop_succeeds (c : Collaborators M) (jobName configPath : String)
    (procs : List WindowsProcess) (w0 : windowsJobSupervisor M)
    (hxml : ∀ p ∈ procs, ∃ buf, c.codecs.xmlEncode (p.ServiceWrapperConfig
      (w0.logPath jobName p) w0.jobFailuresServerPort w0.machineIP) = .ok buf)
    (hcmd : ∀ p ∈ procs, ∀ m,
      (c.cmd.RunCommand m (installCommand configPath p) ["install"]).1 = none)
    (w : windowsJobSupervisor M) (hframe : w0.sameFrame w)
    (h : w.fs.sound (filepathJoin [w0.dirProvider.BoshBinDir, serviceWrapperExeFileName])) :
    (runSteps (procs.map (addJobProcess c jobName configPath)) w).1 = none := by
  induction procs generalizing w with
  | nil => rfl
  | cons p rest ih =>
    have hbody : (addJobProcess c jobName configPath p w).1 = none ∧
        (addJobProcess c jobName configPath p w).2.fs.sound
          (filepathJoin [w0.dirProvider.BoshBinDir, serviceWrapperExeFileName]) := by
      obtain ⟨buf, hbuf⟩ := hxml p (List.mem_cons_self _ _)
      unfold addJobProcess
      obtain ⟨h1, h2⟩ := fsStep_succeeds (M := M)
        (.fsMkdirAll (w.logPath jobName p) 0o750)
        (fun fs => fs.MkdirAll (w.logPath jobName p) 0o750)
        (fun err => WrapError err ("Creating log directory for service '" ++ p.Name ++ "'"))
        _ (fun fs hfs => MkdirAll_sound fs _ _ _ hfs) w h
      rcases hs : fsStep (.fsMkdirAll (w.logPath jobName p) 0o750)
          (fun fs => fs.MkdirAll (w.logPath jobName p) 0o750)
          (fun err => WrapError err ("Creating log directory for service '" ++ p.Name ++ "'"))
          w with ⟨_ | err, w1⟩
      · rw [hs] at h2
        simp only at h2 ⊢
        rw [logPath_of_sameFrame hframe, hframe.2.2.1, hframe.2.2.2, hbuf]
        simp only
        have h3 := installSteps_succeed c.cmd w jobName configPath p buf
          (hcmd p (List.mem_cons_self _ _)) w1 (by rw [hframe.2.1]; exact h2)
        rw [hframe.2.1] at h3
        exact h3
      · rw [hs] at h1
        simp at h1
    rw [List.map_cons, runSteps_cons, hbody.1]
    simp only [Option.isSome_none, Bool.false_eq_true, if_false]
    exact ih (fun q hq => hxml q (List.mem_cons_of_mem _ hq))
      (fun q hq => hcmd q (List.mem_cons_of_mem _ hq)) _
      (sameFrame_trans hframe (addJobProcess_spec c jobName configPath p w).1) hbody.2

/-! ## `AddJob` -/

theorem length_ne_zero_of_ne_empty (text : String) (h : text ≠ "") : text.length ≠ 0 := by
  intro hlen
  apply h
  cases text with
  | mk data =>
    have hdata : data = [] := List.length_eq_zero.mp hlen
    rw [hdata]

theorem ReadFile_files (fs : FileSystem) (path : String) :
    (fs.ReadFile path).2.files = fs.files := by
  unfold FileSystem.ReadFile FileSystem.nextFault
  cases fs.faults with
  | nil => simp only; cases fs.files.find? (fun f => f.1 == path) <;> rfl
  | cons f rest =>
    cases f with
    | none => simp only; cases fs.files.find? (fun f => f.1 == path) <;> rfl
    | some err => rfl

theorem sameFrame_afterRead (w : windowsJobSupervisor M) (configPath : String) :
    w.sameFrame (w.afterRead configPath) :=
  ⟨rfl, rfl, rfl, rfl⟩

/-- `AddJob` after a successful read of the manifest. -/
theorem AddJob_of_read (c : Collaborators M) (w : windowsJobSupervisor M) (jobName : String)
    (jobIndex : Int) (configPath content : String)
    (hread : (w.fs.ReadFile configPath).1 = .ok content) :
    w.AddJob c jobName jobIndex configPath =
      if content.length = 0 then
        (none, (w.afterRead configPath).log (.loggerDebug logTag
          "Skipping job configuration for %q, empty monit config file %q"
          [jobName, configPath]))
      else
        match c.codecs.unmarshalConfig content with
        | .error err => (some err, w.afterRead configPath)
        | .ok processConfig =>
          runSteps (processConfig.Processes.map (addJobProcess c jobName configPath))
            (w.afterRead configPath) := by
  unfold windowsJobSupervisor.AddJob windowsJobSupervisor.afterRead
  rcases h : w.fs.ReadFile configPath with ⟨r, fs⟩
  rw [h] at hread
  simp only at hread
  subst hread
  rfl

theorem AddJob_read_error (c : Collaborators M) (w : windowsJobSupervisor M) (jobName : String)
    (jobIndex : Int) (configPath : String) (err : Error)
    (hread : (w.fs.ReadFile configPath).1 = .error err) :
    w.AddJob c jobName jobIndex configPath = (some err, w.afterRead configPath) := by
  unfold windowsJobSupervisor.AddJob windowsJobSupervisor.afterRead
  rcases h : w.fs.ReadFile configPath with ⟨r, fs⟩
  rw [h] at hread
  simp only at hread
  subst hread
  rfl

theorem filter_isCommand_processCalls (codecs : Codecs) (dp : Provider) (port : Int)
    (machineIP jobName configPath : String) (procs : List WindowsProcess) :
    (procs.flatMap (processCalls codecs dp port machineIP jobName configPath)).filter
        Call.isCommand =
      procs.map (fun p => Call.cmdRunCommand (installCommand configPath p) ["install"]) := by
  induction procs with
  | nil => rfl
  | cons p rest ih =>
    rw [List.flatMap_cons, List.filter_append, ih]
    simp [processCalls, Call.isCommand]

theorem filter_isEffect_processCalls (codecs : Codecs) (dp : Provider) (port : Int)
    (machineIP jobName configPath : String) (procs : List WindowsProcess) :
    (procs.flatMap (processCalls codecs dp port machineIP jobName configPath)).filter
        Call.isEffect =
      procs.flatMap (processEffects codecs dp port machineIP jobName configPath) := by
  induction procs with
  | nil => rfl
  | cons p rest ih =>
    rw [List.flatMap_cons, List.flatMap_cons, List.filter_append, ih]
    simp [processCalls, processEffects, Call.isEffect]

theorem filter_isCommand_take (codecs : Codecs) (dp : Provider) (port : Int)
    (machineIP jobName configPath : String) (p : WindowsProcess) (k : Nat) :
    ((processCalls codecs dp port machineIP jobName configPath p).take k).filter
        Call.isCommand = [] ∨
      ((processCalls codecs dp port machineIP jobName configPath p).take k).filter
        Call.isCommand = [Call.cmdRunCommand (installCommand configPath p) ["install"]] := by
  rcases k with _ | _ | _ | _ | _ | _ | _ | k <;>
    simp [processCalls, Call.isCommand]

theorem isRemoval_processCalls (codecs : Codecs) (dp : Provider) (port : Int)
    (machineIP jobName configPath : String) (p : WindowsProcess) :
    ∀ call ∈ processCalls codecs dp port machineIP jobName configPath p,
      call.isRemoval = false := by
  intro call hcall
  simp only [processCalls, List.mem_cons, List.mem_singleton, List.not_mem_nil, or_false]
    at hcall
  rcases hcall with rfl | rfl | rfl | rfl | rfl | rfl | rfl <;> rfl

/-- C17: when the file at the config path is readable and empty, `AddJob`
returns no error and installs nothing: it only reads the file and logs a
debug line, so it creates no directory, writes no file, copies no file and
runs no command, and the files and the services are as before. -/
theorem C17_empty_manifest (c : Collaborators M) (w : windowsJobSupervisor M)
    (jobName : String) (jobIndex : Int) (configPath : String)
    (hread : (w.fs.ReadFile configPath).1 = .ok "") :
    (w.AddJob c jobName jobIndex configPath).1 = none ∧
      (w.AddJob c jobName jobIndex configPath).2.trace =
        w.trace ++ [Call.fsReadFile configPath,
          Call.loggerDebug logTag
            "Skipping job configuration for %q, empty monit config file %q"
            [jobName, configPath]] ∧
      (∀ call ∈ (w.AddJob c jobName jobIndex configPath).2.trace.drop w.trace.length,
        call.isEffect = false) ∧
      (w.AddJob c jobName jobIndex configPath).2.fs.files = w.fs.files ∧
      (w.AddJob c jobName jobIndex configPath).2.mgr = w.mgr := by
  rw [AddJob_of_read c w jobName jobIndex configPath "" hread]
  have hlen : ("" : String).length = 0 := rfl
  simp only [hlen, if_true]
  refine ⟨trivial, ?_, ?_, ?_, rfl⟩
  · simp [windowsJobSupervisor.log, windowsJobSupervisor.afterRead]
  · simp [windowsJobSupervisor.log, windowsJobSupervisor.afterRead, Call.isEffect]
  · exact ReadFile_files w.fs configPath

/-- C17 at a machine whose manifest file is empty. -/
theorem C17_empty_manifest_witness :
    ((testSupervisor (jobFiles "") []).AddJob (testCollaborators none) "say-hello" 0
        "C:\\jobs\\say-hello\\monit").1 = none ∧
      ((testSupervisor (jobFiles "") []).AddJob (testCollaborators none) "say-hello" 0
        "C:\\jobs\\say-hello\\monit").2.mgr = [] :=
  have h := C17_empty_manifest (testCollaborators none) (testSupervisor (jobFiles "") [])
    "say-hello" 0 "C:\\jobs\\say-hello\\monit" (by decide)
  ⟨h.1, h.2.2.2.2⟩

/-- C18: when the content of the manifest is not empty and fails to parse,
`AddJob` returns the error of the parser and has made no call but the read
of the file: no directory is created, no file is written or copied and no
command is run, and the files and the services are as before. -/
theorem C18_malformed_manifest (c : Collaborators M) (w : windowsJobSupervisor M)
    (jobName : String) (jobIndex : Int) (configPath content : String) (err : Error)
    (hread : (w.fs.ReadFile configPath).1 = .ok content) (hne : content ≠ "")
    (hparse : c.codecs.unmarshalConfig content = .error err) :
    (w.AddJob c jobName jobIndex configPath).1 = some err ∧
      (w.AddJob c jobName jobIndex configPath).2.trace =
        w.trace ++ [Call.fsReadFile configPath] ∧
      (∀ call ∈ (w.AddJob c jobName jobIndex configPath).2.trace.drop w.trace.length,
        call.isEffect = false) ∧
      (w.AddJob c jobName jobIndex configPath).2.fs.files = w.fs.files ∧
      (w.AddJob c jobName jobIndex configPath).2.mgr = w.mgr := by
  rw [AddJob_of_read c w jobName jobIndex configPath content hread]
  simp only [length_ne_zero_of_ne_empty content hne, if_false, hparse]
  refine ⟨trivial, ?_, ?_, ?_, rfl⟩
  · simp [windowsJobSupervisor.log, windowsJobSupervisor.afterRead]
  · simp [windowsJobSupervisor.log, windowsJobSupervisor.afterRead, Call.isEffect]
  · exact ReadFile_files w.fs configPath

/-- C18 at a machine whose manifest file holds `some bad manifest`. -/
theorem C18_malformed_manifest_witness :
    ((testSupervisor (jobFiles "some bad manifest") []).AddJob (testCollaborators none)
        "say-hello" 0 "C:\\jobs\\say-hello\\monit").1 =
        some "invalid character in JSON text" ∧
      ((testSupervisor (jobFiles "some bad manifest") []).AddJob (testCollaborators none)
        "say-hello" 0 "C:\\jobs\\say-hello\\monit").2.trace =
        [Call.fsReadFile "C:\\jobs\\say-hello\\monit"] :=
  have h := C18_malformed_manifest (testCollaborators none)
    (testSupervisor (jobFiles "some bad manifest") []) "say-hello" 0
    "C:\\jobs\\say-hello\\monit" "some bad manifest" "invalid character in JSON text"
    (by decide) (by decide) (by decide)
  ⟨h.1, h.2.1⟩

/-- C19: when the manifest holds the processes `pre ++ pk :: post`, the loop
of `AddJob` has handled `pre` without error and a step fails while it
handles `pk`, then `AddJob` returns the error of that step (the error of the
collaborator, wrapped with the description of the step) and stops in the
state of the failure.  The calls it has made are the read of the manifest,
a complete pass for each process of `pre` in order, and a prefix of the pass
for `pk`: none for `post`.  Nothing is undone: no call removes a file or a
service, and the commands run are the install commands of `pre`, one per
process in order, followed at most by the install command of `pk`. -/
theorem C19_first_failure_aborts (c : Collaborators M) (w : windowsJobSupervisor M)
    (jobName : String) (jobIndex : Int) (configPath content : String)
    (pre post : List WindowsProcess) (pk : WindowsProcess) (wk wf : windowsJobSupervisor M)
    (err : Error)
    (hread : (w.fs.ReadFile configPath).1 = .ok content) (hne : content ≠ "")
    (hparse : c.codecs.unmarshalConfig content = .ok { Processes := pre ++ pk :: post })
    (hpre : runSteps (pre.map (addJobProcess c jobName configPath)) (w.afterRead configPath) =
      (none, wk))
    (hfail : addJobProcess c jobName configPath pk wk = (some err, wf)) :
    w.AddJob c jobName jobIndex configPath = (some err, wf) ∧
      (∃ e d, d ∈ stepDescriptions configPath pk ∧ err = WrapError e d) ∧
      (∃ k, wf.trace = w.trace ++ Call.fsReadFile configPath ::
        (pre.flatMap (processCalls c.codecs w.dirProvider w.jobFailuresServerPort w.machineIP
            jobName configPath) ++
          (processCalls c.codecs w.dirProvider w.jobFailuresServerPort w.machineIP
            jobName configPath pk).take k)) ∧
      (∀ call ∈ wf.trace.drop w.trace.length, call.isRemoval = false) ∧
      (∃ last, (last = [] ∨
          last = [Call.cmdRunCommand (installCommand configPath pk) ["install"]]) ∧
        (wf.trace.drop w.trace.length).filter Call.isCommand =
          pre.map (fun p => Call.cmdRunCommand (installCommand configPath p) ["install"]) ++
            last) := by
  have hframe0 := sameFrame_afterRead w configPath
  obtain ⟨hframe1, htrace1⟩ := addJobLoop_spec c jobName configPath pre (w.afterRead configPath)
  rw [hpre] at hframe1 htrace1
  simp only [true_implies] at htrace1
  have hframek := sameFrame_trans hframe0 hframe1
  obtain ⟨_, ⟨k, hk⟩, _, hwrap⟩ := addJobProcess_spec c jobName configPath pk wk
  rw [hfail] at hk hwrap
  simp only at hk hwrap
  have htrace : wf.trace = w.trace ++ Call.fsReadFile configPath ::
      (pre.flatMap (processCalls c.codecs w.dirProvider w.jobFailuresServerPort w.machineIP
          jobName configPath) ++
        (processCalls c.codecs w.dirProvider w.jobFailuresServerPort w.machineIP
          jobName configPath pk).take k) := by
    rw [hk, htrace1, hframek.2.1, hframek.2.2.1, hframek.2.2.2, hframe0.2.1, hframe0.2.2.1,
      hframe0.2.2.2]
    simp [windowsJobSupervisor.afterRead, windowsJobSupervisor.log]
  have hdrop : wf.trace.drop w.trace.length = Call.fsReadFile configPath ::
      (pre.flatMap (processCalls c.codecs w.dirProvider w.jobFailuresServerPort w.machineIP
          jobName configPath) ++
        (processCalls c.codecs w.dirProvider w.jobFailuresServerPort w.machineIP
          jobName configPath pk).take k) := by
    rw [htrace, List.drop_left]
  refine ⟨?_, hwrap err rfl, ⟨k, htrace⟩, ?_, ?_⟩
  · rw [AddJob_of_read c w jobName jobIndex configPath content hread]
    simp only [length_ne_zero_of_ne_empty content hne, if_false, hparse]
    rw [List.map_append, runSteps_append, hpre]
    simp only [Option.isSome_none, Bool.false_eq_true, if_false]
    rw [List.map_cons, runSteps_cons, hfail]
    simp
  · intro call hcall
    rw [hdrop] at hcall
    simp only [List.mem_cons, List.mem_append, List.mem_flatMap] at hcall
    rcases hcall with rfl | ⟨p, _, hp⟩ | hp
    · rfl
    · exact isRemoval_processCalls _ _ _ _ _ _ p call hp
    · exact isRemoval_processCalls _ _ _ _ _ _ pk call (List.mem_of_mem_take hp)
  · refine ⟨_, filter_isCommand_take c.codecs w.dirProvider w.jobFailuresServerPort w.machineIP
      jobName configPath pk k, ?_⟩
    rw [hdrop, List.filter_cons, List.filter_append, filter_isCommand_processCalls]
    simp [Call.isCommand]

/-- C19 at the manifest `say-hello` of two processes, when the seventh call
of the file system, the creation of the log directory of the second process,
fails: the first process has been installed and nothing is done for the
second beyond the failed call. -/
theorem C19_first_failure_aborts_witness :
    ((faultySupervisor [none, none, none, none, none, none, some "disk full"]).AddJob
        (testCollaborators none) "say-hello" 0 "C:\\jobs\\say-hello\\monit").1 =
        some "Creating log directory for service 'say-hello-2': disk full" ∧
      ((faultySupervisor [none, none, none, none, none, none, some "disk full"]).AddJob
        (testCollaborators none) "say-hello" 0 "C:\\jobs\\say-hello\\monit").2.mgr =
        [{ Name := "C:\\jobs\\say-hello\\say-hello-1\\job-service-wrapper.exe",
           State := svc.Stopped }] :=
  have h := C19_first_failure_aborts (testCollaborators none)
    (faultySupervisor [none, none, none, none, none, none, some "disk full"])
    "say-hello" 0 "C:\\jobs\\say-hello\\monit" "say-hello" [sayHello1] [] sayHello2
    (runSteps ([sayHello1].map
      (addJobProcess (testCollaborators none) "say-hello" "C:\\jobs\\say-hello\\monit"))
      ((faultySupervisor [none, none, none, none, none, none, some "disk full"]).afterRead
        "C:\\jobs\\say-hello\\monit")).2
    (addJobProcess (testCollaborators none) "say-hello" "C:\\jobs\\say-hello\\monit" sayHello2
      (runSteps ([sayHello1].map
        (addJobProcess (testCollaborators none) "say-hello" "C:\\jobs\\say-hello\\monit"))
        ((faultySupervisor [none, none, none, none, none, none, some "disk full"]).afterRead
          "C:\\jobs\\say-hello\\monit")).2).2
    "Creating log directory for service 'say-hello-2': disk full"
    (by decide) (by decide) (by decide) (by decide) (by decide)
  ⟨congrArg Prod.fst h.1, congrArg (fun r => r.2.mgr) h.1⟩

theorem MkdirAll_files (fs : FileSystem) (src path : String) (perm : Nat) (h : fs.sound src) :
    (fs.MkdirAll path perm).2.files = fs.files :=
  (nextFault_sound fs src h).2.1

theorem WriteFile_files (fs : FileSystem) (src path content : String) (h : fs.sound src) :
    (fs.WriteFile path content).2.files = writtenFiles fs.files path content := by
  obtain ⟨h1, h2, _⟩ := nextFault_sound fs src h
  unfold FileSystem.WriteFile
  rcases hn : fs.nextFault with ⟨_ | err, fs1⟩
  · rw [hn] at h2
    simp only at h2 ⊢
    rw [h2]
    rfl
  · rw [hn] at h1
    simp at h1

theorem WriteFileString_files (fs : FileSystem) (src path content : String) (h : fs.sound src) :
    (fs.WriteFileString path content).2.files = writtenFiles fs.files path content :=
  WriteFile_files fs src path content h

theorem CopyFile_files (fs : FileSystem) (src0 src dst : String) (h : fs.sound src0) :
    (fs.CopyFile src dst).2.files = copiedFiles fs.files src dst := by
  obtain ⟨h1, h2, _⟩ := nextFault_sound fs src0 h
  unfold FileSystem.CopyFile
  rcases hn : fs.nextFault with ⟨_ | err, fs1⟩
  · rw [hn] at h2
    simp only at h2 ⊢
    rw [h2]
    unfold copiedFiles
    rcases hf : fs.files.find? (fun f => f.1 == src) with _ | f
    · simp only [hf]
      exact h2
    · simp only [hf]
      rfl
  · rw [hn] at h1
    simp at h1

theorem fsStep_of_ok (call : Call) (op : FileSystem → Option Error × FileSystem)
    (wrap : Error → Error) (w : windowsJobSupervisor M) (h : (op w.fs).1 = none) :
    fsStep call op wrap w = (none, { w.log call with fs := (op w.fs).2 }) := by
  unfold fsStep
  rcases ho : op w.fs with ⟨_ | err, fs1⟩
  · rfl
  · rw [ho] at h
    simp at h

theorem cmdStep_of_ok (cmd : CmdOps M) (name : String) (args : List String)
    (wrap : Error → Error) (w : windowsJobSupervisor M)
    (h : (cmd.RunCommand w.mgr name args).1 = none) :
    cmdStep cmd name args wrap w =
      (none, { w.log (.cmdRunCommand name args) with
        mgr := (cmd.RunCommand w.mgr name args).2 }) := by
  unfold cmdStep
  rcases ho : cmd.RunCommand w.mgr name args with ⟨_ | err, m⟩
  · rfl
  · rw [ho] at h
    simp at h


/-- Without faults, with the service wrapper in place and an install command
that succeeds in the state of the services reached, one pass through the
loop body succeeds: the services are those after the install command and
the files those after the three writes. -/
theorem addJobProcess_effects (c : Collaborators M) (jobName configPath : String)
    (p : WindowsProcess) (w0 w : windowsJobSupervisor M) (buf : String)
    (hframe : w0.sameFrame w)
    (hsound : w.fs.sound (filepathJoin [w0.dirProvider.BoshBinDir, serviceWrapperExeFileName]))
    (hxml : c.codecs.xmlEncode (p.ServiceWrapperConfig (w0.logPath jobName p)
      w0.jobFailuresServerPort w0.machineIP) = .ok buf)
    (hcmd : (c.cmd.RunCommand w.mgr (installCommand configPath p) ["install"]).1 = none) :
    (addJobProcess c jobName configPath p w).1 = none ∧
      (addJobProcess c jobName configPath p w).2.mgr =
        (c.cmd.RunCommand w.mgr (installCommand configPath p) ["install"]).2 ∧
      (addJobProcess c jobName configPath p w).2.fs.files =
        installedFiles w0.dirProvider configPath buf p w.fs.files ∧
      (addJobProcess c jobName configPath p w).2.fs.sound
        (filepathJoin [w0.dirProvider.BoshBinDir, serviceWrapperExeFileName]) := by
  have hdp : w.dirProvider = w0.dirProvider := hframe.2.1
  have hxml' : c.codecs.xmlEncode (p.ServiceWrapperConfig (w.logPath jobName p)
      w.jobFailuresServerPort w.machineIP) = .ok buf := by
    rw [logPath_of_sameFrame hframe, hframe.2.2.1, hframe.2.2.2]
    exact hxml
  -- the file systems along the pass
  have s1 := MkdirAll_sound w.fs _ (w.logPath jobName p) 0o750 hsound
  have f1 := MkdirAll_files w.fs _ (w.logPath jobName p) 0o750 hsound
  have s2 := MkdirAll_sound _ _ (processDir configPath p) 0o750 s1.2
  have f2 := MkdirAll_files _ _ (processDir configPath p) 0o750 s1.2
  have s3 := WriteFile_sound _ _
    (filepathJoin [processDir configPath p, serviceWrapperConfigFileName]) buf s2.2
  have f3 := WriteFile_files _ _
    (filepathJoin [processDir configPath p, serviceWrapperConfigFileName]) buf s2.2
  have s4 := WriteFileString_sound _ _
    (filepathJoin [processDir configPath p, serviceWrapperAppConfigFileName])
    serviceWrapperAppConfigBody s3.2
  have f4 := WriteFileString_files _ _
    (filepathJoin [processDir configPath p, serviceWrapperAppConfigFileName])
    serviceWrapperAppConfigBody s3.2
  have s5 := CopyFile_sound _ (filepathJoin [w0.dirProvider.BoshBinDir, serviceWrapperExeFileName])
    (filepathJoin [processDir configPath p, serviceWrapperExeFileName]) s4.2
  have f5 := CopyFile_files _ _ (filepathJoin [w0.dirProvider.BoshBinDir, serviceWrapperExeFileName])
    (filepathJoin [processDir configPath p, serviceWrapperExeFileName]) s4.2
  unfold addJobProcess
  rw [fsStep_of_ok]
  swap
  · exact s1.1
  simp only [hxml']
  unfold installSteps
  rw [runSteps_cons]
  simp only [debugStep, Option.isSome_none, Bool.false_eq_true, if_false]
  rw [runSteps_cons, fsStep_of_ok]
  swap
  · exact s2.1
  simp only [Option.isSome_none, Bool.false_eq_true, if_false]
  rw [runSteps_cons, fsStep_of_ok]
  swap
  · exact s3.1
  simp only [Option.isSome_none, Bool.false_eq_true, if_false]
  rw [runSteps_cons, fsStep_of_ok]
  swap
  · exact s4.1
  simp only [Option.isSome_none, Bool.false_eq_true, if_false]
  rw [hdp]
  rw [runSteps_cons, fsStep_of_ok]
  swap
  · exact s5.1
  simp only [Option.isSome_none, Bool.false_eq_true, if_false]
  rw [runSteps_cons, cmdStep_of_ok]
  swap
  · exact hcmd
  simp only [Option.isSome_none, Bool.false_eq_true, if_false, runSteps,
    windowsJobSupervisor.log, true_and]
  refine ⟨?_, ?_, s5.2⟩
  · unfold installCommand
    rfl
  · rw [f5, f4, f3, f2, f1]
    unfold installedFiles
    rfl


/-- Without faults, with the service wrapper in place and install commands
that succeed in the states of the services reached, the loop of `AddJob`
succeeds, the services are those after the install commands in order and the
files those after the writes of each process in order. -/
theorem addJobLoop_effects (c : Collaborators M) (jobName configPath : String)
    (procs : List WindowsProcess) (w0 w : windowsJobSupervisor M)
    (hframe : w0.sameFrame w)
    (hsound : w.fs.sound (filepathJoin [w0.dirProvider.BoshBinDir, serviceWrapperExeFileName]))
    (hxml : ∀ p ∈ procs, ∃ buf, c.codecs.xmlEncode (p.ServiceWrapperConfig
      (w0.logPath jobName p) w0.jobFailuresServerPort w0.machineIP) = .ok buf)
    (hcmd : ∀ pre p post, procs = pre ++ p :: post →
      (c.cmd.RunCommand (installedServices c.cmd configPath pre w.mgr)
        (installCommand configPath p) ["install"]).1 = none) :
    (runSteps (procs.map (addJobProcess c jobName configPath)) w).1 = none ∧
      (runSteps (procs.map (addJobProcess c jobName configPath)) w).2.mgr =
        installedServices c.cmd configPath procs w.mgr ∧
      (runSteps (procs.map (addJobProcess c jobName configPath)) w).2.fs.files =
        procs.foldl (fun files p => installedFiles w0.dirProvider configPath
          (renderedConfig c.codecs w0.dirProvider w0.jobFailuresServerPort w0.machineIP jobName
            p) p files) w.fs.files ∧
      (runSteps (procs.map (addJobProcess c jobName configPath)) w).2.fs.sound
        (filepathJoin [w0.dirProvider.BoshBinDir, serviceWrapperExeFileName]) := by
  induction procs generalizing w with
  | nil => exact ⟨rfl, rfl, rfl, hsound⟩
  | cons p rest ih =>
    obtain ⟨buf, hbuf⟩ := hxml p (List.mem_cons_self _ _)
    have hbuf' := renderedConfig_of_ok c.codecs w0 jobName p buf hbuf
    obtain ⟨h1, h2, h3, h4⟩ := addJobProcess_effects c jobName configPath p w0 w buf hframe
      hsound hbuf (hcmd [] p rest rfl)
    have hframe' := sameFrame_trans hframe (addJobProcess_spec c jobName configPath p w).1
    obtain ⟨i1, i2, i3, i4⟩ := ih (addJobProcess c jobName configPath p w).2 hframe' h4
      (fun q hq => hxml q (List.mem_cons_of_mem _ hq))
      (fun pre q post hrest => by
        rw [h2]
        exact hcmd (p :: pre) q post (by rw [hrest]; rfl))
    rw [List.map_cons, runSteps_cons, h1]
    simp only [Option.isSome_none, Bool.false_eq_true, if_false]
    refine ⟨i1, ?_, ?_, i4⟩
    · rw [i2, h2]
      rfl
    · rw [i3, h3, List.foldl_cons, hbuf']

theorem FileExists_iff_mem (fs : FileSystem) (path : String) :
    fs.FileExists path = true ↔ path ∈ fs.files.map Prod.fst := by
  simp only [FileSystem.FileExists, List.any_eq_true, beq_iff_eq, List.mem_map]

theorem mem_writtenFiles (files : List (String × String)) (path content q : String) :
    q ∈ (writtenFiles files path content).map Prod.fst ↔ q = path ∨ q ∈ files.map Prod.fst := by
  unfold writtenFiles
  simp only [List.map_cons, List.mem_cons, List.mem_map, List.mem_filter, Bool.not_eq_true',
    beq_eq_false_iff_ne, ne_eq]
  constructor
  · rintro (h | ⟨f, ⟨hf, _⟩, rfl⟩)
    · exact Or.inl h
    · exact Or.inr ⟨f, hf, rfl⟩
  · rintro (h | ⟨f, hf, rfl⟩)
    · exact Or.inl h
    · by_cases hp : f.1 = path
      · exact Or.inl hp
      · exact Or.inr ⟨f, ⟨hf, hp⟩, rfl⟩

theorem mem_copiedFiles (files : List (String × String)) (src dst q : String)
    (hsrc : src ∈ files.map Prod.fst) :
    q ∈ (copiedFiles files src dst).map Prod.fst ↔ q = dst ∨ q ∈ files.map Prod.fst := by
  unfold copiedFiles
  rcases hf : files.find? (fun f => f.1 == src) with _ | f
  · exfalso
    rw [List.find?_eq_none] at hf
    obtain ⟨g, hg, hgs⟩ := List.mem_map.mp hsrc
    exact hf g hg (by simp [hgs])
  · simp only [hf]
    exact mem_writtenFiles files dst f.2 q

/-- The files of a process are present after its pass, and so are the files
of before. -/
theorem mem_installedFiles (dp : Provider) (configPath rendered : String) (p : WindowsProcess)
    (files : List (String × String)) (q : String)
    (hsrc : filepathJoin [dp.BoshBinDir, serviceWrapperExeFileName] ∈ files.map Prod.fst) :
    q ∈ (installedFiles dp configPath rendered p files).map Prod.fst ↔
      q = filepathJoin [processDir configPath p, serviceWrapperExeFileName] ∨
      q = filepathJoin [processDir configPath p, serviceWrapperAppConfigFileName] ∨
      q = filepathJoin [processDir configPath p, serviceWrapperConfigFileName] ∨
      q ∈ files.map Prod.fst := by
  unfold installedFiles
  rw [mem_copiedFiles _ _ _ _ (by
    rw [mem_writtenFiles, mem_writtenFiles]
    exact Or.inr (Or.inr hsrc)), mem_writtenFiles, mem_writtenFiles]

theorem mem_foldl_installedFiles (dp : Provider) (configPath : String)
    (rendered : WindowsProcess → String) (procs : List WindowsProcess)
    (files : List (String × String))
    (hsrc : filepathJoin [dp.BoshBinDir, serviceWrapperExeFileName] ∈ files.map Prod.fst) :
    (∀ q ∈ files.map Prod.fst,
      q ∈ (procs.foldl (fun files p => installedFiles dp configPath (rendered p) p files)
        files).map Prod.fst) ∧
    ∀ p ∈ procs, ∀ name ∈ [serviceWrapperConfigFileName, serviceWrapperAppConfigFileName,
        serviceWrapperExeFileName],
      filepathJoin [processDir configPath p, name] ∈
        (procs.foldl (fun files p => installedFiles dp configPath (rendered p) p files)
          files).map Prod.fst := by
  induction procs generalizing files with
  | nil => exact ⟨fun q hq => hq, fun p hp => by simp at hp⟩
  | cons p rest ih =>
    have hsrc' : filepathJoin [dp.BoshBinDir, serviceWrapperExeFileName] ∈
        (installedFiles dp configPath (rendered p) p files).map Prod.fst :=
      (mem_installedFiles dp configPath (rendered p) p files _ hsrc).mpr
        (Or.inr (Or.inr (Or.inr hsrc)))
    obtain ⟨ih1, ih2⟩ := ih (installedFiles dp configPath (rendered p) p files) hsrc'
    rw [List.foldl_cons]
    refine ⟨fun q hq => ih1 q ((mem_installedFiles dp configPath (rendered p) p files q hsrc).mpr
      (Or.inr (Or.inr (Or.inr hq)))), ?_⟩
    intro p1 hp1 name hname
    rcases List.mem_cons.mp hp1 with rfl | hrest
    · apply ih1
      rw [mem_installedFiles dp configPath (rendered p1) p1 files _ hsrc]
      simp only [List.mem_cons, List.mem_singleton, List.not_mem_nil, or_false] at hname
      rcases hname with rfl | rfl | rfl
      · exact Or.inr (Or.inr (Or.inl rfl))
      · exact Or.inr (Or.inl rfl)
      · exact Or.inl rfl
    · exact ih2 p1 hrest name hname


/-- C20: when no collaborator call fails (no fault is scheduled in the file
system, the service wrapper is present in the bin directory, the manifest is
read and parsed into the processes `procs`, the rendering of each process
succeeds and each install command succeeds in the state of the services in
which it runs), `AddJob` returns no error and, after the read of the
manifest, performs for each process in manifest order exactly this sequence:
create the log directory `path.Join(LogsDir, jobName, name)`; log a debug
line; create the process directory `filepath.Join(filepath.Dir(configPath),
name)`; write the rendered service configuration to `job-service-wrapper.xml`
there; write the application configuration to
`job-service-wrapper.exe.config` there; copy
`filepath.Join(BoshBinDir, "job-service-wrapper.exe")` there; run the copy
with the single argument `install`.  So exactly as many install commands run
as there are processes, one per process.  The calls take effect: the
services afterwards are those that the install commands leave, run in
manifest order from the services of before, the files afterwards are those
of before with the three files of each process written in manifest order,
and the three files of every process exist. -/
theorem C20_installs_in_manifest_order (c : Collaborators M) (w : windowsJobSupervisor M)
    (jobName : String) (jobIndex : Int) (configPath content : String)
    (procs : List WindowsProcess)
    (hfs : w.fs.sound (filepathJoin [w.dirProvider.BoshBinDir, serviceWrapperExeFileName]))
    (hread : (w.fs.ReadFile configPath).1 = .ok content) (hne : content ≠ "")
    (hparse : c.codecs.unmarshalConfig content = .ok { Processes := procs })
    (hxml : ∀ p ∈ procs, ∃ buf, c.codecs.xmlEncode (p.ServiceWrapperConfig
      (w.logPath jobName p) w.jobFailuresServerPort w.machineIP) = .ok buf)
    (hcmd : ∀ pre p post, procs = pre ++ p :: post →
      (c.cmd.RunCommand (installedServices c.cmd configPath pre w.mgr)
        (installCommand configPath p) ["install"]).1 = none) :
    (w.AddJob c jobName jobIndex configPath).1 = none ∧
      (w.AddJob c jobName jobIndex configPath).2.trace =
        w.trace ++ Call.fsReadFile configPath ::
          procs.flatMap (processCalls c.codecs w.dirProvider w.jobFailuresServerPort
            w.machineIP jobName configPath) ∧
      ((w.AddJob c jobName jobIndex configPath).2.trace.drop w.trace.length).filter
          Call.isEffect =
        procs.flatMap (processEffects c.codecs w.dirProvider w.jobFailuresServerPort
          w.machineIP jobName configPath) ∧
      ((w.AddJob c jobName jobIndex configPath).2.trace.drop w.trace.length).filter
          Call.isCommand =
        procs.map (fun p => Call.cmdRunCommand (installCommand configPath p) ["install"]) ∧
      (((w.AddJob c jobName jobIndex configPath).2.trace.drop w.trace.length).filter
          Call.isCommand).length = procs.length ∧
      (∀ p ∈ procs, c.codecs.xmlEncode (p.ServiceWrapperConfig (w.logPath jobName p)
          w.jobFailuresServerPort w.machineIP) =
        .ok (renderedConfig c.codecs w.dirProvider w.jobFailuresServerPort w.machineIP jobName
          p)) ∧
      (∀ p : WindowsProcess,
        processCalls c.codecs w.dirProvider w.jobFailuresServerPort w.machineIP jobName
            configPath p =
          [ .fsMkdirAll (pathJoin [w.dirProvider.LogsDir, jobName, p.Name]) 0o750,
            .loggerDebug logTag "Configuring service wrapper for job %q with configPath %q"
              [jobName, configPath],
            .fsMkdirAll (filepathJoin [filepathDir configPath, p.Name]) 0o750,
            .fsWriteFile
              (filepathJoin [filepathJoin [filepathDir configPath, p.Name],
                "job-service-wrapper.xml"])
              (renderedConfig c.codecs w.dirProvider w.jobFailuresServerPort w.machineIP jobName
                p),
            .fsWriteFileString
              (filepathJoin [filepathJoin [filepathDir configPath, p.Name],
                "job-service-wrapper.exe.config"])
              serviceWrapperAppConfigBody,
            .fsCopyFile (filepathJoin [w.dirProvider.BoshBinDir, "job-service-wrapper.exe"])
              (filepathJoin [filepathJoin [filepathDir configPath, p.Name],
                "job-service-wrapper.exe"]),
            .cmdRunCommand
              (filepathJoin [filepathJoin [filepathDir configPath, p.Name],
                "job-service-wrapper.exe"]) ["install"] ]) ∧
      (w.AddJob c jobName jobIndex configPath).2.mgr =
        installedServices c.cmd configPath procs w.mgr ∧
      (w.AddJob c jobName jobIndex configPath).2.fs.files =
        procs.foldl (fun files p => installedFiles w.dirProvider configPath
          (renderedConfig c.codecs w.dirProvider w.jobFailuresServerPort w.machineIP jobName p)
          p files) w.fs.files ∧
      (∀ p ∈ procs, ∀ name ∈ [serviceWrapperConfigFileName, serviceWrapperAppConfigFileName,
          serviceWrapperExeFileName],
        (w.AddJob c jobName jobIndex configPath).2.fs.FileExists
          (filepathJoin [processDir configPath p, name]) = true) := by
  have hframe0 := sameFrame_afterRead w configPath
  have hsound : (w.afterRead configPath).fs.sound
      (filepathJoin [w.dirProvider.BoshBinDir, serviceWrapperExeFileName]) :=
    ReadFile_sound w.fs _ configPath hfs
  have hfiles0 : (w.afterRead configPath).fs.files = w.fs.files := ReadFile_files w.fs configPath
  obtain ⟨hnone, hmgr, hfiles, _⟩ := addJobLoop_effects c jobName configPath procs w
    (w.afterRead configPath) hframe0 hsound hxml hcmd
  rw [hfiles0] at hfiles
  obtain ⟨_, htrace⟩ := addJobLoop_spec c jobName configPath procs (w.afterRead configPath)
  have hrun : w.AddJob c jobName jobIndex configPath =
      runSteps (procs.map (addJobProcess c jobName configPath)) (w.afterRead configPath) := by
    rw [AddJob_of_read c w jobName jobIndex configPath content hread]
    simp only [length_ne_zero_of_ne_empty content hne, if_false, hparse]
  have htr : (w.AddJob c jobName jobIndex configPath).2.trace =
      w.trace ++ Call.fsReadFile configPath ::
        procs.flatMap (processCalls c.codecs w.dirProvider w.jobFailuresServerPort
          w.machineIP jobName configPath) := by
    rw [hrun, htrace hnone, hframe0.2.1, hframe0.2.2.1, hframe0.2.2.2]
    simp [windowsJobSupervisor.afterRead, windowsJobSupervisor.log]
  have hdrop : (w.AddJob c jobName jobIndex configPath).2.trace.drop w.trace.length =
      Call.fsReadFile configPath ::
        procs.flatMap (processCalls c.codecs w.dirProvider w.jobFailuresServerPort
          w.machineIP jobName configPath) := by
    rw [htr, List.drop_left]
  have hcmds : ((w.AddJob c jobName jobIndex configPath).2.trace.drop w.trace.length).filter
      Call.isCommand =
      procs.map (fun p => Call.cmdRunCommand (installCommand configPath p) ["install"]) := by
    rw [hdrop, List.filter_cons, filter_isCommand_processCalls]
    simp [Call.isCommand]
  have hsrc : filepathJoin [w.dirProvider.BoshBinDir, serviceWrapperExeFileName] ∈
      w.fs.files.map Prod.fst := (FileExists_iff_mem w.fs _).mp hfs.2
  refine ⟨by rw [hrun]; exact hnone, htr, ?_, hcmds, ?_, ?_, fun p => rfl, ?_, ?_, ?_⟩
  · rw [hdrop, List.filter_cons, filter_isEffect_processCalls]
    simp [Call.isEffect]
  · rw [hcmds, List.length_map]
  · intro p hp
    obtain ⟨buf, hbuf⟩ := hxml p hp
    rw [hbuf, renderedConfig_of_ok c.codecs w jobName p buf hbuf]
  · rw [hrun, hmgr]
    rfl
  · rw [hrun, hfiles]
  · intro p hp name hname
    rw [FileExists_iff_mem, hrun, hfiles]
    exact (mem_foldl_installedFiles w.dirProvider configPath _ procs w.fs.files hsrc).2 p hp
      name hname


/-- C20 at the manifest `say-hello` of two processes on a machine without
faults: `AddJob` returns no error, runs the two install commands in manifest
order, registers the two services and leaves the three files of each process
in its directory; the directory of a process is cleaned as `filepath.Join`
and `filepath.Dir` do. -/
theorem C20_installs_in_manifest_order_witness :
    ((testSupervisor (jobFiles "say-hello") []).AddJob (testCollaborators none) "say-hello" 0
        "C:\\jobs\\say-hello\\monit").1 = none ∧
      (((testSupervisor (jobFiles "say-hello") []).AddJob (testCollaborators none) "say-hello" 0
        "C:\\jobs\\say-hello\\monit").2.trace.drop
          (testSupervisor (jobFiles "say-hello") []).trace.length).filter Call.isCommand =
        [Call.cmdRunCommand "C:\\jobs\\say-hello\\say-hello-1\\job-service-wrapper.exe"
            ["install"],
          Call.cmdRunCommand "C:\\jobs\\say-hello\\say-hello-2\\job-service-wrapper.exe"
            ["install"]] ∧
      ((testSupervisor (jobFiles "say-hello") []).AddJob (testCollaborators none) "say-hello" 0
        "C:\\jobs\\say-hello\\monit").2.mgr =
        [{ Name := "C:\\jobs\\say-hello\\say-hello-1\\job-service-wrapper.exe",
           State := svc.Stopped },
         { Name := "C:\\jobs\\say-hello\\say-hello-2\\job-service-wrapper.exe",
           State := svc.Stopped }] ∧
      ((testSupervisor (jobFiles "say-hello") []).AddJob (testCollaborators none) "say-hello" 0
        "C:\\jobs\\say-hello\\monit").2.fs.files =
        [ ("C:\\jobs\\say-hello\\say-hello-2\\job-service-wrapper.exe", "MZ"),
          ("C:\\jobs\\say-hello\\say-hello-2\\job-service-wrapper.exe.config",
            serviceWrapperAppConfigBody),
          ("C:\\jobs\\say-hello\\say-hello-2\\job-service-wrapper.xml",
            "<service><id>say-hello-2</id></service>"),
          ("C:\\jobs\\say-hello\\say-hello-1\\job-service-wrapper.exe", "MZ"),
          ("C:\\jobs\\say-hello\\say-hello-1\\job-service-wrapper.exe.config",
            serviceWrapperAppConfigBody),
          ("C:\\jobs\\say-hello\\say-hello-1\\job-service-wrapper.xml",
            "<service><id>say-hello-1</id></service>"),
          ("C:\\var\\vcap\\bosh\\bin\\job-service-wrapper.exe", "MZ"),
          ("C:\\jobs\\say-hello\\monit", "say-hello") ] ∧
      processDir "C:/jobs/say-hello/monit" sayHello1 = "C:\\jobs\\say-hello\\say-hello-1" ∧
      processDir "\\monit" sayHello1 = "\\say-hello-1" :=
  have h := C20_installs_in_manifest_order (testCollaborators none)
    (testSupervisor (jobFiles "say-hello") []) "say-hello" 0 "C:\\jobs\\say-hello\\monit"
    "say-hello" [sayHello1, sayHello2]
    ⟨by decide, by decide⟩ (by decide) (by decide) (by decide)
    (fun p _ => ⟨_, rfl⟩) (fun _ _ _ _ => rfl)
  ⟨h.1, h.2.2.2.1, h.2.2.2.2.2.2.2.1.trans (by decide),
    h.2.2.2.2.2.2.2.2.1.trans (by decide), by decide, by decide⟩

/-! ## The failure event listener -/

theorem handleRequest_disabled (codecs : Codecs) (w : windowsJobSupervisor M) (body now : String)
    (h : w.state = .stateDisabled) : w.handleRequest codecs body now = w := by
  simp [windowsJobSupervisor.handleRequest, windowsJobSupervisor.stateIs, h]

theorem handleRequest_ok (codecs : Codecs) (w : windowsJobSupervisor M) (body now : String)
    (event : windowsServiceEvent) (h : w.state = .stateEnabled)
    (hdec : codecs.decodeEvent body = .ok event) :
    w.handleRequest codecs body now = w.log (.handler (failureAlert event now)) := by
  simp [windowsJobSupervisor.handleRequest, windowsJobSupervisor.stateIs, h, hdec]

theorem handleRequest_error (codecs : Codecs) (w : windowsJobSupervisor M) (body now : String)
    (err : Error) (h : w.state = .stateEnabled) (hdec : codecs.decodeEvent body = .error err) :
    w.handleRequest codecs body now =
      w.log (.loggerError logTag "MonitorJobFailures received unknown request: %s" [err]) := by
  simp [windowsJobSupervisor.handleRequest, windowsJobSupervisor.stateIs, h, hdec]

theorem handleRequest_state (codecs : Codecs) (w : windowsJobSupervisor M) (body now : String) :
    (w.handleRequest codecs body now).state = w.state := by
  unfold windowsJobSupervisor.handleRequest
  split
  · rfl
  · split <;> rfl

theorem handleRequests_disabled (codecs : Codecs) (w : windowsJobSupervisor M)
    (requests : List (String × String)) (h : w.state = .stateDisabled) :
    w.handleRequests codecs requests = w := by
  induction requests with
  | nil => rfl
  | cons r rest ih =>
    unfold windowsJobSupervisor.handleRequests at ih ⊢
    rw [List.foldl_cons, handleRequest_disabled codecs w r.1 r.2 h]
    exact ih

theorem Unmonitor_state (ops : MgrOps M) (w : windowsJobSupervisor M) :
    (w.Unmonitor ops).2.state = .stateDisabled := rfl

theorem Start_state (ops : MgrOps M) (w w1 : windowsJobSupervisor M)
    (h : w.Start ops = (none, w1)) : w1.state = .stateEnabled := by
  unfold windowsJobSupervisor.Start at h
  dsimp only at h
  split at h
  · simp at h
  · split at h
    · simp at h
    · simp only [Prod.mk.injEq, true_and] at h
      subst h
      rfl

/-- C11: after `Unmonitor`, whether or not the service manager reports an
error, the request handler leaves the supervisor as it is for every sequence
of requests, well-formed or not, so the failure handler is never invoked;
after a following `Start` that returns no error, a well-formed failure event
makes the request handler invoke the failure handler exactly once, with the
alert of that event. -/
theorem C11_unmonitor_gating (c : Collaborators M) (w : windowsJobSupervisor M)
    (requests : List (String × String)) :
    (w.Unmonitor c.mgr).2.handleRequests c.codecs requests = (w.Unmonitor c.mgr).2 ∧
      ((((w.Unmonitor c.mgr).2.handleRequests c.codecs requests).trace.drop
        (w.Unmonitor c.mgr).2.trace.length).filter Call.isHandler).length = 0 ∧
      (∀ w2, ((w.Unmonitor c.mgr).2.handleRequests c.codecs requests).Start c.mgr = (none, w2) →
        ∀ body now event, c.codecs.decodeEvent body = .ok event →
          (w2.handleRequest c.codecs body now).trace =
              w2.trace ++ [Call.handler (failureAlert event now)] ∧
            (((w2.handleRequest c.codecs body now).trace.drop w2.trace.length).filter
              Call.isHandler).length = 1) := by
  have h := handleRequests_disabled c.codecs (w.Unmonitor c.mgr).2 requests
    (Unmonitor_state c.mgr w)
  refine ⟨h, by rw [h]; simp, ?_⟩
  intro w2 hstart body now event hdec
  have henabled := Start_state c.mgr _ w2 hstart
  rw [handleRequest_ok c.codecs w2 body now event henabled hdec]
  simp [windowsJobSupervisor.log, Call.isHandler]

/-- C11 at the failure request of the tests: dropped twice after
`Unmonitor`, handled once after the following `Start`. -/
theorem C11_unmonitor_gating_witness :
    ((((testSupervisor [] []).Unmonitor (listMgr none)).2.handleRequests testCodecs
        [(failureRequest, "Mon, 02 Jan 2006 15:04:05 -0700"),
          (failureRequest, "Mon, 02 Jan 2006 15:04:06 -0700")]).trace.drop
        ((testSupervisor [] []).Unmonitor (listMgr none)).2.trace.length).filter
        Call.isHandler = [] ∧
      ((((((testSupervisor [] []).Unmonitor (listMgr none)).2.handleRequests testCodecs
          [(failureRequest, "Mon, 02 Jan 2006 15:04:05 -0700"),
            (failureRequest, "Mon, 02 Jan 2006 15:04:06 -0700")]).Start (listMgr none)).2.handleRequest
          testCodecs failureRequest "Mon, 02 Jan 2006 15:04:07 -0700").trace.filter
        Call.isHandler).length = 1 :=
  have h := C11_unmonitor_gating (testCollaborators none) (testSupervisor [] [])
    [(failureRequest, "Mon, 02 Jan 2006 15:04:05 -0700"),
      (failureRequest, "Mon, 02 Jan 2006 15:04:06 -0700")]
  have h2 := h.2.2
    ((((testSupervisor [] []).Unmonitor (listMgr none)).2.handleRequests testCodecs
      [(failureRequest, "Mon, 02 Jan 2006 15:04:05 -0700"),
        (failureRequest, "Mon, 02 Jan 2006 15:04:06 -0700")]).Start (listMgr none)).2
    rfl failureRequest "Mon, 02 Jan 2006 15:04:07 -0700"
    { Event := "pid failed", ProcessName := "nats", ExitCode := 55 } (by decide)
  ⟨List.length_eq_zero.mp h.2.1, (congrArg (fun t => (t.filter Call.isHandler).length)
    h2.1).trans (by decide)⟩

/-- C12: for a request received while the supervisor is monitored whose body
decodes to the event with fields `event = e`, `processName = p` and
`exitCode = n`, the request handler invokes the failure handler exactly
once, with the alert whose ID and Service are `p`, whose Event is `e`, whose
Action is `Start`, whose Date is the time of the request and whose
Description is `exited with code ` followed by the decimal rendering of
`n`. -/
theorem C12_alert_of_event (codecs : Codecs) (w : windowsJobSupervisor M) (body now : String)
    (e p : String) (n : Int) (hmon : w.state = .stateEnabled)
    (hdec : codecs.decodeEvent body = .ok { Event := e, ProcessName := p, ExitCode := n }) :
    (w.handleRequest codecs body now).trace =
        w.trace ++
          [Call.handler
            { ID := p, Service := p, Event := e, Action := "Start", Date := now,
              Description := "exited with code " ++ toString n }] ∧
      (((w.handleRequest codecs body now).trace.drop w.trace.length).filter
        Call.isHandler).length = 1 := by
  rw [handleRequest_ok codecs w body now _ hmon hdec]
  simp [windowsJobSupervisor.log, Call.isHandler, failureAlert]

/-- C12 at the failure request of the tests: the alert has ID `nats`,
Service `nats` and Description `exited with code 55`. -/
theorem C12_alert_of_event_witness :
    ((testSupervisor [] []).handleRequest testCodecs failureRequest
        "Mon, 02 Jan 2006 15:04:05 -0700").trace =
      [Call.handler
        { ID := "nats", Service := "nats", Event := "pid failed", Action := "Start",
          Date := "Mon, 02 Jan 2006 15:04:05 -0700", Description := "exited with code 55" }] :=
  (C12_alert_of_event testCodecs (testSupervisor [] []) failureRequest
    "Mon, 02 Jan 2006 15:04:05 -0700" "pid failed" "nats" 55 rfl (by decide)).1

/-- C13: for a request received while the supervisor is monitored whose body
fails to decode, the request handler logs an error and does nothing else:
the failure handler is not invoked, the supervision state is unchanged, and
`MonitorJobFailures` goes on listening without returning. -/
theorem C13_undecodable_request (codecs : Codecs) (w : windowsJobSupervisor M)
    (body now : String) (err : Error) (hmon : w.state = .stateEnabled)
    (hdec : codecs.decodeEvent body = .error err) :
    (w.handleRequest codecs body now).trace =
        w.trace ++ [Call.loggerError logTag "MonitorJobFailures received unknown request: %s"
          [err]] ∧
      (∀ call ∈ (w.handleRequest codecs body now).trace.drop w.trace.length,
        call.isHandler = false) ∧
      (w.handleRequest codecs body now).state = w.state ∧
      (w.MonitorJobFailures codecs [.request body now]).1 = none ∧
      (∀ rest, w.MonitorJobFailures codecs (.request body now :: rest) =
        (w.handleRequest codecs body now).MonitorJobFailures codecs rest) := by
  refine ⟨?_, ?_, handleRequest_state codecs w body now, rfl, fun _ => rfl⟩
  · rw [handleRequest_error codecs w body now err hmon hdec]
    rfl
  · rw [handleRequest_error codecs w body now err hmon hdec]
    simp [windowsJobSupervisor.log, Call.isHandler]

/-- C13 at the body `some bad request` of the tests. -/
theorem C13_undecodable_request_witness :
    ((testSupervisor [] []).handleRequest testCodecs "some bad request"
        "Mon, 02 Jan 2006 15:04:05 -0700").trace =
      [Call.loggerError logTag "MonitorJobFailures received unknown request: %s"
        ["invalid character in JSON text"]] :=
  (C13_undecodable_request testCodecs (testSupervisor [] []) "some bad request"
    "Mon, 02 Jan 2006 15:04:05 -0700" "invalid character in JSON text" rfl (by decide)).1

/-! ## The supervision state -/

theorem NewWindowsJobSupervisor_state (dirProvider : Provider) (fs : FileSystem)
    (jobFailuresServerPort : Int) (machineIP : String) (monitorErr : Option Error)
    (connect : Option Error × M) :
    (NewWindowsJobSupervisor dirProvider fs jobFailuresServerPort machineIP monitorErr
      connect).state = .stateEnabled := by
  unfold NewWindowsJobSupervisor
  dsimp only
  split <;> rfl

theorem Stop_state (ops : MgrOps M) (w : windowsJobSupervisor M) :
    (w.Stop ops).2.state = w.state := by
  unfold windowsJobSupervisor.Stop
  split
  · rfl
  · dsimp only
    split <;> rfl

theorem Status_state (ops : MgrOps M) (w : windowsJobSupervisor M) :
    (w.Status ops).2.state = w.state := by
  unfold windowsJobSupervisor.Status
  dsimp only
  split
  · rfl
  · split
    · rfl
    · split <;> rfl

theorem Processes_state (ops : MgrOps M) (w : windowsJobSupervisor M) :
    (w.Processes ops).2.state = w.state := by
  unfold windowsJobSupervisor.Processes
  split <;> rfl

theorem AddJob_sameFrame (c : Collaborators M) (w : windowsJobSupervisor M) (jobName : String)
    (jobIndex : Int) (configPath : String) :
    w.sameFrame (w.AddJob c jobName jobIndex configPath).2 := by
  rcases hread : (w.fs.ReadFile configPath).1 with err | content
  · rw [AddJob_read_error c w jobName jobIndex configPath err hread]
    exact sameFrame_afterRead w configPath
  · rw [AddJob_of_read c w jobName jobIndex configPath content hread]
    split
    · exact ⟨rfl, rfl, rfl, rfl⟩
    · split
      · exact sameFrame_afterRead w configPath
      · exact sameFrame_trans (sameFrame_afterRead w configPath)
          (addJobLoop_spec c jobName configPath _ _).1

/-- Every operation other than `Start` and `Unmonitor` keeps the supervision
state. -/
theorem applyOp_state (c : Collaborators M) (w : windowsJobSupervisor M) (op : Op)
    (hstart : op ≠ .Start) (hunmonitor : op ≠ .Unmonitor) :
    (applyOp c w op).state = w.state := by
  cases op with
  | Start => exact absurd rfl hstart
  | Unmonitor => exact absurd rfl hunmonitor
  | Stop => exact Stop_state c.mgr w
  | StopAndWait => exact Stop_state c.mgr w
  | Status => exact Status_state c.mgr w
  | Processes => exact Processes_state c.mgr w
  | AddJob jobName jobIndex configPath => exact (AddJob_sameFrame c w jobName jobIndex configPath).1
  | RemoveAllJobs => rfl
  | Reload => rfl
  | HealthRecorder status => rfl
  | request body now => exact handleRequest_state c.codecs w body now

/-- C15: a freshly constructed supervisor is in the enabled state, whatever
the errors of the monitor and of the connection to the service manager;
after a `Start` that returns no error the state is enabled; after
`Unmonitor` the state is disabled, whatever the service manager returns. -/
theorem C15_state_transitions (ops : MgrOps M) :
    (∀ (dirProvider : Provider) (fs : FileSystem) (port : Int) (machineIP : String)
        (monitorErr : Option Error) (connect : Option Error × M),
        (NewWindowsJobSupervisor dirProvider fs port machineIP monitorErr connect).state =
          .stateEnabled) ∧
      (∀ w w1 : windowsJobSupervisor M, w.Start ops = (none, w1) → w1.state = .stateEnabled) ∧
      (∀ w : windowsJobSupervisor M, (w.Unmonitor ops).2.state = .stateDisabled) :=
  ⟨fun dirProvider fs port machineIP monitorErr connect =>
      NewWindowsJobSupervisor_state dirProvider fs port machineIP monitorErr connect,
    fun w w1 h => Start_state ops w w1 h, fun w => Unmonitor_state ops w⟩

/-- C15 at a supervisor that is unmonitored, although the service manager
fails, and then started. -/
theorem C15_state_transitions_witness :
    ((testSupervisor [] []).Unmonitor (listMgr (some "access denied"))).2.state =
        .stateDisabled ∧
      ((((testSupervisor [] []).Unmonitor (listMgr (some "access denied"))).2).Start
        (listMgr none)).2.state = .stateEnabled :=
  ⟨(C15_state_transitions (listMgr (some "access denied"))).2.2 (testSupervisor [] []),
    (C15_state_transitions (listMgr none)).2.1
      ((testSupervisor [] []).Unmonitor (listMgr (some "access denied"))).2
      ((((testSupervisor [] []).Unmonitor (listMgr (some "access denied"))).2).Start
        (listMgr none)).2 rfl⟩

/-- C16: every operation other than `Start` and `Unmonitor` (`Stop`,
`StopAndWait`, `Status`, `Processes`, `AddJob`, `RemoveAllJobs`, `Reload`,
`HealthRecorder` and the handling of a request by the listener) leaves the
supervision state unchanged; hence from the disabled state a sequence of
operations that contains no `Start` ends in the disabled state. -/
theorem C16_state_frame (c : Collaborators M) :
    (∀ (w : windowsJobSupervisor M) (op : Op), op ≠ .Start → op ≠ .Unmonitor →
        (applyOp c w op).state = w.state) ∧
      (∀ (ops : List Op) (w : windowsJobSupervisor M), Op.Start ∉ ops →
        w.state = .stateDisabled → (applyOps c w ops).state = .stateDisabled) := by
  refine ⟨fun w op h1 h2 => applyOp_state c w op h1 h2, ?_⟩
  intro ops
  induction ops with
  | nil => exact fun w _ h => h
  | cons op rest ih =>
    intro w hmem hw
    have hop : op ≠ .Start := fun h => hmem (by rw [h]; exact List.mem_cons_self _ _)
    have hrest : Op.Start ∉ rest := fun h => hmem (List.mem_cons_of_mem _ h)
    unfold applyOps at ih ⊢
    rw [List.foldl_cons]
    apply ih _ hrest
    by_cases hu : op = .Unmonitor
    · rw [hu]
      exact Unmonitor_state c.mgr w
    · rw [applyOp_state c w op hop hu]
      exact hw

/-- C16 at an unmonitored supervisor that goes through every operation but
`Start`. -/
theorem C16_state_frame_witness :
    (applyOps (testCollaborators none)
        ((testSupervisor (jobFiles "say-hello") []).Unmonitor (listMgr none)).2
        [.AddJob "say-hello" 0 "C:\\jobs\\say-hello\\monit", .Status, .Processes, .Stop,
          .request failureRequest "Mon, 02 Jan 2006 15:04:05 -0700", .StopAndWait, .Reload,
          .HealthRecorder "running", .Unmonitor, .RemoveAllJobs]).state = .stateDisabled :=
  (C16_state_frame (testCollaborators none)).2
    [.AddJob "say-hello" 0 "C:\\jobs\\say-hello\\monit", .Status, .Processes, .Stop,
      .request failureRequest "Mon, 02 Jan 2006 15:04:05 -0700", .StopAndWait, .Reload,
      .HealthRecorder "running", .Unmonitor, .RemoveAllJobs]
    ((testSupervisor (jobFiles "say-hello") []).Unmonitor (listMgr none)).2 (by decide) rfl

/-! ## Request bodies and the JSON decoder -/

theorem saveError_isSome (st : json.DecodeState) (err : Error) :
    (st.saveError err).savedError.isSome = true := by
  unfold json.DecodeState.saveError
  split
  · rename_i e h
    rw [h]; rfl
  · rfl

theorem saveError_mono (st : json.DecodeState) (err : Error)
    (h : st.savedError.isSome = true) : (st.saveError err).savedError = st.savedError := by
  unfold json.DecodeState.saveError
  split
  · rfl
  · rename_i hnone
    rw [hnone] at h
    simp at h

theorem storeString_mono (st : json.DecodeState) (field : String) (v : json.Value)
    (set : windowsServiceEvent → String → windowsServiceEvent)
    (h : st.savedError.isSome = true) :
    (json.storeString st field v set).savedError.isSome = true := by
  unfold json.storeString
  split
  · exact h
  · exact h
  · exact saveError_isSome _ _

theorem storeInt_mono (st : json.DecodeState) (field : String) (v : json.Value)
    (set : windowsServiceEvent → Int → windowsServiceEvent)
    (h : st.savedError.isSome = true) :
    (json.storeInt st field v set).savedError.isSome = true := by
  unfold json.storeInt
  split
  · split
    · exact h
    · exact saveError_isSome _ _
  · exact h
  · exact saveError_isSome _ _

theorem storeMember_mono (st : json.DecodeState) (member : String × json.Value)
    (h : st.savedError.isSome = true) :
    (json.storeMember st member).savedError.isSome = true := by
  unfold json.storeMember
  split
  · exact storeString_mono _ _ _ _ h
  · split
    · exact storeString_mono _ _ _ _ h
    · split
      · exact storeInt_mono _ _ _ _ h
      · exact h

theorem storeMember_mismatch (st : json.DecodeState) (member : String × json.Value)
    (h : json.typeMismatch member = true) :
    (json.storeMember st member).savedError.isSome = true := by
  obtain ⟨key, v⟩ := member
  unfold json.typeMismatch at h
  unfold json.storeMember
  by_cases h1 : json.foldName key == json.foldName "event"
  · simp only [h1, Bool.true_or, if_true] at h ⊢
    cases v <;> first | exact saveError_isSome _ _ | simp at h
  · by_cases h2 : json.foldName key == json.foldName "processName"
    · simp only [h1, h2, Bool.or_true, if_true, Bool.false_eq_true, if_false] at h ⊢
      cases v <;> first | exact saveError_isSome _ _ | simp at h
    · by_cases h3 : json.foldName key == json.foldName "exitCode"
      · simp only [h1, h2, h3, Bool.or_self, Bool.false_eq_true, if_false, if_true] at h ⊢
        cases v with
        | number literal =>
          simp only [Option.isNone_iff_eq_none] at h
          simp only [json.storeInt, h]
          exact saveError_isSome _ _
        | null => simp at h
        | bool b => exact saveError_isSome _ _
        | string s => exact saveError_isSome _ _
        | array elems => exact saveError_isSome _ _
        | object members => exact saveError_isSome _ _
      · simp [h1, h2, h3] at h

theorem foldl_storeMember_mono (members : List (String × json.Value)) (st : json.DecodeState)
    (h : st.savedError.isSome = true) :
    (members.foldl json.storeMember st).savedError.isSome = true := by
  induction members generalizing st with
  | nil => exact h
  | cons m rest ih => exact ih _ (storeMember_mono st m h)

theorem foldl_storeMember_mismatch (members : List (String × json.Value))
    (st : json.DecodeState) (h : ∃ m ∈ members, json.typeMismatch m = true) :
    (members.foldl json.storeMember st).savedError.isSome = true := by
  induction members generalizing st with
  | nil => simp at h
  | cons m rest ih =>
    obtain ⟨m1, hm1, hmis⟩ := h
    rw [List.foldl_cons]
    rcases List.mem_cons.mp hm1 with rfl | hrest
    · exact foldl_storeMember_mono rest _ (storeMember_mismatch st m1 hmis)
    · exact ih _ ⟨m1, hrest, hmis⟩

theorem foldl_storeMember_no_field (members : List (String × json.Value))
    (st : json.DecodeState) (h : ∀ m ∈ members, json.isEventField m.1 = false) :
    members.foldl json.storeMember st = st := by
  induction members generalizing st with
  | nil => rfl
  | cons m rest ih =>
    have hm := h m (List.mem_cons_self _ _)
    simp only [json.isEventField, Bool.or_eq_false_iff] at hm
    rw [List.foldl_cons]
    have hstep : json.storeMember st m = st := by
      simp [json.storeMember, hm.1.1, hm.1.2, hm.2]
    rw [hstep]
    exact ih st (fun m1 hm1 => h m1 (List.mem_cons_of_mem _ hm1))

theorem decodeEvent_of_parse_none (body : String) (h : json.parse body = none) :
    ∃ err, json.decodeEvent body = .error err := by
  unfold json.decodeEvent
  rw [h]
  simp only
  split
  · exact ⟨_, rfl⟩
  · exact ⟨_, rfl⟩

theorem decodeEvent_of_mismatch (body : String) (members : List (String × json.Value))
    (h : json.parse body = some (.object members))
    (hmis : ∃ m ∈ members, json.typeMismatch m = true) :
    ∃ err, json.decodeEvent body = .error err := by
  have hsome := foldl_storeMember_mismatch members
    { event := { Event := "", ProcessName := "", ExitCode := 0 }, savedError := none } hmis
  unfold json.decodeEvent
  rw [h]
  simp only [json.unmarshalEvent]
  split
  · exact ⟨_, rfl⟩
  · rename_i hnone
    rw [hnone] at hsome
    simp at hsome

theorem decodeEvent_of_no_field (body : String) (members : List (String × json.Value))
    (h : json.parse body = some (.object members))
    (hno : ∀ m ∈ members, json.isEventField m.1 = false) :
    json.decodeEvent body = .ok { Event := "", ProcessName := "", ExitCode := 0 } := by
  unfold json.decodeEvent
  rw [h]
  simp only [json.unmarshalEvent]
  rw [foldl_storeMember_no_field members _ hno]

theorem decodeEvent_of_other (body : String) (v : json.Value) (h : json.parse body = some v)
    (hobj : ∀ members, v ≠ .object members) (hnull : v ≠ .null) :
    ∃ err, json.decodeEvent body = .error err := by
  unfold json.decodeEvent
  rw [h]
  simp only
  cases v with
  | null => exact absurd rfl hnull
  | object members => exact absurd rfl (hobj members)
  | bool b => exact ⟨_, rfl⟩
  | number literal => exact ⟨_, rfl⟩
  | string s => exact ⟨_, rfl⟩
  | array elems => exact ⟨_, rfl⟩

theorem storeString_no_error (st : json.DecodeState) (field : String) (v : json.Value)
    (set : windowsServiceEvent → String → windowsServiceEvent)
    (h : (∃ s, v = .string s) ∨ v = .null) :
    (json.storeString st field v set).savedError = st.savedError := by
  rcases h with ⟨s, rfl⟩ | rfl <;> rfl

theorem storeMember_no_mismatch (st : json.DecodeState) (member : String × json.Value)
    (h : json.typeMismatch member = false) :
    (json.storeMember st member).savedError = st.savedError := by
  obtain ⟨key, v⟩ := member
  unfold json.typeMismatch at h
  unfold json.storeMember
  by_cases h1 : json.foldName key == json.foldName "event"
  · simp only [h1, Bool.true_or, if_true] at h ⊢
    cases v <;> first | rfl | simp at h
  · by_cases h2 : json.foldName key == json.foldName "processName"
    · simp only [h1, h2, Bool.or_true, if_true, Bool.false_eq_true, if_false] at h ⊢
      cases v <;> first | rfl | simp at h
    · by_cases h3 : json.foldName key == json.foldName "exitCode"
      · simp only [h1, h2, h3, Bool.or_self, Bool.false_eq_true, if_false, if_true] at h ⊢
        cases v with
        | number literal =>
          rcases hp : json.parseInt64 literal with _ | n
          · simp [hp] at h
          · simp only [json.storeInt, hp]
        | null => rfl
        | bool b => simp at h
        | string s => simp at h
        | array elems => simp at h
        | object members => simp at h
      · simp only [h1, h2, h3, Bool.false_eq_true, if_false]

theorem foldl_storeMember_no_mismatch (members : List (String × json.Value))
    (st : json.DecodeState) (h : ∀ m ∈ members, json.typeMismatch m = false) :
    (members.foldl json.storeMember st).savedError = st.savedError := by
  induction members generalizing st with
  | nil => rfl
  | cons m rest ih =>
    rw [List.foldl_cons, ih _ (fun m1 hm1 => h m1 (List.mem_cons_of_mem _ hm1)),
      storeMember_no_mismatch st m (h m (List.mem_cons_self _ _))]

theorem decodeEvent_of_no_mismatch (body : String) (members : List (String × json.Value))
    (h : json.parse body = some (.object members))
    (hno : ∀ m ∈ members, json.typeMismatch m = false) :
    ∃ event, json.decodeEvent body = .ok event := by
  have hnone := foldl_storeMember_no_mismatch members
    { event := { Event := "", ProcessName := "", ExitCode := 0 }, savedError := none } hno
  unfold json.decodeEvent
  rw [h]
  simp only [json.unmarshalEvent]
  split
  · rename_i err hsome
    rw [hsome] at hnone
    simp at hnone
  · exact ⟨_, rfl⟩

/-- The decoder returns an error exactly for the rejected bodies. -/
theorem decodeEvent_error_iff (body : String) :
    (∃ err, json.decodeEvent body = .error err) ↔ rejectedBody body := by
  unfold rejectedBody
  rcases hp : json.parse body with _ | v
  · constructor
    · intro _
      exact Or.inl rfl
    · intro _
      exact decodeEvent_of_parse_none body hp
  · cases v with
    | null =>
      constructor
      · rintro ⟨err, herr⟩
        simp [json.decodeEvent, hp, json.unmarshalEvent] at herr
      · rintro (h | ⟨v, hv, _, hnull⟩ | ⟨members, hm, _⟩)
        · simp at h
        · exact absurd (Option.some.inj hv).symm hnull
        · simp at hm
    | object members =>
      by_cases hmis : ∃ m ∈ members, json.typeMismatch m = true
      · constructor
        · intro _
          exact Or.inr (Or.inr ⟨members, rfl, hmis⟩)
        · intro _
          exact decodeEvent_of_mismatch body members hp hmis
      · have hno : ∀ m ∈ members, json.typeMismatch m = false := by
          intro m hm
          by_contra hc
          exact hmis ⟨m, hm, by simpa using hc⟩
        obtain ⟨event, hev⟩ := decodeEvent_of_no_mismatch body members hp hno
        constructor
        · rintro ⟨err, herr⟩
          rw [hev] at herr
          simp at herr
        · rintro (h | ⟨v, hv, hobj, _⟩ | ⟨members1, hm, hmis1⟩)
          · simp at h
          · exact absurd (Option.some.inj hv).symm (hobj members)
          · have heq : members = members1 := by
              have := Option.some.inj hm
              injection this
            subst heq
            exact absurd hmis1 hmis
    | bool b =>
      constructor
      · intro _
        exact Or.inr (Or.inl ⟨_, rfl, fun m hm => by simp at hm, fun hn => by simp at hn⟩)
      · intro _
        exact decodeEvent_of_other body _ hp (fun m hm => by simp at hm) (fun hn => by simp at hn)
    | number literal =>
      constructor
      · intro _
        exact Or.inr (Or.inl ⟨_, rfl, fun m hm => by simp at hm, fun hn => by simp at hn⟩)
      · intro _
        exact decodeEvent_of_other body _ hp (fun m hm => by simp at hm) (fun hn => by simp at hn)
    | string str =>
      constructor
      · intro _
        exact Or.inr (Or.inl ⟨_, rfl, fun m hm => by simp at hm, fun hn => by simp at hn⟩)
      · intro _
        exact decodeEvent_of_other body _ hp (fun m hm => by simp at hm) (fun hn => by simp at hn)
    | array elems =>
      constructor
      · intro _
        exact Or.inr (Or.inl ⟨_, rfl, fun m hm => by simp at hm, fun hn => by simp at hn⟩)
      · intro _
        exact decodeEvent_of_other body _ hp (fun m hm => by simp at hm) (fun hn => by simp at hn)

/-- An array opened inside `depth` arrays and objects, followed by `k` more
opening brackets, is not read when `depth + k` reaches the nesting limit. -/
theorem parseValue_too_deep (k fuel depth : Nat) (rest : List Char)
    (h : json.maxNestingDepth ≤ depth + k) :
    json.parseValue fuel depth (List.replicate (k + 1) '[' ++ rest) = none := by
  induction k generalizing fuel depth with
  | zero =>
    cases fuel with
    | zero => rfl
    | succ fuel =>
      have hd : depth + 1 > json.maxNestingDepth := by omega
      simp [json.parseValue, json.skipSpace, json.isSpace, hd]
  | succ k ih =>
    cases fuel with
    | zero => rfl
    | succ fuel =>
      by_cases hd : depth + 1 > json.maxNestingDepth
      · simp [json.parseValue, json.skipSpace, json.isSpace, hd]
      · have hinner : json.parseElems fuel (depth + 1) (List.replicate (k + 1) '[' ++ rest) =
            none := by
          cases fuel with
          | zero => rfl
          | succ fuel =>
            rw [json.parseElems, ih fuel (depth + 1) (by omega)]
        have hrep : List.replicate (k + 1 + 1) '[' ++ rest =
            '[' :: '[' :: (List.replicate k '[' ++ rest) := rfl
        have hrep1 : List.replicate (k + 1) '[' ++ rest =
            '[' :: (List.replicate k '[' ++ rest) := rfl
        rw [hrep1] at hinner
        rw [hrep]
        simp [json.parseValue, json.skipSpace, json.isSpace, hd, hinner]

/-- A recorded call of the failure handler is not a recorded logger call. -/
theorem log_handler_ne_log_error (w : windowsJobSupervisor M) (alert : MonitAlert)
    (tag format : String) (args : List String) :
    w.log (.handler alert) ≠ w.log (.loggerError tag format args) := by
  intro h
  have ht := congrArg windowsJobSupervisor.trace h
  simp [windowsJobSupervisor.log] at ht

/-- C14, as stated, fails: the bodies `{}` and `{"foo":"bar"}` are JSON
objects that lack the three fields of a failure event; they decode to the
zero event, and the request handler of a monitored supervisor invokes the
failure handler for each of them instead of logging and ignoring it.  So it
does for the bodies `{} this is not JSON` and `null and void`, which are not
JSON: the decoder reads only the first JSON value of a body. -/
theorem C14_counterexample :
    (testSupervisor [] []).state = .stateEnabled ∧
      (json.parse "\x7b\x7d").map json.Value.kind = some "object" ∧
      ((testSupervisor [] []).handleRequest testCodecs "\x7b\x7d"
          "Mon, 02 Jan 2006 15:04:05 -0700").trace =
        [Call.handler
          { ID := "", Service := "", Event := "", Action := "Start",
            Date := "Mon, 02 Jan 2006 15:04:05 -0700", Description := "exited with code 0" }] ∧
      (json.parse "\x7b\"foo\":\"bar\"\x7d").map json.Value.kind = some "object" ∧
      ((testSupervisor [] []).handleRequest testCodecs "\x7b\"foo\":\"bar\"\x7d"
          "Mon, 02 Jan 2006 15:04:05 -0700").trace =
        [Call.handler
          { ID := "", Service := "", Event := "", Action := "Start",
            Date := "Mon, 02 Jan 2006 15:04:05 -0700", Description := "exited with code 0" }] ∧
      ((testSupervisor [] []).handleRequest testCodecs "\x7b\x7d this is not JSON"
          "Mon, 02 Jan 2006 15:04:05 -0700").trace =
        [Call.handler
          { ID := "", Service := "", Event := "", Action := "Start",
            Date := "Mon, 02 Jan 2006 15:04:05 -0700", Description := "exited with code 0" }] ∧
      ((testSupervisor [] []).handleRequest testCodecs "null and void"
          "Mon, 02 Jan 2006 15:04:05 -0700").trace =
        [Call.handler
          { ID := "", Service := "", Event := "", Action := "Start",
            Date := "Mon, 02 Jan 2006 15:04:05 -0700", Description := "exited with code 0" }] := by
  decide

/-- C14 (amended): over the JSON decoder of the Go library, which reads the
first JSON value of a body and leaves what follows it unread, a request body
received while the supervisor is monitored is logged and ignored, the
failure handler not being invoked, exactly when it is rejected: when no JSON
value can be read at its start (an array or object nested deeper than
`maxNestingDepth` counts as unreadable), when its first JSON value is
neither an object nor `null`, and when that value is an object in which a
member named `event` or `processName` holds a value that is neither a string
nor `null`, or a member named `exitCode` holds a value that is neither an
integer literal of the `int` range nor `null`.  For every other body the
failure handler is invoked once; in particular an object that has no member
named after one of the three fields is not rejected: the failure handler is
invoked for it with the alert of the zero event. -/
theorem C14_rejected_bodies (codecs : Codecs) (w : windowsJobSupervisor M) (body now : String)
    (hcodec : codecs.decodeEvent = json.decodeEvent) (hmon : w.state = .stateEnabled) :
    (json.parse body = none → loggedAndIgnored w (w.handleRequest codecs body now)) ∧
      (∀ v, json.parse body = some v → (∀ members, v ≠ .object members) → v ≠ .null →
        loggedAndIgnored w (w.handleRequest codecs body now)) ∧
      (∀ members, json.parse body = some (.object members) →
        (∃ m ∈ members, json.typeMismatch m = true) →
        loggedAndIgnored w (w.handleRequest codecs body now)) ∧
      (∀ w1, loggedAndIgnored w w1 → ∀ call ∈ w1.trace.drop w.trace.length,
        call.isHandler = false) ∧
      (∀ members, json.parse body = some (.object members) →
        (∀ m ∈ members, json.isEventField m.1 = false) →
        w.handleRequest codecs body now =
          w.log (.handler (failureAlert { Event := "", ProcessName := "", ExitCode := 0 }
            now))) ∧
      (loggedAndIgnored w (w.handleRequest codecs body now) ↔ rejectedBody body) ∧
      ((∃ event, w.handleRequest codecs body now = w.log (.handler (failureAlert event now))) ↔
        ¬ rejectedBody body) ∧
      (∀ (n : Nat) (rest : List Char), json.maxNestingDepth < n →
        rejectedBody (String.mk (List.replicate n '[' ++ rest))) := by
  have hlog : ∀ err, json.decodeEvent body = .error err →
      loggedAndIgnored w (w.handleRequest codecs body now) := by
    intro err herr
    exact ⟨err, handleRequest_error codecs w body now err hmon (by rw [hcodec]; exact herr)⟩
  have hiff : loggedAndIgnored w (w.handleRequest codecs body now) ↔ rejectedBody body := by
    rw [← decodeEvent_error_iff]
    constructor
    · rintro ⟨err, herr⟩
      rcases hd : json.decodeEvent body with e | event
      · exact ⟨e, rfl⟩
      · rw [handleRequest_ok codecs w body now event hmon (by rw [hcodec]; exact hd)] at herr
        exact absurd herr (log_handler_ne_log_error w _ _ _ _)
    · rintro ⟨err, herr⟩
      exact hlog err herr
  have hiff2 : (∃ event, w.handleRequest codecs body now =
      w.log (.handler (failureAlert event now))) ↔ ¬ rejectedBody body := by
    rw [← decodeEvent_error_iff]
    constructor
    · rintro ⟨event, hev⟩ ⟨err, herr⟩
      rw [handleRequest_error codecs w body now err hmon (by rw [hcodec]; exact herr)] at hev
      exact log_handler_ne_log_error w _ _ _ _ hev.symm
    · intro hno
      rcases hd : json.decodeEvent body with e | event
      · exact absurd ⟨e, hd⟩ hno
      · exact ⟨event, handleRequest_ok codecs w body now event hmon (by rw [hcodec]; exact hd)⟩
  refine ⟨?_, ?_, ?_, ?_, ?_, hiff, hiff2, ?_⟩
  · intro h
    obtain ⟨err, herr⟩ := decodeEvent_of_parse_none body h
    exact hlog err herr
  · intro v h hobj hnull
    obtain ⟨err, herr⟩ := decodeEvent_of_other body v h hobj hnull
    exact hlog err herr
  · intro members h hmis
    obtain ⟨err, herr⟩ := decodeEvent_of_mismatch body members h hmis
    exact hlog err herr
  · rintro w1 ⟨err, rfl⟩ call hcall
    simp only [windowsJobSupervisor.log, List.drop_left, List.mem_singleton] at hcall
    rw [hcall]
    rfl
  · intro members h hno
    exact handleRequest_ok codecs w body now _ hmon
      (by rw [hcodec]; exact decodeEvent_of_no_field body members h hno)
  · intro n rest hn
    left
    obtain ⟨k, rfl⟩ : ∃ k, n = k + 1 := ⟨n - 1, by omega⟩
    unfold json.parse
    rw [show (String.mk (List.replicate (k + 1) '[' ++ rest)).toList =
      List.replicate (k + 1) '[' ++ rest from rfl,
      parseValue_too_deep k _ 0 rest (by omega)]
    rfl

/-- C14 (amended) at the body `{"exitCode":"x"}`, whose member `exitCode`
holds a string. -/
theorem C14_rejected_bodies_witness :
    loggedAndIgnored (testSupervisor [] [])
      ((testSupervisor [] []).handleRequest testCodecs "\x7b\"exitCode\":\"x\"\x7d"
        "Mon, 02 Jan 2006 15:04:05 -0700") :=
  (C14_rejected_bodies testCodecs (testSupervisor [] []) "\x7b\"exitCode\":\"x\"\x7d"
    "Mon, 02 Jan 2006 15:04:05 -0700" rfl rfl).2.2.1 [("exitCode", .string "x")] (by rfl)
    ⟨("exitCode", .string "x"), List.mem_cons_self _ _, by decide⟩

/-! ## `Processes` and the wrapping of errors -/

theorem Processes_of_ok (ops : MgrOps M) (w : windowsJobSupervisor M) (sts : List ServiceStatus)
    (h : (ops.Status w.mgr).1 = .ok sts) :
    (w.Processes ops).1 =
      .ok (sts.map (fun st => { Name := st.Name, State := SvcStateString st.State })) := by
  unfold windowsJobSupervisor.Processes
  rcases hs : ops.Status w.mgr with ⟨r, m⟩
  rw [hs] at h
  simp only at h
  subst h
  rfl

theorem Processes_of_error (ops : MgrOps M) (w : windowsJobSupervisor M) (err : Error)
    (h : (ops.Status w.mgr).1 = .error err) :
    (w.Processes ops).1 = .error (WrapError err "Getting windows job process status") := by
  unfold windowsJobSupervisor.Processes
  rcases hs : ops.Status w.mgr with ⟨r, m⟩
  rw [hs] at h
  simp only at h
  subst h
  rfl

theorem Status_of_no_marker_ok (ops : MgrOps M) (w : windowsJobSupervisor M)
    (sts : List ServiceStatus) (hmarker : w.fs.FileExists w.stoppedFilePath = false)
    (h : (ops.Status w.mgr).1 = .ok sts) : (w.Status ops).1 = statusLoop sts := by
  unfold windowsJobSupervisor.Status
  simp only [hmarker, Bool.false_eq_true, if_false, windowsJobSupervisor.log]
  rcases hs : ops.Status w.mgr with ⟨r, m⟩
  rw [hs] at h
  simp only at h
  subst h
  cases sts with
  | nil => simp [statusLoop]
  | cons a l => simp

theorem Stop_of_mgr_error (ops : MgrOps M) (w : windowsJobSupervisor M) (err : Error)
    (h : (ops.Stop w.mgr).1 = some err) :
    w.Stop ops = (some (WrapError err "Stopping services"),
      { w.log .mgrStop with mgr := (ops.Stop w.mgr).2 }) := by
  unfold windowsJobSupervisor.Stop
  rcases hs : ops.Stop w.mgr with ⟨r, m⟩
  rw [hs] at h
  simp only at h
  subst h
  rfl

theorem Start_of_mgr_error (ops : MgrOps M) (w : windowsJobSupervisor M) (err : Error)
    (h : (ops.Start (ops.DisableAgentAutoStart w.mgr)).1 = some err) :
    w.Start ops = (some (WrapError err "Starting windows job process"),
      { (w.log .mgrDisableAgentAutoStart).log .mgrStart with
        mgr := (ops.Start (ops.DisableAgentAutoStart w.mgr)).2 }) := by
  unfold windowsJobSupervisor.Start
  dsimp only
  rcases hs : ops.Start (ops.DisableAgentAutoStart w.mgr) with ⟨r, m⟩
  rw [hs] at h
  simp only at h
  subst h
  rfl

/-- Every error of `Stop` is an error wrapped with one of its two
descriptions. -/
theorem Stop_error_wrapped (ops : MgrOps M) (w : windowsJobSupervisor M) (err : Error)
    (h : (w.Stop ops).1 = some err) :
    ∃ e, err = WrapError e "Stopping services" ∨ err = WrapError e "Removing stop services" := by
  unfold windowsJobSupervisor.Stop at h
  split at h
  · rename_i e m _
    exact ⟨e, Or.inl (Option.some.inj h).symm⟩
  · dsimp only at h
    split at h
    · rename_i e fs _
      exact ⟨e, Or.inr (Option.some.inj h).symm⟩
    · simp at h

/-- Every error of `Start` is an error wrapped with one of its two
descriptions. -/
theorem Start_error_wrapped (ops : MgrOps M) (w : windowsJobSupervisor M) (err : Error)
    (h : (w.Start ops).1 = some err) :
    ∃ e, err = WrapError e "Starting windows job process" ∨
      err = WrapError e "Removing stopped file" := by
  unfold windowsJobSupervisor.Start at h
  dsimp only at h
  split at h
  · rename_i e m _
    exact ⟨e, Or.inl (Option.some.inj h).symm⟩
  · split at h
    · rename_i e fs _
      exact ⟨e, Or.inr (Option.some.inj h).symm⟩
    · simp at h

theorem WrapError_length (e desc : String) : (WrapError e desc).length = desc.length + 2 + e.length := by
  simp [WrapError, String.length_append]
  rfl

theorem WrapError_ne_self (e desc : String) : WrapError e desc ≠ e := by
  intro h
  have hlen := congrArg String.length h
  rw [WrapError_length] at hlen
  omega

/-- C21, as stated, fails: with no owned service and the stopped marker file
present, `Processes` returns the empty list but `Status` returns "stopped",
not "running". -/
theorem C21_counterexample :
    ((listMgr none).Status (testSupervisor [("C:\\var\\vcap\\monit\\stopped", "")] []).mgr).1 =
        .ok [] ∧
      ((testSupervisor [("C:\\var\\vcap\\monit\\stopped", "")] []).Processes (listMgr none)).1 =
        .ok [] ∧
      ((testSupervisor [("C:\\var\\vcap\\monit\\stopped", "")] []).Status (listMgr none)).1 =
        "stopped" ∧
      ((testSupervisor [("C:\\var\\vcap\\monit\\stopped", "")] []).Status (listMgr none)).1 ≠
        "running" := by
  decide

/-- C21 (amended): when the status query succeeds, `Processes` returns one
entry per owned service in the order of the query result, each with the name
of the service, the textual state of its native state and zero vitals; the
textual state mapping sends the seven native states to "stopped",
"starting", "stop_pending", "running", "continue_pending", "pause_pending"
and "paused" and is one-to-one on them; with no owned service the list is
empty and, when the stopped marker file is absent, `Status` returns
"running"; when the query fails `Processes` returns no list and an error. -/
theorem C21_processes (ops : MgrOps M) (w : windowsJobSupervisor M) :
    (∀ sts, (ops.Status w.mgr).1 = .ok sts →
        (w.Processes ops).1 =
          .ok (sts.map (fun st =>
            { Name := st.Name, State := SvcStateString st.State,
              Uptime := { Secs := 0 }, Memory := { Kb := 0, Percent := 0 },
              CPU := { Total := 0 } })) ∧
        ∀ procs, (w.Processes ops).1 = .ok procs → procs.length = sts.length) ∧
      nativeStates.map SvcStateString =
        ["stopped", "starting", "stop_pending", "running", "continue_pending",
          "pause_pending", "paused"] ∧
      (∀ s ∈ nativeStates, ∀ t ∈ nativeStates, SvcStateString s = SvcStateString t → s = t) ∧
      ((ops.Status w.mgr).1 = .ok [] →
        (w.Processes ops).1 = .ok [] ∧
          (w.fs.FileExists w.stoppedFilePath = false → (w.Status ops).1 = "running")) ∧
      (∀ err, (ops.Status w.mgr).1 = .error err →
        (w.Processes ops).1 = .error (WrapError err "Getting windows job process status")) := by
  refine ⟨?_, by decide, by decide, ?_, fun err h => Processes_of_error ops w err h⟩
  · intro sts h
    have hp := Processes_of_ok ops w sts h
    refine ⟨hp, ?_⟩
    intro procs hprocs
    rw [hp] at hprocs
    rw [← Except.ok.inj hprocs, List.length_map]
  · intro h
    refine ⟨Processes_of_ok ops w [] h, ?_⟩
    intro hmarker
    rw [Status_of_no_marker_ok ops w [] hmarker h]
    rfl

/-- C21 (amended) at a supervisor with a running and a stopped service and
at one with no service and no marker file. -/
theorem C21_processes_witness :
    ((testSupervisor [] [⟨"a", svc.Running⟩, ⟨"b", svc.Stopped⟩]).Processes (listMgr none)).1 =
        .ok [{ Name := "a", State := "running" }, { Name := "b", State := "stopped" }] ∧
      ((testSupervisor [] []).Status (listMgr none)).1 = "running" ∧
      ((testSupervisor [] []).Processes (listMgr (some "access denied"))).1 =
        .error "Getting windows job process status: access denied" :=
  ⟨((C21_processes (listMgr none)
      (testSupervisor [] [⟨"a", svc.Running⟩, ⟨"b", svc.Stopped⟩])).1
      [⟨"a", svc.Running⟩, ⟨"b", svc.Stopped⟩] rfl).1,
    ((C21_processes (listMgr none) (testSupervisor [] [])).2.2.2.1 rfl).2 (by decide),
    (C21_processes (listMgr (some "access denied")) (testSupervisor [] [])).2.2.2.2
      "access denied" rfl⟩

/-- A call of the file system fails with its wrapped error. -/
theorem fsStep_failsWith (call : Call) (op : FileSystem → Option Error × FileSystem)
    (desc : String) :
    failsWith (fsStep call op (fun err => WrapError err desc) : Step M)
      (fun w => (op w.fs).1, desc) := by
  intro w
  unfold fsStep
  rcases h : op w.fs with ⟨_ | err, fs1⟩ <;> simp [h]

/-- A call of the command runner fails with its wrapped error. -/
theorem cmdStep_failsWith (cmd : CmdOps M) (name : String) (args : List String)
    (desc : String) :
    failsWith (cmdStep cmd name args (fun err => WrapError err desc))
      (fun w => (cmd.RunCommand w.mgr name args).1, desc) := by
  intro w
  unfold cmdStep
  rcases h : cmd.RunCommand w.mgr name args with ⟨_ | err, m⟩ <;> simp [h]

/-- A call of the logger does not fail. -/
theorem debugStep_failsWith (format : String) (args : List String) :
    failsWith (debugStep format args : Step M) (fun _ => none, "") := by
  intro w
  rfl

/-- The rendering fails with the wrapped error of the encoder. -/
theorem xmlStep_failsWith (c : Collaborators M) (w0 : windowsJobSupervisor M)
    (jobName : String) (process : WindowsProcess) :
    failsWith (xmlStep c w0 jobName process)
      (fun _ =>
        match c.codecs.xmlEncode
            (process.ServiceWrapperConfig (w0.logPath jobName process)
              w0.jobFailuresServerPort w0.machineIP) with
        | .error err => some err
        | .ok _ => none,
        "Rendering service config template for service '" ++ process.Name ++ "'") := by
  intro w
  unfold xmlStep
  rcases h : c.codecs.xmlEncode (process.ServiceWrapperConfig (w0.logPath jobName process)
    w0.jobFailuresServerPort w0.machineIP) with err | buf <;> simp [h]

/-- Each statement of the loop body fails exactly when its collaborator call
returns an error, and returns that error wrapped with its description. -/
theorem passSteps_failsWith (c : Collaborators M) (w0 : windowsJobSupervisor M)
    (jobName configPath : String) (process : WindowsProcess) :
    List.Forall₂ failsWith (passSteps c w0 jobName configPath process)
      (passFailures c w0 jobName configPath process) := by
  unfold passSteps passFailures installSteps
  exact .cons (fsStep_failsWith _ _ _) (.cons (xmlStep_failsWith c w0 jobName process)
    (.cons (debugStep_failsWith _ _) (.cons (fsStep_failsWith _ _ _)
      (.cons (fsStep_failsWith _ _ _) (.cons (fsStep_failsWith _ _ _)
        (.cons (fsStep_failsWith _ _ _) (.cons (cmdStep_failsWith _ _ _ _) .nil)))))))

/-- The loop body of `AddJob` is its statements in sequence. -/
theorem addJobProcess_eq_runSteps (c : Collaborators M) (jobName configPath : String)
    (process : WindowsProcess) (w : windowsJobSupervisor M) :
    addJobProcess c jobName configPath process w =
      runSteps (passSteps c w jobName configPath process) w := by
  unfold addJobProcess passSteps
  rw [runSteps_cons]
  rcases h1 : fsStep (.fsMkdirAll (w.logPath jobName process) 0o750)
      (fun fs => fs.MkdirAll (w.logPath jobName process) 0o750)
      (fun err => WrapError err ("Creating log directory for service '" ++ process.Name ++
        "'")) w with ⟨_ | err, w1⟩
  · simp only [Option.isSome_none, Bool.false_eq_true, if_false]
    rw [runSteps_cons]
    unfold xmlStep
    rcases hx : c.codecs.xmlEncode (process.ServiceWrapperConfig (w.logPath jobName process)
        w.jobFailuresServerPort w.machineIP) with e | buf
    · simp
    · simp only [Option.isSome_none, Bool.false_eq_true, if_false]
      rw [renderedConfig_of_ok c.codecs w jobName process buf hx]
  · simp

/-- A sequence of statements returns an error exactly when, the statements
before one of them having succeeded, that one returns the error. -/
theorem runSteps_error_iff (steps : List (Step M)) (w : windowsJobSupervisor M) (err : Error) :
    (runSteps steps w).1 = some err ↔
      ∃ k step, steps[k]? = some step ∧ (runSteps (steps.take k) w).1 = none ∧
        (step (runSteps (steps.take k) w).2).1 = some err := by
  induction steps generalizing w with
  | nil => simp [runSteps]
  | cons s rest ih =>
    rw [runSteps_cons]
    by_cases hs : (s w).1.isSome
    · simp only [hs, if_true]
      constructor
      · intro h
        exact ⟨0, s, by simp, rfl, h⟩
      · rintro ⟨k, step, hk, hnone, herr⟩
        cases k with
        | zero =>
          simp only [List.getElem?_cons_zero, Option.some.injEq] at hk
          subst hk
          exact herr
        | succ k =>
          rw [List.take_succ_cons, runSteps_cons] at hnone
          simp only [hs, if_true] at hnone
          rw [hnone] at hs
          simp at hs
    · simp only [hs, Bool.false_eq_true, if_false]
      rw [ih]
      constructor
      · rintro ⟨k, step, hk, hnone, herr⟩
        refine ⟨k + 1, step, by simpa using hk, ?_, ?_⟩
        · rw [List.take_succ_cons, runSteps_cons]
          simp only [hs, Bool.false_eq_true, if_false]
          exact hnone
        · rw [List.take_succ_cons, runSteps_cons]
          simp only [hs, Bool.false_eq_true, if_false]
          exact herr
      · rintro ⟨k, step, hk, hnone, herr⟩
        cases k with
        | zero =>
          simp only [List.getElem?_cons_zero, Option.some.injEq] at hk
          subst hk
          simp only [List.take_zero, runSteps] at herr
          rw [herr] at hs
          simp at hs
        | succ k =>
          rw [List.take_succ_cons, runSteps_cons] at hnone herr
          simp only [hs, Bool.false_eq_true, if_false] at hnone herr
          exact ⟨k, step, by simpa using hk, hnone, herr⟩

/-- A sequence of statements, each failing with the wrapped error of its
collaborator call: it returns an error exactly when, the statements before
one of them having succeeded, the collaborator call of that one returns an
error in the state reached, and the error returned is that error wrapped
with the description of the statement. -/
theorem runSteps_failsWith_iff (steps : List (Step M))
    (rds : List ((windowsJobSupervisor M → Option Error) × String))
    (h : List.Forall₂ failsWith steps rds) (w : windowsJobSupervisor M) (err : Error) :
    (runSteps steps w).1 = some err ↔
      ∃ k rd e, rds[k]? = some rd ∧ (runSteps (steps.take k) w).1 = none ∧
        rd.1 (runSteps (steps.take k) w).2 = some e ∧ err = WrapError e rd.2 := by
  rw [runSteps_error_iff]
  constructor
  · rintro ⟨k, step, hk, hnone, herr⟩
    have hlen := h.length_eq
    have hklt : k < steps.length := (List.getElem?_eq_some_iff.mp hk).1
    have hkr : k < rds.length := by omega
    have hrel : failsWith step rds[k] := by
      have := List.Forall₂.get h hklt hkr
      simp only [List.get_eq_getElem] at this
      rw [(List.getElem?_eq_some_iff.mp hk).2] at this
      exact this
    rw [hrel] at herr
    rcases hr : rds[k].1 (runSteps (steps.take k) w).2 with _ | e
    · rw [hr] at herr
      simp at herr
    · rw [hr] at herr
      simp only [Option.map_some', Option.some.injEq] at herr
      exact ⟨k, rds[k], e, List.getElem?_eq_getElem hkr, hnone, hr, herr.symm⟩
  · rintro ⟨k, rd, e, hk, hnone, hr, rfl⟩
    have hlen := h.length_eq
    have hkr : k < rds.length := (List.getElem?_eq_some_iff.mp hk).1
    have hklt : k < steps.length := by omega
    have hrel : failsWith steps[k] rd := by
      have := List.Forall₂.get h hklt hkr
      simp only [List.get_eq_getElem] at this
      rw [(List.getElem?_eq_some_iff.mp hk).2] at this
      exact this
    refine ⟨k, steps[k], List.getElem?_eq_getElem hklt, hnone, ?_⟩
    rw [hrel, hr]
    rfl


/-- The errors of `Start`: the wrapped error of the service manager, or, the
service manager having started the services, the wrapped error of the
removal of the marker file. -/
theorem Start_error_iff (ops : MgrOps M) (w : windowsJobSupervisor M) (err : Error) :
    (w.Start ops).1 = some err ↔
      (∃ e, (ops.Start (ops.DisableAgentAutoStart w.mgr)).1 = some e ∧
        err = WrapError e "Starting windows job process") ∨
      ((ops.Start (ops.DisableAgentAutoStart w.mgr)).1 = none ∧
        ∃ e, (w.fs.RemoveAll w.stoppedFilePath).1 = some e ∧
          err = WrapError e "Removing stopped file") := by
  unfold windowsJobSupervisor.Start
  rcases hs : ops.Start (ops.DisableAgentAutoStart w.mgr) with ⟨_ | e, m⟩
  · simp only [windowsJobSupervisor.log, hs]
    rcases hr : w.fs.RemoveAll w.stoppedFilePath with ⟨_ | e, fs⟩
    · have hr' : w.fs.RemoveAll (filepathJoin [w.dirProvider.MonitDir, "stopped"]) =
          (none, fs) := hr
      simp [windowsJobSupervisor.stoppedFilePath, hr']
    · have hr' : w.fs.RemoveAll (filepathJoin [w.dirProvider.MonitDir, "stopped"]) =
          (some e, fs) := hr
      simp only [windowsJobSupervisor.stoppedFilePath, hr', Option.some.injEq]
      constructor
      · intro h
        exact Or.inr ⟨trivial, e, rfl, h.symm⟩
      · rintro (⟨e1, h1, _⟩ | ⟨_, e1, h1, h2⟩)
        · simp at h1
        · rw [h2, h1]
  · simp only [windowsJobSupervisor.log, hs, Option.some.injEq]
    constructor
    · intro h
      exact Or.inl ⟨e, rfl, h.symm⟩
    · rintro (⟨e1, h1, h2⟩ | ⟨h1, _⟩)
      · rw [h2, h1]
      · simp at h1

/-- The errors of `Stop`: the wrapped error of the service manager, or, the
service manager having stopped the services, the wrapped error of the write
of the marker file. -/
theorem Stop_error_iff (ops : MgrOps M) (w : windowsJobSupervisor M) (err : Error) :
    (w.Stop ops).1 = some err ↔
      (∃ e, (ops.Stop w.mgr).1 = some e ∧ err = WrapError e "Stopping services") ∨
      ((ops.Stop w.mgr).1 = none ∧
        ∃ e, (w.fs.WriteFileString w.stoppedFilePath "").1 = some e ∧
          err = WrapError e "Removing stop services") := by
  unfold windowsJobSupervisor.Stop
  rcases hs : ops.Stop w.mgr with ⟨_ | e, m⟩
  · simp only [windowsJobSupervisor.log]
    rcases hr : w.fs.WriteFileString w.stoppedFilePath "" with ⟨_ | e, fs⟩
    · have hr' : w.fs.WriteFileString (filepathJoin [w.dirProvider.MonitDir, "stopped"]) "" =
          (none, fs) := hr
      simp [windowsJobSupervisor.stoppedFilePath, hr']
    · have hr' : w.fs.WriteFileString (filepathJoin [w.dirProvider.MonitDir, "stopped"]) "" =
          (some e, fs) := hr
      simp only [windowsJobSupervisor.stoppedFilePath, hr', Option.some.injEq]
      constructor
      · intro h
        exact Or.inr ⟨trivial, e, rfl, h.symm⟩
      · rintro (⟨e1, h1, _⟩ | ⟨_, e1, h1, h2⟩)
        · simp at h1
        · rw [h2, h1]
  · simp only [windowsJobSupervisor.log, Option.some.injEq]
    constructor
    · intro h
      exact Or.inl ⟨e, rfl, h.symm⟩
    · rintro (⟨e1, h1, h2⟩ | ⟨h1, _⟩)
      · rw [h2, h1]
      · simp at h1

/-- The errors of `Processes`: the wrapped error of the status query. -/
theorem Processes_error_iff (ops : MgrOps M) (w : windowsJobSupervisor M) (err : Error) :
    (w.Processes ops).1 = .error err ↔
      ∃ e, (ops.Status w.mgr).1 = .error e ∧
        err = WrapError e "Getting windows job process status" := by
  unfold windowsJobSupervisor.Processes
  rcases hs : ops.Status w.mgr with ⟨e | sts, m⟩
  · simp only [Except.error.injEq]
    constructor
    · intro h
      exact ⟨e, rfl, h.symm⟩
    · rintro ⟨e1, h1, h2⟩
      rw [h2, ← h1]
  · simp

/-- The errors of the loop of `AddJob`: the error of the pass for a process,
the passes for the processes before it having succeeded. -/
theorem addJobLoop_error_iff (c : Collaborators M) (jobName configPath : String)
    (procs : List WindowsProcess) (w : windowsJobSupervisor M) (err : Error) :
    (runSteps (procs.map (addJobProcess c jobName configPath)) w).1 = some err ↔
      ∃ k pk, procs[k]? = some pk ∧
        (runSteps ((procs.take k).map (addJobProcess c jobName configPath)) w).1 = none ∧
        (addJobProcess c jobName configPath pk
          (runSteps ((procs.take k).map (addJobProcess c jobName configPath)) w).2).1 =
            some err := by
  rw [runSteps_error_iff]
  constructor
  · rintro ⟨k, step, hk, hnone, herr⟩
    rw [List.getElem?_map] at hk
    rcases hp : procs[k]? with _ | pk
    · rw [hp] at hk
      simp at hk
    · rw [hp] at hk
      simp only [Option.map_some', Option.some.injEq] at hk
      subst hk
      rw [← List.map_take] at hnone herr
      exact ⟨k, pk, hp, hnone, herr⟩
  · rintro ⟨k, pk, hk, hnone, herr⟩
    refine ⟨k, addJobProcess c jobName configPath pk, ?_, ?_, ?_⟩
    · rw [List.getElem?_map, hk]
      rfl
    · rw [← List.map_take]
      exact hnone
    · rw [← List.map_take]
      exact herr


/-- C22, as stated, fails: when the service manager fails with `access
denied`, `Unmonitor` and `RemoveAllJobs` return that error alone, which is
not that error wrapped with any description; and `AddJob` returns alone the
error `disk full` of the read of the config file and the error of the
decoder on a malformed manifest. -/
theorem C22_counterexample :
    ((listMgr (some "access denied")).Unmonitor (testSupervisor [] []).mgr).1 =
        some "access denied" ∧
      ((testSupervisor [] []).Unmonitor (listMgr (some "access denied"))).1 =
        some "access denied" ∧
      ((testSupervisor [] []).RemoveAllJobs (listMgr (some "access denied"))).1 =
        some "access denied" ∧
      (¬ ∃ desc, ((testSupervisor [] []).Unmonitor (listMgr (some "access denied"))).1 =
        some (WrapError "access denied" desc)) ∧
      ((faultySupervisor [some "disk full"]).fs.ReadFile "C:\\jobs\\say-hello\\monit").1 =
        .error "disk full" ∧
      ((faultySupervisor [some "disk full"]).AddJob (testCollaborators none) "say-hello" 0
        "C:\\jobs\\say-hello\\monit").1 = some "disk full" ∧
      testCodecs.unmarshalConfig "some bad manifest" = .error "invalid character in JSON text" ∧
      ((testSupervisor (jobFiles "some bad manifest") []).AddJob (testCollaborators none)
        "say-hello" 0 "C:\\jobs\\say-hello\\monit").1 =
        some "invalid character in JSON text" := by
  refine ⟨by decide, by decide, by decide, ?_, by decide, by decide, by decide, by decide⟩
  rintro ⟨desc, h⟩
  have h1 : ((testSupervisor [] []).Unmonitor (listMgr (some "access denied"))).1 =
      some "access denied" := by decide
  rw [h1] at h
  exact WrapError_ne_self "access denied" desc (Option.some.inj h).symm

/-- C22 (amended): `Start`, `Stop`, `StopAndWait` and `Processes` return an
error exactly when one of their collaborator calls returns an error `e`, the
calls before it having succeeded, and the error they return is `e` wrapped
with the description of the operation attempted, never `e` alone; so does
each pass of the loop of `AddJob` for a process, whose statements each return
the error of their collaborator call, in the state reached, wrapped with
their description; `AddJob` returns the error of the first failing pass.
`AddJob` returns the error of the read of the config file and the error of
its decoding as they are, and `Unmonitor` and `RemoveAllJobs` return the
error of the service manager as it is. -/
theorem C22_error_wrapping (c : Collaborators M) (w : windowsJobSupervisor M) :
    (∀ err, (w.Start c.mgr).1 = some err ↔
      (∃ e, (c.mgr.Start (c.mgr.DisableAgentAutoStart w.mgr)).1 = some e ∧
        err = WrapError e "Starting windows job process") ∨
      ((c.mgr.Start (c.mgr.DisableAgentAutoStart w.mgr)).1 = none ∧
        ∃ e, (w.fs.RemoveAll w.stoppedFilePath).1 = some e ∧
          err = WrapError e "Removing stopped file")) ∧
    (∀ err, (w.Stop c.mgr).1 = some err ↔
      (∃ e, (c.mgr.Stop w.mgr).1 = some e ∧ err = WrapError e "Stopping services") ∨
      ((c.mgr.Stop w.mgr).1 = none ∧
        ∃ e, (w.fs.WriteFileString w.stoppedFilePath "").1 = some e ∧
          err = WrapError e "Removing stop services")) ∧
    w.StopAndWait c.mgr = w.Stop c.mgr ∧
    (∀ err, (w.Processes c.mgr).1 = .error err ↔
      ∃ e, (c.mgr.Status w.mgr).1 = .error e ∧
        err = WrapError e "Getting windows job process status") ∧
    (∀ jobName configPath process err,
      (addJobProcess c jobName configPath process w).1 = some err ↔
        ∃ k rd e, (passFailures c w jobName configPath process)[k]? = some rd ∧
          (runSteps ((passSteps c w jobName configPath process).take k) w).1 = none ∧
          rd.1 (runSteps ((passSteps c w jobName configPath process).take k) w).2 = some e ∧
          err = WrapError e rd.2) ∧
    (∀ jobName configPath process,
      addJobProcess c jobName configPath process w =
          runSteps (passSteps c w jobName configPath process) w ∧
        List.Forall₂ failsWith (passSteps c w jobName configPath process)
          (passFailures c w jobName configPath process)) ∧
    (∀ jobName jobIndex configPath content procs,
      (w.fs.ReadFile configPath).1 = .ok content → content ≠ "" →
      c.codecs.unmarshalConfig content = .ok { Processes := procs } →
      ∀ err, (w.AddJob c jobName jobIndex configPath).1 = some err ↔
        ∃ k pk, procs[k]? = some pk ∧
          (runSteps ((procs.take k).map (addJobProcess c jobName configPath))
            (w.afterRead configPath)).1 = none ∧
          (addJobProcess c jobName configPath pk
            (runSteps ((procs.take k).map (addJobProcess c jobName configPath))
              (w.afterRead configPath)).2).1 = some err) ∧
    (∀ e d, WrapError e d ≠ e) ∧
    (∀ jobName jobIndex configPath e, (w.fs.ReadFile configPath).1 = .error e →
      (w.AddJob c jobName jobIndex configPath).1 = some e) ∧
    (∀ jobName jobIndex configPath content e,
      (w.fs.ReadFile configPath).1 = .ok content → content ≠ "" →
      c.codecs.unmarshalConfig content = .error e →
      (w.AddJob c jobName jobIndex configPath).1 = some e) ∧
    (w.Unmonitor c.mgr).1 = (c.mgr.Unmonitor w.mgr).1 ∧
    (w.RemoveAllJobs c.mgr).1 = (c.mgr.Delete w.mgr).1 := by
  refine ⟨fun err => Start_error_iff c.mgr w err, fun err => Stop_error_iff c.mgr w err, rfl,
    fun err => Processes_error_iff c.mgr w err, ?_, ?_, ?_, WrapError_ne_self, ?_, ?_, rfl,
    rfl⟩
  · intro jobName configPath process err
    rw [addJobProcess_eq_runSteps]
    exact runSteps_failsWith_iff _ _ (passSteps_failsWith c w jobName configPath process) w err
  · intro jobName configPath process
    exact ⟨addJobProcess_eq_runSteps c jobName configPath process w,
      passSteps_failsWith c w jobName configPath process⟩
  · intro jobName jobIndex configPath content procs hread hne hparse err
    rw [AddJob_of_read c w jobName jobIndex configPath content hread]
    simp only [length_ne_zero_of_ne_empty content hne, if_false, hparse]
    exact addJobLoop_error_iff c jobName configPath procs (w.afterRead configPath) err
  · intro jobName jobIndex configPath e hread
    rw [AddJob_read_error c w jobName jobIndex configPath e hread]
  · intro jobName jobIndex configPath content e hread hne hparse
    rw [AddJob_of_read c w jobName jobIndex configPath content hread]
    simp only [length_ne_zero_of_ne_empty content hne, if_false, hparse]

/-- C22 (amended) at a service manager that fails with `access denied`, and
at a file system whose seventh call, the creation of the log directory of
the second process, fails with `disk full`. -/
theorem C22_error_wrapping_witness :
    ((testSupervisor [] []).Start (listMgr (some "access denied"))).1 =
        some "Starting windows job process: access denied" ∧
      ((testSupervisor [] []).Stop (listMgr (some "access denied"))).1 =
        some "Stopping services: access denied" ∧
      ((faultySupervisor [none, none, none, none, none, none, some "disk full"]).AddJob
        (testCollaborators none) "say-hello" 0 "C:\\jobs\\say-hello\\monit").1 =
        some "Creating log directory for service 'say-hello-2': disk full" :=
  ⟨((C22_error_wrapping (testCollaborators (some "access denied"))
      (testSupervisor [] [])).1 _).mpr (Or.inl ⟨"access denied", rfl, rfl⟩),
    ((C22_error_wrapping (testCollaborators (some "access denied"))
      (testSupervisor [] [])).2.1 _).mpr (Or.inl ⟨"access denied", rfl, rfl⟩),
    ((C22_error_wrapping (testCollaborators none)
      (faultySupervisor [none, none, none, none, none, none, some "disk full"])).2.2.2.2.2.2.1
      "say-hello" 0 "C:\\jobs\\say-hello\\monit" "say-hello" [sayHello1, sayHello2]
      (by decide) (by decide) (by decide) _).mpr
      ⟨1, sayHello2, by decide, by decide, by decide⟩⟩

/-- C23: when the `Stop` call of the service manager fails, `Stop` returns
an error and leaves the file system as it was, so it does not create the
marker file; when the `Start` call of the service manager fails, `Start`
returns an error and leaves the file system, hence the marker file, and the
supervision state as they were. -/
theorem C23_marker_only_on_success (ops : MgrOps M) (w : windowsJobSupervisor M) :
    (∀ e, (ops.Stop w.mgr).1 = some e →
        (w.Stop ops).1 = some (WrapError e "Stopping services") ∧
          (w.Stop ops).2.fs = w.fs ∧
          (w.Stop ops).2.fs.FileExists w.stoppedFilePath =
            w.fs.FileExists w.stoppedFilePath ∧
          (w.Stop ops).2.trace = w.trace ++ [Call.mgrStop]) ∧
      (∀ e, (ops.Start (ops.DisableAgentAutoStart w.mgr)).1 = some e →
        (w.Start ops).1 = some (WrapError e "Starting windows job process") ∧
          (w.Start ops).2.fs = w.fs ∧
          (w.Start ops).2.fs.FileExists w.stoppedFilePath =
            w.fs.FileExists w.stoppedFilePath ∧
          (w.Start ops).2.state = w.state ∧
          (w.Start ops).2.trace = w.trace ++ [Call.mgrDisableAgentAutoStart, Call.mgrStart]) := by
  constructor
  · intro e h
    rw [Stop_of_mgr_error ops w e h]
    exact ⟨rfl, rfl, rfl, rfl⟩
  · intro e h
    rw [Start_of_mgr_error ops w e h]
    refine ⟨rfl, rfl, rfl, rfl, ?_⟩
    simp [windowsJobSupervisor.log]

/-- C23 at a stopped supervisor whose service manager fails: `Start` keeps
the marker file; and at a running one: `Stop` does not create it. -/
theorem C23_marker_only_on_success_witness :
    ((testSupervisor [("C:\\var\\vcap\\monit\\stopped", "")] []).Start
        (listMgr (some "access denied"))).2.fs.FileExists
        (testSupervisor [("C:\\var\\vcap\\monit\\stopped", "")] []).stoppedFilePath = true ∧
      ((testSupervisor [] []).Stop (listMgr (some "access denied"))).2.fs.FileExists
        (testSupervisor [] []).stoppedFilePath = false :=
  ⟨((C23_marker_only_on_success (listMgr (some "access denied"))
      (testSupervisor [("C:\\var\\vcap\\monit\\stopped", "")] [])).2 "access denied"
      rfl).2.2.1.trans (by decide),
    ((C23_marker_only_on_success (listMgr (some "access denied"))
      (testSupervisor [] [])).1 "access denied" rfl).2.2.1.trans (by decide)⟩

/-- C27: while the supervisor is unmonitored, the request handler returns
before it decodes the body: whatever the body and whatever the decoder, the
supervisor is left as it is, so the failure handler is not invoked and no
error is logged. -/
theorem C27_unmonitored_drops_requests (codecs : Codecs) (w : windowsJobSupervisor M)
    (body now : String) (hoff : w.state = .stateDisabled) :
    w.handleRequest codecs body now = w ∧
      (w.handleRequest codecs body now).trace = w.trace ∧
      (∀ codecs1 : Codecs, w.handleRequest codecs1 body now = w.handleRequest codecs body now) := by
  have h := handleRequest_disabled codecs w body now hoff
  refine ⟨h, by rw [h], ?_⟩
  intro codecs1
  rw [h, handleRequest_disabled codecs1 w body now hoff]

/-- C27 at an unmonitored supervisor, for the failure request of the tests
and for a body that is not JSON. -/
theorem C27_unmonitored_drops_requests_witness :
    (((testSupervisor [] []).Unmonitor (listMgr none)).2.handleRequest testCodecs
        failureRequest "Mon, 02 Jan 2006 15:04:05 -0700").trace = [Call.mgrUnmonitor] ∧
      (((testSupervisor [] []).Unmonitor (listMgr none)).2.handleRequest testCodecs
        "some bad request" "Mon, 02 Jan 2006 15:04:05 -0700").trace = [Call.mgrUnmonitor] :=
  ⟨(C27_unmonitored_drops_requests testCodecs ((testSupervisor [] []).Unmonitor (listMgr none)).2
      failureRequest "Mon, 02 Jan 2006 15:04:05 -0700" rfl).2.1.trans (by decide),
    (C27_unmonitored_drops_requests testCodecs ((testSupervisor [] []).Unmonitor (listMgr none)).2
      "some bad request" "Mon, 02 Jan 2006 15:04:05 -0700" rfl).2.1.trans (by decide)⟩

end jobsupervisor

namespace windisk

/-! ## `replaceCR` -/

theorem take_succ_set (l : List Nat) (n c : Nat) (h : n < l.length) :
    (l.set n c).take (n + 1) = l.take n ++ [c] := by
  induction l generalizing n with
  | nil => simp at h
  | cons a l ih =>
    cases n with
    | zero => simp
    | succ n =>
      simp only [List.set_cons_succ, List.take_succ_cons, List.cons_append, List.cons.injEq,
        true_and]
      exact ih n (by simpa using h)

theorem drop_set_of_lt (l : List Nat) (n k c : Nat) (h : n < k) :
    (l.set n c).drop k = l.drop k := by
  induction l generalizing n k with
  | nil => simp
  | cons a l ih =>
    cases k with
    | zero => omega
    | succ k =>
      cases n with
      | zero => simp
      | succ n =>
        simp only [List.set_cons_succ, List.drop_succ_cons]
        exact ih n k (by omega)

theorem getElem?_of_drop_eq (l b : List Nat) (i : Nat) (h : l.drop i = b.drop i) :
    l[i]? = b[i]? := by
  have h1 : (l.drop i)[0]? = (b.drop i)[0]? := by rw [h]
  simpa [List.getElem?_drop] using h1

/-- The state of the loop of `replaceCR` after the first `i` iterations: the
slice has kept its length, its first `n` elements are the elements other
than the carriage return among the first `i` of the input, and its elements
from `i` on are untouched. -/
theorem replaceCR_loop (b : List Nat) (i : Nat) (hi : i ≤ b.length) :
    ((List.range i).foldl replaceCRStep (b, 0)).1.length = b.length ∧
      ((List.range i).foldl replaceCRStep (b, 0)).2 ≤ i ∧
      ((List.range i).foldl replaceCRStep (b, 0)).1.take
          ((List.range i).foldl replaceCRStep (b, 0)).2 =
        (b.take i).filter (fun c => c ≠ 13) ∧
      ((List.range i).foldl replaceCRStep (b, 0)).1.drop i = b.drop i := by
  induction i with
  | zero => simp
  | succ i ih =>
    obtain ⟨hlen, hn, htake, hdrop⟩ := ih (by omega)
    rw [List.range_succ, List.foldl_append, List.foldl_cons, List.foldl_nil]
    generalize (List.range i).foldl replaceCRStep (b, 0) = st at hlen hn htake hdrop
    obtain ⟨a, n⟩ := st
    simp only at hlen hn htake hdrop
    have hget : a[i]? = b[i]? := getElem?_of_drop_eq a b i hdrop
    have hbi : b[i]? = some b[i] := List.getElem?_eq_getElem (by omega)
    have htk : b.take (i + 1) = b.take i ++ [b[i]] := by
      rw [List.take_succ, hbi]; rfl
    unfold replaceCRStep
    simp only [hget, hbi, Option.getD_some]
    by_cases hc : b[i] = 13
    · simp only [hc, ne_eq, not_true_eq_false, if_false]
      refine ⟨hlen, by omega, ?_, ?_⟩
      · rw [htake, htk, List.filter_append, hc]
        simp
      · rw [← List.drop_drop 1 i a, hdrop, List.drop_drop]
    · simp only [ne_eq, hc, not_false_eq_true, if_true]
      refine ⟨by simp [hlen], by omega, ?_, ?_⟩
      · rw [take_succ_set a n b[i] (by omega), htake, htk, List.filter_append]
        simp [hc]
      · rw [drop_set_of_lt a n (i + 1) b[i] (by omega), ← List.drop_drop 1 i a, hdrop,
          List.drop_drop]

theorem replaceCR_eq_filter (b : List Nat) : replaceCR b = b.filter (fun c => c ≠ 13) := by
  unfold replaceCR
  have h := (replaceCR_loop b b.length (Nat.le_refl _)).2.2.1
  simp only [List.take_length] at h
  exact h

/-- C30: `replaceCR(b)` is `b` with every carriage-return byte removed and
the other bytes kept in their order; hence it is a sublist of `b` of length
at most `len(b)`, it contains no carriage return, and applying `replaceCR`
twice gives what applying it once gives. -/
theorem C30_replaceCR (b : List Nat) :
    replaceCR b = b.filter (fun c => c ≠ 13) ∧
      (replaceCR b).Sublist b ∧
      (replaceCR b).length ≤ b.length ∧
      13 ∉ replaceCR b ∧
      (∀ c, c ≠ 13 → (replaceCR b).count c = b.count c) ∧
      replaceCR (replaceCR b) = replaceCR b := by
  have h := replaceCR_eq_filter b
  refine ⟨h, ?_, ?_, ?_, ?_, ?_⟩
  · rw [h]; exact List.filter_sublist b
  · rw [h]; exact List.length_filter_le _ b
  · rw [h]; simp
  · intro c hc
    rw [h, List.count_filter]
    simp [hc]
  · rw [replaceCR_eq_filter (replaceCR b), h, List.filter_filter]
    simp


/-! ## The unsigned-integer parsers -/

theorem char_le_iff (a b : Char) : a ≤ b ↔ a.toNat ≤ b.toNat := by
  simp only [Char.le_def, UInt32.le_def, BitVec.le_def]
  rfl

theorem isDigit_iff (d : Char) : d.isDigit = true ↔ 48 ≤ d.toNat ∧ d.toNat ≤ 57 := by
  simp only [Char.isDigit, Bool.and_eq_true, decide_eq_true_eq, ge_iff_le, UInt32.le_def,
    BitVec.le_def]
  rfl

theorem digitVal_of_isDigit (d : Char) (h : d.isDigit = true) :
    digitVal d = some (d.toNat - '0'.toNat) ∧ d.toNat - '0'.toNat ≤ 9 := by
  have hd := (isDigit_iff d).mp h
  have h0 : '0'.toNat = 48 := rfl
  have h9 : '9'.toNat = 57 := rfl
  have h1 : '0' ≤ d ∧ d ≤ '9' := by
    rw [char_le_iff, char_le_iff, h0, h9]
    exact hd
  simp only [digitVal, h1, and_self, if_true]
  exact ⟨trivial, by omega⟩

theorem digitVal_of_not_isDigit (d : Char) (h : ¬ d.isDigit = true) :
    digitVal d = none ∨ ∃ v, digitVal d = some v ∧ v ≥ 10 := by
  have hd : ¬ (48 ≤ d.toNat ∧ d.toNat ≤ 57) := fun hh => h ((isDigit_iff d).mpr hh)
  have h0 : '0'.toNat = 48 := rfl
  have h9 : '9'.toNat = 57 := rfl
  have h1 : ¬ ('0' ≤ d ∧ d ≤ '9') := by
    rw [char_le_iff, char_le_iff, h0, h9]
    exact hd
  unfold digitVal
  simp only [h1, if_false]
  split
  · exact Or.inr ⟨_, rfl, by omega⟩
  · split
    · exact Or.inr ⟨_, rfl, by omega⟩
    · exact Or.inl rfl

theorem foldl_digits_ge (ds : List Char) (n : Nat) :
    n ≤ ds.foldl (fun acc d => acc * 10 + (d.toNat - '0'.toNat)) n := by
  induction ds generalizing n with
  | nil => exact Nat.le_refl n
  | cons d rest ih =>
    rw [List.foldl_cons]
    exact Nat.le_trans (by omega) (ih _)

/-- On decimal digits the loop of `ParseUint` computes the number they
write after `n`, and reports a range error exactly when that number exceeds
`maxVal`. -/
theorem parseUintLoop_digits (maxVal : Nat) (hmax : maxVal < 2 ^ 64) (ds : List Char)
    (hds : ∀ d ∈ ds, d.isDigit = true) (n : Nat) (hn : n ≤ maxVal) :
    parseUintLoop maxVal ds n =
      if ds.foldl (fun acc d => acc * 10 + (d.toNat - '0'.toNat)) n ≤ maxVal then
        (ds.foldl (fun acc d => acc * 10 + (d.toNat - '0'.toNat)) n, none)
      else (maxUint64, some .ErrRange) := by
  have h64 : (2 : Nat) ^ 64 = 18446744073709551616 := by norm_num
  induction ds generalizing n with
  | nil => simp [parseUintLoop, hn]
  | cons d rest ih =>
    obtain ⟨hv, hv9⟩ := digitVal_of_isDigit d (hds d (List.mem_cons_self _ _))
    have hmono := foldl_digits_ge rest (n * 10 + (d.toNat - '0'.toNat))
    rw [List.foldl_cons]
    unfold parseUintLoop
    simp only [hv]
    have hcut : maxUint64 / 10 + 1 = 1844674407370955162 := by
      unfold maxUint64; norm_num
    rw [hcut, h64]
    rw [h64] at hmax
    generalize d.toNat - '0'.toNat = v at hv9 hmono ⊢
    have hv10 : ¬ v ≥ 10 := by omega
    simp only [hv10, if_false]
    by_cases hc : n ≥ 1844674407370955162
    · have hbig : ¬ rest.foldl (fun acc d => acc * 10 + (d.toNat - '0'.toNat)) (n * 10 + v) ≤
          maxVal := by omega
      simp only [hc, if_true, hbig, if_false]
    · simp only [hc, if_false]
      by_cases hr : (n * 10 % 18446744073709551616 + v) % 18446744073709551616 <
          n * 10 % 18446744073709551616 ∨
          (n * 10 % 18446744073709551616 + v) % 18446744073709551616 > maxVal
      · have hbig : ¬ rest.foldl (fun acc d => acc * 10 + (d.toNat - '0'.toNat))
            (n * 10 + v) ≤ maxVal := by omega
        simp only [hr, if_true, hbig, if_false]
      · simp only [hr, if_false]
        have heq : (n * 10 % 18446744073709551616 + v) % 18446744073709551616 = n * 10 + v := by
          omega
        rw [heq]
        exact ih (fun d hd => hds d (List.mem_cons_of_mem _ hd)) (n * 10 + v) (by omega)

/-- On a text that is not made of decimal digits only, the loop of
`ParseUint` fails: with a syntax error, or with a range error and the value
`maxUint64`. -/
theorem parseUintLoop_not_digits (maxVal : Nat) (ds : List Char)
    (hds : ¬ ∀ d ∈ ds, d.isDigit = true) (n : Nat) :
    parseUintLoop maxVal ds n = (0, some .ErrSyntax) ∨
      parseUintLoop maxVal ds n = (maxUint64, some .ErrRange) := by
  induction ds generalizing n with
  | nil => simp at hds
  | cons d rest ih =>
    unfold parseUintLoop
    by_cases hd : d.isDigit = true
    · have hrest : ¬ ∀ d ∈ rest, d.isDigit = true := by
        intro h
        apply hds
        intro c hc
        rcases List.mem_cons.mp hc with rfl | hc
        · exact hd
        · exact h c hc
      obtain ⟨hv, _⟩ := digitVal_of_isDigit d hd
      simp only [hv]
      split
      · exact Or.inl rfl
      · split
        · exact Or.inr rfl
        · split
          · exact Or.inr rfl
          · exact ih hrest _
    · rcases digitVal_of_not_isDigit d hd with hnone | ⟨v, hv, hv10⟩
      · simp only [hnone]
        exact Or.inl trivial
      · simp only [hv, hv10, if_true]
        exact Or.inl trivial


theorem ParseUint_digits (N : Nat) (hN : N = 16 ∨ N = 32 ∨ N = 64) (ds : List Char)
    (hne : ds ≠ []) (hds : ds.all Char.isDigit = true) :
    ParseUint ds N =
      if digitsValue ds ≤ 2 ^ N - 1 then (digitsValue ds, none)
      else (maxUint64, some .ErrRange) := by
  have hlen : ¬ ds.length < 1 := by
    cases ds with
    | nil => exact absurd rfl hne
    | cons a l => simp
  have hmod : (2 ^ N - 1) % 2 ^ 64 = 2 ^ N - 1 := by
    rcases hN with rfl | rfl | rfl <;> norm_num
  have hlt : 2 ^ N - 1 < 2 ^ 64 := by
    rcases hN with rfl | rfl | rfl <;> norm_num
  unfold ParseUint
  simp only [hlen, if_false, hmod]
  exact parseUintLoop_digits (2 ^ N - 1) hlt ds (by simpa using hds) 0 (Nat.zero_le _)

theorem ParseUint_not_digits (N : Nat) (ds : List Char)
    (h : ¬ (ds ≠ [] ∧ ds.all Char.isDigit = true)) :
    ParseUint ds N = (0, some .ErrSyntax) ∨ ParseUint ds N = (maxUint64, some .ErrRange) := by
  unfold ParseUint
  by_cases hlen : ds.length < 1
  · simp only [hlen, if_true]
    exact Or.inl trivial
  · simp only [hlen, if_false]
    have hne : ds ≠ [] := by
      intro h0
      rw [h0] at hlen
      simp at hlen
    have hall : ¬ ∀ d ∈ ds, d.isDigit = true := by
      intro hall
      exact h ⟨hne, by simpa using hall⟩
    exact parseUintLoop_not_digits _ ds hall 0

theorem signedResult_of_bad_text (s : String) (N : Nat) (neg : Bool) (n : Int) :
    signedResult s N neg (0, some .ErrSyntax) ≠ .ok n := by
  simp [signedResult]

theorem signedResult_range (s : String) (N : Nat) (hN : N = 16 ∨ N = 32 ∨ N = 64) (neg : Bool)
    (n : Int) : signedResult s N neg (maxUint64, some .ErrRange) ≠ .ok n := by
  rcases hN with rfl | rfl | rfl <;> cases neg <;> simp [signedResult, maxUint64]

theorem signedResult_value (s : String) (N : Nat) (hN : N = 16 ∨ N = 32 ∨ N = 64) (neg : Bool)
    (V : Nat) (hV : V ≤ 2 ^ N - 1) (n : Int) :
    signedResult s N neg (V, none) = .ok n ↔
      n = (if neg then -(V : Int) else (V : Int)) ∧ -(2 : Int) ^ (N - 1) ≤ n ∧
        n < (2 : Int) ^ (N - 1) := by
  rcases hN with rfl | rfl | rfl <;> cases neg <;>
    simp only [signedResult, toInt64, Bool.false_eq_true, not_false_eq_true, true_and,
      false_and, if_false, not_true_eq_false, if_true, Nat.reducePow, Nat.reduceSub,
      Nat.reduceMod, Int.reducePow, Int.reduceNeg] <;>
    norm_num at hV <;>
    split <;> simp only [Except.ok.injEq, reduceCtorEq, false_iff, not_and, not_le, not_lt] <;>
    omega


/-- The end of `ParseInt` succeeds exactly when the text after the sign is
made of one or more decimal digits and the signed number fits the width. -/
theorem signedResult_ParseUint (s : String) (N : Nat) (hN : N = 16 ∨ N = 32 ∨ N = 64)
    (neg : Bool) (ds : List Char) (n : Int) :
    signedResult s N neg (ParseUint ds N) = .ok n ↔
      (ds ≠ [] ∧ ds.all Char.isDigit = true) ∧
        n = (if neg then -(digitsValue ds : Int) else (digitsValue ds : Int)) ∧
        -(2 : Int) ^ (N - 1) ≤ n ∧ n < (2 : Int) ^ (N - 1) := by
  by_cases hds : ds ≠ [] ∧ ds.all Char.isDigit = true
  · rw [ParseUint_digits N hN ds hds.1 hds.2]
    by_cases hV : digitsValue ds ≤ 2 ^ N - 1
    · simp only [hV, if_true]
      rw [signedResult_value s N hN neg _ hV n]
      simp [hds]
    · simp only [hV, if_false]
      constructor
      · intro h
        exact absurd h (signedResult_range s N hN neg n)
      · rintro ⟨_, hn, hlo, hhi⟩
        exfalso
        rcases hN with rfl | rfl | rfl <;> cases neg <;>
          simp only [Bool.false_eq_true, if_false, if_true, Nat.reducePow, Nat.reduceSub,
            Int.reducePow] at hn hlo hhi hV <;> omega
  · have hfalse : ¬ ((ds ≠ [] ∧ ds.all Char.isDigit = true) ∧
        n = (if neg then -(digitsValue ds : Int) else (digitsValue ds : Int)) ∧
        -(2 : Int) ^ (N - 1) ≤ n ∧ n < (2 : Int) ^ (N - 1)) := fun h => hds h.1
    rcases ParseUint_not_digits N ds hds with h | h
    · rw [h]
      exact iff_of_false (signedResult_of_bad_text s N neg n) hfalse
    · rw [h]
      exact iff_of_false (signedResult_range s N hN neg n) hfalse

/-- `ParseInt` succeeds exactly on the decimal numerals of the integers of
the signed range of the width, and returns the integer. -/
theorem ParseInt_ok_iff (N : Nat) (hN : N = 16 ∨ N = 32 ∨ N = 64) (s : String) (n : Int) :
    ParseInt s N = .ok n ↔
      numeralValue s = some n ∧ -(2 : Int) ^ (N - 1) ≤ n ∧ n < (2 : Int) ^ (N - 1) := by
  obtain ⟨cs⟩ := s
  cases cs with
  | nil => simp [ParseInt, numeralValue, String.length]
  | cons c rest =>
    have hlen : ¬ (String.mk (c :: rest)).length = 0 := by simp [String.length]
    unfold ParseInt numeralValue
    simp only [hlen, if_false, String.toList, List.head?_cons, List.drop_succ_cons,
      List.drop_zero]
    by_cases hminus : c = '-'
    · subst hminus
      simp only [beq_self_eq_true, or_true, if_true]
      rw [signedResult_ParseUint _ N hN true rest n]
      by_cases hds : rest ≠ [] ∧ rest.all Char.isDigit = true
      · rw [if_pos hds]
        simp only [if_true, Option.some.injEq]
        constructor
        · rintro ⟨_, h1, h2⟩; exact ⟨h1.symm, h2⟩
        · rintro ⟨h1, h2⟩; exact ⟨hds, h1.symm, h2⟩
      · rw [if_neg hds]
        exact iff_of_false (fun h => hds h.1) (fun h => by simp at h)
    · by_cases hplus : c = '+'
      · subst hplus
        have hb : (some '+' == some '-') = false := by decide
        simp only [beq_self_eq_true, true_or, if_true, hb, hminus, if_false]
        rw [signedResult_ParseUint _ N hN false rest n]
        by_cases hds : rest ≠ [] ∧ rest.all Char.isDigit = true
        · rw [if_pos hds]
          simp only [Bool.false_eq_true, if_false, Option.some.injEq]
          constructor
          · rintro ⟨_, h1, h2⟩; exact ⟨h1.symm, h2⟩
          · rintro ⟨h1, h2⟩; exact ⟨hds, h1.symm, h2⟩
        · rw [if_neg hds]
          exact iff_of_false (fun h => hds h.1) (fun h => by simp at h)
      · have hb1 : (some c == some '-') = false := by simpa using hminus
        have hb2 : (some c == some '+') = false := by simpa using hplus
        simp only [hb1, hb2, Bool.false_eq_true, or_self, if_false, hminus, hplus]
        rw [signedResult_ParseUint _ N hN false (c :: rest) n]
        by_cases hds : (c :: rest).all Char.isDigit = true
        · rw [if_pos hds]
          simp only [Bool.false_eq_true, if_false, Option.some.injEq]
          constructor
          · rintro ⟨_, h1, h2⟩; exact ⟨h1.symm, h2⟩
          · rintro ⟨h1, h2⟩; exact ⟨⟨List.cons_ne_nil _ _, hds⟩, h1.symm, h2⟩
        · rw [if_neg hds]
          exact iff_of_false (fun h => hds h.1.2) (fun h => by simp at h)

/-- The parser of width `N` succeeds exactly on the decimal numerals of the
integers of the signed range and stores the integer modulo `2 ^ N`. -/
theorem parseUintN_ok_iff (N : Nat) (hN : N = 16 ∨ N = 32 ∨ N = 64) (s : String) (v : Nat) :
    parseUintN N s = .ok v ↔
      ∃ n : Int, numeralValue s = some n ∧ -(2 : Int) ^ (N - 1) ≤ n ∧
        n ≤ (2 : Int) ^ (N - 1) - 1 ∧ v = (n % 2 ^ N).toNat := by
  unfold parseUintN
  constructor
  · intro h
    rcases hp : ParseInt s N with err | n
    · rw [hp] at h
      simp at h
    · rw [hp] at h
      simp only [Except.ok.injEq] at h
      obtain ⟨h1, h2, h3⟩ := (ParseInt_ok_iff N hN s n).mp hp
      exact ⟨n, h1, h2, by omega, h.symm⟩
  · rintro ⟨n, h1, h2, h3, h4⟩
    have hp := (ParseInt_ok_iff N hN s n).mpr ⟨h1, h2, by omega⟩
    rw [hp, h4]


/-- A numeral of the range `2 ^ (N - 1) .. 2 ^ N - 1` is rejected by the
parser of width `N`. -/
theorem parseUintN_rejects_upper_half (N : Nat) (hN : N = 16 ∨ N = 32 ∨ N = 64) (s : String)
    (n : Int) (hs : numeralValue s = some n) (hlo : (2 : Int) ^ (N - 1) ≤ n) (v : Nat) :
    parseUintN N s ≠ .ok v := by
  intro h
  obtain ⟨n', h1, _, h3, _⟩ := (parseUintN_ok_iff N hN s v).mp h
  rw [hs] at h1
  simp only [Option.some.injEq] at h1
  omega

/-- A negative numeral of the signed range is accepted by the parser of
width `N` and stored as `2 ^ N + n`. -/
theorem parseUintN_accepts_negative (N : Nat) (hN : N = 16 ∨ N = 32 ∨ N = 64) (s : String)
    (n : Int) (hs : numeralValue s = some n) (hlo : -(2 : Int) ^ (N - 1) ≤ n) (hneg : n < 0) :
    parseUintN N s = .ok ((2 : Int) ^ N + n).toNat ∧
      2 ^ (N - 1) ≤ ((2 : Int) ^ N + n).toNat := by
  have hpow : (2 : Int) ^ N = 2 * 2 ^ (N - 1) := by
    rcases hN with h | h | h <;> subst h <;> norm_num
  have hpos : (0 : Int) < 2 ^ (N - 1) := by positivity
  have hmod : n % 2 ^ N = 2 ^ N + n := by
    rw [← Int.add_emod_self_left]
    exact Int.emod_eq_of_lt (by omega) (by omega)
  refine ⟨(parseUintN_ok_iff N hN s _).mpr ⟨n, hs, hlo, by omega, by rw [hmod]⟩, ?_⟩
  have hnat : ((2 : Nat) ^ (N - 1) : Int) ≤ (2 : Int) ^ N + n := by
    push_cast
    omega
  omega

/-- C28: the unsigned-integer field parsers `parseUint16`, `parseUint32` and
`parseUint64` (width `N = 16, 32, 64`) return a value `v` exactly when the
text is the decimal numeral of an integer `n` of the signed range
`-2 ^ (N - 1) .. 2 ^ (N - 1) - 1`, and then `v` is `n` modulo `2 ^ N`; so the
numeral of an integer of `2 ^ (N - 1) .. 2 ^ N - 1` is rejected although it
fits the field, and the numeral of a negative integer of the signed range is
accepted and stored as `2 ^ N + n`, a value of the upper half of the field. -/
theorem C28_unsigned_parsers (s : String) :
    (∀ v : Nat, parseUint16 s = .ok v ↔
      ∃ n : Int, numeralValue s = some n ∧ -(2 : Int) ^ 15 ≤ n ∧ n ≤ 2 ^ 15 - 1 ∧
        v = (n % 2 ^ 16).toNat) ∧
    (∀ v : Nat, parseUint32 s = .ok v ↔
      ∃ n : Int, numeralValue s = some n ∧ -(2 : Int) ^ 31 ≤ n ∧ n ≤ 2 ^ 31 - 1 ∧
        v = (n % 2 ^ 32).toNat) ∧
    (∀ v : Nat, parseUint64 s = .ok v ↔
      ∃ n : Int, numeralValue s = some n ∧ -(2 : Int) ^ 63 ≤ n ∧ n ≤ 2 ^ 63 - 1 ∧
        v = (n % 2 ^ 64).toNat) ∧
    (∀ n : Int, numeralValue s = some n →
      (((2 : Int) ^ 15 ≤ n → n ≤ 2 ^ 16 - 1 → ∀ v, parseUint16 s ≠ .ok v) ∧
        ((2 : Int) ^ 31 ≤ n → n ≤ 2 ^ 32 - 1 → ∀ v, parseUint32 s ≠ .ok v) ∧
        ((2 : Int) ^ 63 ≤ n → n ≤ 2 ^ 64 - 1 → ∀ v, parseUint64 s ≠ .ok v)) ∧
      (n < 0 →
        (-(2 : Int) ^ 15 ≤ n →
          parseUint16 s = .ok ((2 : Int) ^ 16 + n).toNat ∧
            2 ^ 15 ≤ ((2 : Int) ^ 16 + n).toNat) ∧
        (-(2 : Int) ^ 31 ≤ n →
          parseUint32 s = .ok ((2 : Int) ^ 32 + n).toNat ∧
            2 ^ 31 ≤ ((2 : Int) ^ 32 + n).toNat) ∧
        (-(2 : Int) ^ 63 ≤ n →
          parseUint64 s = .ok ((2 : Int) ^ 64 + n).toNat ∧
            2 ^ 63 ≤ ((2 : Int) ^ 64 + n).toNat))) := by
  have e16 : parseUint16 s = parseUintN 16 s := rfl
  have e32 : parseUint32 s = parseUintN 32 s := rfl
  have e64 : parseUint64 s = parseUintN 64 s := rfl
  rw [e16, e32, e64]
  refine ⟨fun v => parseUintN_ok_iff 16 (by decide) s v,
    fun v => parseUintN_ok_iff 32 (by decide) s v,
    fun v => parseUintN_ok_iff 64 (by decide) s v, ?_⟩
  intro n hs
  refine ⟨⟨fun h _ v => parseUintN_rejects_upper_half 16 (by decide) s n hs h v,
    fun h _ v => parseUintN_rejects_upper_half 32 (by decide) s n hs h v,
    fun h _ v => parseUintN_rejects_upper_half 64 (by decide) s n hs h v⟩, ?_⟩
  intro hneg
  exact ⟨fun h => parseUintN_accepts_negative 16 (by decide) s n hs h hneg,
    fun h => parseUintN_accepts_negative 32 (by decide) s n hs h hneg,
    fun h => parseUintN_accepts_negative 64 (by decide) s n hs h hneg⟩

/-- C28 at concrete texts: `-1` is accepted by `parseUint16` and stored as
`65535`, and `32768`, which fits a `uint16`, is rejected. -/
theorem C28_unsigned_parsers_witness :
    numeralValue "-1" = some (-1) ∧ parseUint16 "-1" = .ok 65535 ∧
      numeralValue "32768" = some 32768 ∧ (∀ v, parseUint16 "32768" ≠ .ok v) :=
  ⟨by decide,
    ((((C28_unsigned_parsers "-1").2.2.2 (-1) (by decide)).2 (by decide)).1
      (by decide)).1.trans (by decide),
    by decide,
    (((C28_unsigned_parsers "32768").2.2.2 32768 (by decide)).1).1 (by decide) (by decide)⟩


open jobsupervisor in
/-- The lookup in a list with one more entry in front. -/
theorem get?_cons (e : String × String) (m : GoMap) (k : String) :
    GoMap.get? (e :: m) k = if e.1 = k then some e.2 else GoMap.get? m k := by
  unfold GoMap.get?
  by_cases h : e.1 = k
  · simp [List.find?_cons, h]
  · simp [List.find?_cons, h]

open jobsupervisor in
/-- The lookup after the entry of `key` was replaced. -/
theorem get?_map_replace (m : GoMap) (key value k : String) :
    GoMap.get? (m.map (fun e => if e.1 == key then (key, value) else e)) k =
      if k = key then (if m.any (fun e => e.1 == key) then some value else none)
      else GoMap.get? m k := by
  induction m with
  | nil => simp [GoMap.get?]
  | cons e m ih =>
    rw [List.map_cons, get?_cons, ih, get?_cons]
    by_cases he : e.1 = key
    · by_cases hk : k = key
      · subst hk
        simp [he]
      · have hk' : ¬ key = k := fun h => hk h.symm
        have hek : ¬ e.1 = k := fun h => hk (h.symm.trans he)
        simp [he, hk, hk']
    · by_cases hk : k = key
      · subst hk
        have heb : (e.1 == k) = false := by simpa using he
        simp only [he, if_false, if_true, List.any_cons, heb, Bool.false_or,
          Bool.false_eq_true]
      · simp [he, hk]

open jobsupervisor in
/-- The lookup after a new entry was appended. -/
theorem get?_append_new (m : GoMap) (key value k : String)
    (hany : ¬ (m.any (fun e => e.1 == key)) = true) :
    GoMap.get? (m ++ [(key, value)]) k = if k = key then some value else GoMap.get? m k := by
  induction m with
  | nil =>
    by_cases hk : k = key
    · subst hk
      simp [GoMap.get?]
    · have hk' : ¬ key = k := fun h => hk h.symm
      simp [GoMap.get?, hk, hk']
  | cons e m ih =>
    simp only [List.any_cons, Bool.or_eq_true, beq_iff_eq, not_or] at hany
    have ih' := ih (by simpa using hany.2)
    rw [List.cons_append, get?_cons, ih', get?_cons]
    by_cases hek : e.1 = k
    · have hk : ¬ k = key := fun h => hany.1 (hek.trans h)
      simp [hek, hk]
    · simp [hek]

open jobsupervisor in
/-- The mapping after `m[key] = value`. -/
theorem get?_mapSet (m : GoMap) (key value k : String) :
    GoMap.get? (mapSet m key value) k = if k = key then some value else GoMap.get? m k := by
  unfold mapSet
  by_cases hany : (m.any (fun e => e.1 == key)) = true
  · rw [if_pos hany, get?_map_replace]
    simp [hany]
  · rw [if_neg hany, get?_append_new m key value k hany]

open jobsupervisor in
/-- The keys stay distinct under `m[key] = value`. -/
theorem WF_mapSet (m : GoMap) (key value : String) (hm : GoMap.WF m) :
    GoMap.WF (mapSet m key value) := by
  unfold mapSet GoMap.WF at *
  by_cases hany : (m.any (fun e => e.1 == key)) = true
  · rw [if_pos hany]
    have : (m.map (fun e => if e.1 == key then (key, value) else e)).map Prod.fst =
        m.map Prod.fst := by
      rw [List.map_map]
      apply List.map_congr_left
      intro x _
      by_cases hx : x.1 = key
      · simp [hx]
      · simp [hx]
    rw [this]
    exact hm
  · rw [if_neg hany, List.map_append]
    simp only [List.map_cons, List.map_nil]
    rw [List.nodup_append]
    refine ⟨hm, List.nodup_singleton _, ?_⟩
    intro a hmem ha
    rw [List.mem_singleton] at ha
    subst ha
    apply hany
    obtain ⟨x, hx, hxk⟩ := List.mem_map.mp hmem
    exact List.any_eq_true.mpr ⟨x, hx, by simp [hxk]⟩


/-- The index of the first `c` is the length of the text before it. -/
theorem indexOf_eq_length_takeWhile (t : List Char) (c : Char) :
    t.indexOf c = (t.takeWhile (fun x => x != c)).length := by
  induction t with
  | nil => rfl
  | cons a t ih =>
    rw [List.indexOf_cons, List.takeWhile_cons]
    by_cases h : a = c
    · subst h
      simp
    · have hb : (a == c) = false := by simpa using h
      simp [hb, h, ih]

/-- The text before the first character that fails `p`, as a prefix. -/
theorem take_length_takeWhile (p : Char → Bool) (t : List Char) :
    t.take (t.takeWhile p).length = t.takeWhile p := by
  induction t with
  | nil => rfl
  | cons a t ih =>
    rw [List.takeWhile_cons]
    by_cases h : p a = true
    · simp [h, ih]
    · simp [h]

/-- The text from the first character that fails `p` on, as a suffix. -/
theorem drop_length_takeWhile (p : Char → Bool) (t : List Char) :
    t.drop (t.takeWhile p).length = t.dropWhile p := by
  induction t with
  | nil => rfl
  | cons a t ih =>
    rw [List.takeWhile_cons, List.dropWhile_cons]
    by_cases h : p a = true
    · simp [h, ih]
    · simp [h]

/-- The first character of the rest after the text before the first `c`. -/
theorem head_dropWhile_ne (t : List Char) (c d : Char) (value : List Char)
    (h : t.dropWhile (fun x => x != c) = d :: value) : d = c := by
  induction t with
  | nil => simp at h
  | cons a t ih =>
    rw [List.dropWhile_cons] at h
    by_cases ha : a = c
    · subst ha
      simp at h
      exact h.1.symm
    · have hb : (a != c) = true := by simpa using ha
      rw [if_pos hb] at h
      exact ih h

/-- The length of a text, split at its first `c`. -/
theorem length_eq_takeWhile_add_dropWhile (p : Char → Bool) (t : List Char) :
    t.length = (t.takeWhile p).length + (t.dropWhile p).length := by
  conv_lhs => rw [← List.takeWhile_append_dropWhile p t]
  rw [List.length_append]

open jobsupervisor in
/-- One turn of the loop of `parseDiskDrive`: the entry of the line is stored,
or the line is skipped when it has none. -/
theorem parseDiskDriveLoop_cons (line : String) (rest : List String) (m : GoMap) :
    parseDiskDriveLoop (line :: rest) m =
      match lineEntry line with
      | none => parseDiskDriveLoop rest m
      | some e => parseDiskDriveLoop rest (mapSet m e.1 e.2) := by
  rw [parseDiskDriveLoop]
  unfold lineEntry indexByte
  generalize trimSpace line.toList = t
  rw [indexOf_eq_length_takeWhile]
  have hlen := length_eq_takeWhile_add_dropWhile (fun x => x != '=') t
  have htake := take_length_takeWhile (fun x => x != '=') t
  have hdrop := drop_length_takeWhile (fun x => x != '=') t
  rcases hd : t.dropWhile (fun x => x != '=') with _ | ⟨d, value⟩
  · rw [hd] at hlen
    simp only [List.length_nil, Nat.add_zero] at hlen
    rw [if_pos hlen.symm]
    simp
  · rw [hd] at hlen hdrop
    simp only [List.length_cons] at hlen
    have hne : ¬ (t.takeWhile (fun x => x != '=')).length = t.length := by omega
    rw [if_neg hne]
    have hdrop1 : t.drop ((t.takeWhile (fun x => x != '=')).length + 1) = value := by
      rw [← List.drop_drop, hdrop]
      rfl
    simp only [Int.toNat_ofNat, htake, hdrop1]
    have h0 : ¬ t.length = 0 := by omega
    rw [if_neg h0]
    generalize t.takeWhile (fun x => x != '=') = key at *
    by_cases hk : key = []
    · subst hk
      simp
    · have hklen : 0 < key.length := List.length_pos.mpr hk
      have h1 : ¬ ((key.length : Int) < 1) := by omega
      rw [if_neg h1]
      by_cases hv : value = []
      · subst hv
        have h2 : (key.length : Int) = (t.length : Int) - 1 := by
          simp only [List.length_nil] at hlen
          omega
        rw [if_pos h2]
        simp
      · have hvlen : 0 < value.length := List.length_pos.mpr hv
        have h2 : ¬ (key.length : Int) = (t.length : Int) - 1 := by omega
        rw [if_neg h2]
        simp [hk, hv]

open jobsupervisor in
/-- The loop of `parseDiskDrive` stores the entries of the qualifying lines
in their order. -/
theorem parseDiskDriveLoop_eq_foldl (lines : List String) (m : GoMap) :
    parseDiskDriveLoop lines m =
      (lines.filterMap lineEntry).foldl (fun m e => mapSet m e.1 e.2) m := by
  induction lines generalizing m with
  | nil => rfl
  | cons line rest ih =>
    rw [parseDiskDriveLoop_cons]
    rcases h : lineEntry line with _ | e
    · simp only [List.filterMap_cons, h]
      exact ih m
    · simp only [List.filterMap_cons, h, List.foldl_cons]
      exact ih _

open jobsupervisor in
/-- The lookup after a run of assignments: the last assignment to the key,
or else the value of before. -/
theorem get?_foldl_mapSet (es : List (String × String)) (m : GoMap) (k : String) :
    GoMap.get? (es.foldl (fun m e => mapSet m e.1 e.2) m) k =
      match (es.reverse.find? (fun e => e.1 == k)).map Prod.snd with
      | some v => some v
      | none => GoMap.get? m k := by
  induction es generalizing m with
  | nil => rfl
  | cons e es ih =>
    rw [List.foldl_cons, ih, List.reverse_cons, List.find?_append]
    rcases hf : es.reverse.find? (fun e => e.1 == k) with _ | e'
    · rw [get?_mapSet]
      by_cases hk : k = e.1
      · subst hk
        simp [hf]
      · have hk' : ¬ e.1 = k := fun h => hk h.symm
        simp [hk, hk', hf]
    · simp [hf]

open jobsupervisor in
/-- The keys stay distinct under a run of assignments. -/
theorem WF_foldl_mapSet (es : List (String × String)) (m : GoMap) (hm : GoMap.WF m) :
    GoMap.WF (es.foldl (fun m e => mapSet m e.1 e.2) m) := by
  induction es generalizing m with
  | nil => exact hm
  | cons e es ih => exact ih _ (WF_mapSet m e.1 e.2 hm)

/-- The map that `parseDiskDrive` returns is the map of its loop. -/
theorem parseDiskDrive_fst (drive : String) :
    (parseDiskDrive drive).1 = parseDiskDriveLoop (splitChar '\n' drive.toList []) [] := by
  unfold parseDiskDrive
  by_cases h : (parseDiskDriveLoop (splitChar '\n' drive.toList []) []).length ≠ 0
  · rw [if_pos h]
  · rw [if_neg h]
    simp only [ne_eq, Decidable.not_not] at h
    exact (List.length_eq_zero.mp h).symm

/-- The text before the first `c` has the length of the index of that
`c`. -/
theorem length_takeWhile_of_first (t : List Char) (c : Char) (n : Nat)
    (h1 : t[n]? = some c) (h2 : ∀ i, i < n → t[i]? ≠ some c) :
    (t.takeWhile (fun x => x != c)).length = n := by
  induction t generalizing n with
  | nil => simp at h1
  | cons a t ih =>
    rw [List.takeWhile_cons]
    cases n with
    | zero =>
      simp at h1
      subst h1
      simp
    | succ n =>
      have ha : a ≠ c := by
        have := h2 0 (by omega)
        simpa using this
      have hb : (a != c) = true := by simpa using ha
      rw [if_pos hb, List.length_cons,
        ih n (by simpa using h1) (fun i hi => by
          have := h2 (i + 1) (by omega)
          simpa using this)]

/-- The rest after the text before the first `c` starts at the first
`c`. -/
theorem first_of_dropWhile (t : List Char) (c d : Char) (value : List Char)
    (h : t.dropWhile (fun x => x != c) = d :: value) :
    t[(t.takeWhile (fun x => x != c)).length]? = some c ∧
      ∀ i, i < (t.takeWhile (fun x => x != c)).length → t[i]? ≠ some c := by
  induction t with
  | nil => simp at h
  | cons a t ih =>
    rw [List.dropWhile_cons] at h
    rw [List.takeWhile_cons]
    by_cases ha : a = c
    · subst ha
      simp
    · have hb : (a != c) = true := by simpa using ha
      rw [if_pos hb] at h
      rw [if_pos hb]
      obtain ⟨h1, h2⟩ := ih h
      refine ⟨by simpa using h1, ?_⟩
      intro i hi
      cases i with
      | zero => simpa using ha
      | succ i =>
        simp only [List.length_cons] at hi
        simpa using h2 i (by omega)


/-- The entry of a line in terms of the index of its first `=`. -/
theorem lineEntry_eq_some_iff (line key value : String) :
    lineEntry line = some (key, value) ↔
      ∃ n, 1 ≤ n ∧ n < (trimSpace line.toList).length - 1 ∧
        (trimSpace line.toList)[n]? = some '=' ∧
        (∀ i, i < n → (trimSpace line.toList)[i]? ≠ some '=') ∧
        key = String.mk ((trimSpace line.toList).take n) ∧
        value = String.mk ((trimSpace line.toList).drop (n + 1)) := by
  unfold lineEntry
  generalize trimSpace line.toList = t
  have hlen := length_eq_takeWhile_add_dropWhile (fun x => x != '=') t
  have htake := take_length_takeWhile (fun x => x != '=') t
  have hdrop := drop_length_takeWhile (fun x => x != '=') t
  constructor
  · intro h
    rcases hd : t.dropWhile (fun x => x != '=') with _ | ⟨d, v⟩
    · rw [hd] at h
      simp at h
    · rw [hd] at h hlen hdrop
      simp only at h
      by_cases hc : t.takeWhile (fun c => c != '=') ≠ [] ∧ v ≠ []
      · rw [if_pos hc] at h
        simp only [Option.some.injEq, Prod.mk.injEq] at h
        obtain ⟨hf1, hf2⟩ := first_of_dropWhile t '=' d v hd
        have hdrop1 : t.drop ((t.takeWhile (fun x => x != '=')).length + 1) = v := by
          rw [← List.drop_drop, hdrop]
          rfl
        have hklen := List.length_pos.mpr hc.1
        have hvlen := List.length_pos.mpr hc.2
        simp only [List.length_cons] at hlen
        refine ⟨(t.takeWhile (fun x => x != '=')).length, hklen, by omega, hf1, hf2, ?_, ?_⟩
        · rw [htake]
          exact h.1.symm
        · rw [hdrop1]
          exact h.2.symm
      · rw [if_neg hc] at h
        simp at h
  · rintro ⟨n, h1, h2, h3, h4, h5, h6⟩
    have hn := length_takeWhile_of_first t '=' n h3 h4
    rw [hn] at htake hdrop hlen
    have hlt : n < t.length := by omega
    have hdn : t.drop n = t[n] :: t.drop (n + 1) := List.drop_eq_getElem_cons hlt
    rw [← hdrop, hdn]
    simp only
    rw [← htake]
    have hk : t.take n ≠ [] := by
      intro h0
      have := congrArg List.length h0
      simp only [List.length_take, List.length_nil] at this
      omega
    have hv : t.drop (n + 1) ≠ [] := by
      intro h0
      have := congrArg List.length h0
      simp only [List.length_drop, List.length_nil] at this
      omega
    rw [if_pos ⟨hk, hv⟩, h5, h6]


open jobsupervisor in
/-- The map of `parseDiskDrive` gives to a key the value of the last
qualifying line with that key. -/
theorem parseDiskDrive_get? (drive key : String) :
    GoMap.get? (parseDiskDrive drive).1 key = lastEntry drive key := by
  rw [parseDiskDrive_fst, parseDiskDriveLoop_eq_foldl, get?_foldl_mapSet]
  unfold lastEntry
  split
  · rename_i v h
    exact h.symm
  · rename_i h
    rw [h]
    rfl

open jobsupervisor in
/-- The map of `parseDiskDrive` is empty exactly when no line qualifies. -/
theorem parseDiskDrive_eq_nil_iff (drive : String) :
    (parseDiskDrive drive).1 = [] ↔
      ∀ line ∈ splitChar '\n' drive.toList [], lineEntry line = none := by
  constructor
  · intro h line hline
    rcases he : lineEntry line with _ | e
    · rfl
    · exfalso
      have hget := parseDiskDrive_get? drive e.1
      rw [h] at hget
      unfold lastEntry at hget
      have hmem : e ∈ (List.filterMap lineEntry (splitChar '\n' drive.toList [])).reverse := by
        rw [List.mem_reverse, List.mem_filterMap]
        exact ⟨line, hline, he⟩
      have hsome : ((List.filterMap lineEntry (splitChar '\n' drive.toList [])).reverse.find?
          (fun x => x.1 == e.1)).isSome = true := by
        rw [List.find?_isSome]
        exact ⟨e, hmem, by simp⟩
      rcases hf : (List.filterMap lineEntry (splitChar '\n' drive.toList [])).reverse.find?
          (fun x => x.1 == e.1) with _ | x
      · rw [hf] at hsome
        simp at hsome
      · rw [hf] at hget
        simp [GoMap.get?] at hget
  · intro h
    rw [parseDiskDrive_fst, parseDiskDriveLoop_eq_foldl]
    have : List.filterMap lineEntry (splitChar '\n' drive.toList []) = [] := by
      rw [List.filterMap_eq_nil_iff]
      exact h
    rw [this]
    rfl

set_option maxRecDepth 1000000 in
/-- The result of `parseDiskDrive` on the sample of the test. -/
theorem parseDiskDrive_sample : parseDiskDrive TestWMICDiskOutput = (ExpDiskMap, none) := by
  decide


open jobsupervisor in
/-- C24: `parseDiskDrive` never returns an error; for every text its result
has distinct keys and gives to each key the value of the last qualifying line
with that key (every other line is ignored), a line qualifying when, after
trimming the surrounding white space, its first `=` is at an index `n` with
`1 ≤ n < length - 1`, the key being the text before that `=` and the value
all the text after it; the result is the nil map exactly when no line
qualifies; and on the WMIC sample of the test it is the expected map of 46
entries. -/
theorem C24_parseDiskDrive (drive : String) :
    (parseDiskDrive drive).2 = none ∧
    GoMap.WF (parseDiskDrive drive).1 ∧
    (∀ key, GoMap.get? (parseDiskDrive drive).1 key = lastEntry drive key) ∧
    ((parseDiskDrive drive).1 = [] ↔
      ∀ line ∈ splitChar '\n' drive.toList [], lineEntry line = none) ∧
    (∀ line key value, lineEntry line = some (key, value) ↔
      ∃ n, 1 ≤ n ∧ n < (trimSpace line.toList).length - 1 ∧
        (trimSpace line.toList)[n]? = some '=' ∧
        (∀ i, i < n → (trimSpace line.toList)[i]? ≠ some '=') ∧
        key = String.mk ((trimSpace line.toList).take n) ∧
        value = String.mk ((trimSpace line.toList).drop (n + 1))) ∧
    parseDiskDrive TestWMICDiskOutput = (ExpDiskMap, none) ∧
    ExpDiskMap.length = 46 ∧ GoMap.WF ExpDiskMap := by
  refine ⟨?_, ?_, parseDiskDrive_get? drive, parseDiskDrive_eq_nil_iff drive,
    lineEntry_eq_some_iff, parseDiskDrive_sample, by decide, by decide⟩
  · unfold parseDiskDrive
    split <;> rfl
  · rw [parseDiskDrive_fst, parseDiskDriveLoop_eq_foldl]
    exact WF_foldl_mapSet _ [] (by decide)

open jobsupervisor in
/-- C24 at a concrete text: the second line with the key `a` overrides the
first, the text after the first `=` is kept whole, and the lines without a
key, without a value or without `=` are ignored. -/
theorem C24_parseDiskDrive_witness :
    parseDiskDrive "a=b\n =x\nfoo\nk=\n  a = c=d  \n=\na=e\n" =
        ([("a", "e"), ("a ", " c=d")], none) ∧
      GoMap.get? (parseDiskDrive "a=b\n =x\nfoo\nk=\n  a = c=d  \n=\na=e\n").1 "a" =
        lastEntry "a=b\n =x\nfoo\nk=\n  a = c=d  \n=\na=e\n" "a" ∧
      lastEntry "a=b\n =x\nfoo\nk=\n  a = c=d  \n=\na=e\n" "a" = some "e" :=
  ⟨by decide, (C24_parseDiskDrive "a=b\n =x\nfoo\nk=\n  a = c=d  \n=\na=e\n").2.2.1 "a",
    by decide⟩


open jobsupervisor in
/-- A field whose name is not a key keeps its value. -/
theorem parseFields_absent (m : GoMap) (d : Disk) (i : Nat) (name : String) (fv : FieldValue)
    (hi : d[i]? = some (name, fv)) (hm : GoMap.get? m name = none) :
    (parseFields m d).2[i]? = some (name, fv) := by
  induction d generalizing i with
  | nil => simp at hi
  | cons f rest ih =>
    obtain ⟨fname, ffv⟩ := f
    unfold parseFields
    rcases hg : GoMap.get? m fname with _ | s
    · cases i with
      | zero => simpa using hi
      | succ i => simpa using ih i (by simpa using hi)
    · simp only
      rcases hp : parseField s ffv with err | v
      · simpa using hi
      · cases i with
        | zero =>
          simp only [List.getElem?_cons_zero, Option.some.injEq, Prod.mk.injEq] at hi
          rw [hi.1, hm] at hg
          simp at hg
        | succ i => simpa using ih i (by simpa using hi)

open jobsupervisor in
/-- Without an error, a field whose name is a key holds the parse of the
mapped text. -/
theorem parseFields_present (m : GoMap) (d : Disk) (hok : (parseFields m d).1 = none)
    (i : Nat) (name : String) (fv : FieldValue) (s : String)
    (hi : d[i]? = some (name, fv)) (hm : GoMap.get? m name = some s) :
    ∃ v, parseField s fv = .ok v ∧ (parseFields m d).2[i]? = some (name, v) := by
  induction d generalizing i with
  | nil => simp at hi
  | cons f rest ih =>
    obtain ⟨fname, ffv⟩ := f
    unfold parseFields at hok ⊢
    rcases hg : GoMap.get? m fname with _ | s'
    · rw [hg] at hok
      simp only at hok
      cases i with
      | zero =>
        simp only [List.getElem?_cons_zero, Option.some.injEq, Prod.mk.injEq] at hi
        rw [hi.1, hm] at hg
        simp at hg
      | succ i => simpa using ih hok i (by simpa using hi)
    · rw [hg] at hok
      simp only at hok ⊢
      rcases hp : parseField s' ffv with err | v
      · rw [hp] at hok
        simp at hok
      · rw [hp] at hok
        simp only at hok ⊢
        cases i with
        | zero =>
          simp only [List.getElem?_cons_zero, Option.some.injEq, Prod.mk.injEq] at hi
          rw [hi.1, hm] at hg
          simp only [Option.some.injEq] at hg
          subst hg
          rw [← hi.2]
          exact ⟨v, hp, by simp [hi.1]⟩
        | succ i => simpa using ih hok i (by simpa using hi)

open jobsupervisor in
/-- The names of the fields stay. -/
theorem parseFields_names (m : GoMap) (d : Disk) :
    (parseFields m d).2.map Prod.fst = d.map Prod.fst := by
  induction d with
  | nil => rfl
  | cons f rest ih =>
    obtain ⟨fname, ffv⟩ := f
    unfold parseFields
    rcases hg : GoMap.get? m fname with _ | s
    · simp [ih]
    · simp only
      rcases hp : parseField s ffv with err | v
      · rfl
      · simp [ih]

/-- The value that `parseField` stores has the kind of the field. -/
theorem parseField_sameKind (s : String) (fv v : FieldValue) (h : parseField s fv = .ok v) :
    FieldValue.sameKind fv v = true := by
  unfold parseField at h
  cases fv <;> simp only [Except.map] at h <;> split at h <;>
    first
    | (simp only [Except.ok.injEq] at h; subst h; rfl)
    | simp at h

set_option maxRecDepth 1000000 in
/-- The result of `parseDisk` on the expected map of the test. -/
theorem parseDisk_sample : parseDisk ExpDiskMap Disk.zero = (none, ExpDisk) := by
  decide


open jobsupervisor in
/-- C25: `parseDisk` populates a `Disk` from a key/value map by field name:
every field whose name is not a key of the map keeps the value it had before
the call; whenever `parseDisk` returns no error, every field whose name is a
key holds the result of `parseField` on the mapped text for the kind of the
field, a value of that same kind; the names of the fields are those of
before; and on the expected map of the test, from the zero `Disk`, it returns
no error and yields the expected `Disk`. -/
theorem C25_parseDisk (m : GoMap) (d : Disk) :
    (∀ (i : Nat) name fv, d[i]? = some (name, fv) → GoMap.get? m name = none →
      (parseDisk m d).2[i]? = some (name, fv)) ∧
    ((parseDisk m d).1 = none →
      ∀ (i : Nat) name fv s, d[i]? = some (name, fv) → GoMap.get? m name = some s →
        ∃ v, parseField s fv = .ok v ∧ FieldValue.sameKind fv v = true ∧
          (parseDisk m d).2[i]? = some (name, v)) ∧
    (parseDisk m d).2.map Prod.fst = d.map Prod.fst ∧
    parseDisk ExpDiskMap Disk.zero = (none, ExpDisk) := by
  refine ⟨fun i name fv hi hm => parseFields_absent m d i name fv hi hm, ?_,
    parseFields_names m d, parseDisk_sample⟩
  intro hok i name fv s hi hm
  obtain ⟨v, hv, hget⟩ := parseFields_present m d hok i name fv s hi hm
  exact ⟨v, hv, parseField_sameKind s fv v hv, hget⟩

/-- C25 at a concrete map with the keys `Size` and `Name`, from the zero
`Disk`: no error is returned, the field `Size` holds the parse of its text
and the field `Availability`, which is not a key, keeps its zero value. -/
theorem C25_parseDisk_witness :
    (parseDisk [("Size", "12"), ("Name", " \"x\" ")] Disk.zero).1 = none ∧
      (∃ v, parseField "12" (.uint64 0) = .ok v ∧
        FieldValue.sameKind (.uint64 0) v = true ∧
        (parseDisk [("Size", "12"), ("Name", " \"x\" ")] Disk.zero).2[37]? =
          some ("Size", v)) ∧
      (parseDisk [("Size", "12"), ("Name", " \"x\" ")] Disk.zero).2[0]? =
        some ("Availability", .uint16 0) ∧
      (parseDisk [("Size", "12"), ("Name", " \"x\" ")] Disk.zero).2[24]? =
        some ("Name", .string "x") :=
  ⟨by decide,
    (C25_parseDisk [("Size", "12"), ("Name", " \"x\" ")] Disk.zero).2.1 (by decide)
      37 "Size" (.uint64 0) "12" (by decide) (by decide),
    (C25_parseDisk [("Size", "12"), ("Name", " \"x\" ")] Disk.zero).1
      0 "Availability" (.uint16 0) (by decide) (by decide),
    by decide⟩

end windisk

namespace agent

open jobsupervisor

/-- A file exists when the search for it finds an entry. -/
theorem FileExists_eq_isSome (fs : FileSystem) (path : String) :
    fs.FileExists path = (fs.files.find? (fun f => f.1 == path)).isSome := by
  unfold FileSystem.FileExists
  induction fs.files with
  | nil => rfl
  | cons f rest ih =>
    rw [List.any_cons, List.find?_cons]
    by_cases h : (f.1 == path) = true
    · simp [h]
    · have h' : (f.1 == path) = false := by simpa using h
      rw [h', Bool.false_or, ih]

/-- Without a scheduled failure, `lastMountedCid` returns the content of
`managed_disk_settings.json`, the empty text when there is no such file. -/
theorem lastMountedCid_of_no_faults (boot : bootstrap) (hread : boot.fs.faults = []) :
    boot.lastMountedCid =
      (.ok ((boot.fileContent "managed_disk_settings.json").getD ""), boot.fs) := by
  unfold bootstrap.lastMountedCid bootstrap.fileContent FileSystem.ReadFile
    FileSystem.nextFault
  rw [FileExists_eq_isSome, hread]
  rcases hf : boot.fs.files.find?
      (fun f => f.1 == filepathJoin [boot.BoshDir, "managed_disk_settings.json"]) with _ | f
  · simp [hf]
  · simp [hf]

/-- Without a scheduled failure, and when the file decodes, the update
settings are read. -/
theorem readUpdateSettings_of_no_faults (boot : bootstrap) (updateSettings : UpdateSettings)
    (hread : boot.fs.faults = [])
    (hparse : match boot.fileContent "update_settings.json" with
      | some contents => boot.unmarshal contents = .ok updateSettings
      | none => updateSettings = {}) :
    boot.readUpdateSettings boot.fs = .ok updateSettings := by
  unfold bootstrap.readUpdateSettings FileSystem.ReadFile FileSystem.nextFault
  unfold bootstrap.fileContent at hparse
  rw [FileExists_eq_isSome, hread]
  rcases hf : boot.fs.files.find?
      (fun f => f.1 == filepathJoin [boot.BoshDir, "update_settings.json"]) with _ | f
  · rw [hf] at hparse
    simp only [Option.map_none'] at hparse
    simp [hparse, hf]
  · rw [hf] at hparse
    simp only [Option.map_some'] at hparse
    simp [hparse, hf]

/-- The loop over the disk associations returns no error exactly when each
of them names a persistent disk. -/
theorem checkDiskAssociations_eq_none_iff (settings : Settings)
    (das : List DiskAssociation) :
    checkDiskAssociations settings das = none ↔
      ∀ da ∈ das, da.DiskCID ∈ settings.Disks.Persistent := by
  induction das with
  | nil => simp [checkDiskAssociations]
  | cons da rest ih =>
    unfold checkDiskAssociations
    by_cases h : da.DiskCID ∈ settings.Disks.Persistent
    · simp [Settings.PersistentDiskSettings, h, ih]
    · simp [Settings.PersistentDiskSettings, h]


/-- C29: when no file-system call fails and `update_settings.json`, if it
exists, decodes to `updateSettings` (the zero value when it does not exist),
`comparePersistentDisk` returns no error if and only if (1) there are no
persistent disks in the settings, or no last-mounted disk CID is recorded
(`managed_disk_settings.json` is absent or empty), or the recorded CID is one
of the persistent disks; (2) every disk association of the update settings
names a CID that is one of the persistent disks; and (3) the number of
persistent disks is at most 1 or does not exceed the number of disk
associations. -/
theorem C29_comparePersistentDisk (boot : bootstrap) (updateSettings : UpdateSettings)
    (hread : boot.fs.faults = [])
    (hparse : match boot.fileContent "update_settings.json" with
      | some contents => boot.unmarshal contents = .ok updateSettings
      | none => updateSettings = {}) :
    boot.comparePersistentDisk = none ↔
      (boot.settings.Disks.Persistent = [] ∨
        (boot.fileContent "managed_disk_settings.json").getD "" = "" ∨
        (boot.fileContent "managed_disk_settings.json").getD "" ∈
          boot.settings.Disks.Persistent) ∧
      (∀ da ∈ updateSettings.DiskAssociations,
        da.DiskCID ∈ boot.settings.Disks.Persistent) ∧
      (boot.settings.Disks.Persistent.length ≤ 1 ∨
        boot.settings.Disks.Persistent.length ≤ updateSettings.DiskAssociations.length) := by
  unfold bootstrap.comparePersistentDisk bootstrap.checkLastMountedCid
  rw [lastMountedCid_of_no_faults boot hread]
  simp only
  generalize (boot.fileContent "managed_disk_settings.json").getD "" = cid
  by_cases h1 : boot.settings.Disks.Persistent.length = 0 ∨ cid = ""
  · rw [if_pos h1]
    simp only
    rw [readUpdateSettings_of_no_faults boot updateSettings hread hparse]
    simp only
    have h1' : boot.settings.Disks.Persistent = [] ∨ cid = "" ∨
        cid ∈ boot.settings.Disks.Persistent := by
      rcases h1 with h | h
      · exact Or.inl (List.length_eq_zero.mp h)
      · exact Or.inr (Or.inl h)
    rcases hc : checkDiskAssociations boot.settings updateSettings.DiskAssociations with _ | err
    · have h2 := (checkDiskAssociations_eq_none_iff _ _).mp hc
      simp only
      constructor
      · intro h
        refine ⟨h1', h2, ?_⟩
        by_contra hcon
        rw [not_or] at hcon
        rw [if_pos (by omega), if_pos (by omega)] at h
        simp at h
      · rintro ⟨_, _, h3⟩
        split
        · rw [if_neg (by omega)]
        · rfl
    · simp only
      constructor
      · intro h
        simp at h
      · rintro ⟨_, h2, _⟩
        rw [(checkDiskAssociations_eq_none_iff _ _).mpr h2] at hc
        simp at hc
  · rw [if_neg h1]
    rw [not_or] at h1
    have hne : boot.settings.Disks.Persistent ≠ [] := fun h => h1.1 (by rw [h]; rfl)
    by_cases hmem : cid ∈ boot.settings.Disks.Persistent
    · have hp : (!boot.settings.PersistentDiskSettings cid) = false := by
        simp [Settings.PersistentDiskSettings, hmem]
      rw [hp]
      simp only [Bool.false_eq_true, if_false]
      rw [readUpdateSettings_of_no_faults boot updateSettings hread hparse]
      simp only
      rcases hc : checkDiskAssociations boot.settings updateSettings.DiskAssociations
        with _ | err
      · have h2 := (checkDiskAssociations_eq_none_iff _ _).mp hc
        simp only
        constructor
        · intro h
          refine ⟨Or.inr (Or.inr hmem), h2, ?_⟩
          by_contra hcon
          rw [not_or] at hcon
          rw [if_pos (by omega), if_pos (by omega)] at h
          simp at h
        · rintro ⟨_, _, h3⟩
          split
          · rw [if_neg (by omega)]
          · rfl
      · simp only
        constructor
        · intro h
          simp at h
        · rintro ⟨_, h2, _⟩
          rw [(checkDiskAssociations_eq_none_iff _ _).mpr h2] at hc
          simp at hc
    · have hp : (!boot.settings.PersistentDiskSettings cid) = true := by
        simp [Settings.PersistentDiskSettings, hmem]
      rw [hp]
      simp only [if_true]
      constructor
      · intro h
        simp at h
      · rintro ⟨h, _, _⟩
        rcases h with h | h | h
        · exact absurd h hne
        · exact absurd h h1.2
        · exact absurd h hmem

/-- C29 at a concrete bootstrap: one persistent disk, recorded as the last
mounted one and named by the one disk association, and no error. -/
theorem C29_comparePersistentDisk_witness :
    testBoot.fs.faults = [] ∧ testBoot.comparePersistentDisk = none ∧
      (∀ da ∈ [({ Name := "d", DiskCID := "cid-1" } : DiskAssociation)],
        da.DiskCID ∈ testBoot.settings.Disks.Persistent) :=
  ⟨rfl, by decide,
    ((C29_comparePersistentDisk testBoot
      { DiskAssociations := [{ Name := "d", DiskCID := "cid-1" }] } rfl
      (show testBoot.unmarshal "assoc" = Except.ok _ from by decide)).mp (by decide)).2.1⟩

end agent
